import Mathlib

/-!
# layoutTool: the modal graph editor (`src/js/modal-handler.js`)

A shallow embedding of the graph model kept by `createModalHandler`:
the vertex list, the edge list, the fill polygon, the selection, and the
handlers that mutate them.

Modelling conventions

* JavaScript numbers are exact rationals (`ℚ`); every finite double is a
  rational, and the arithmetic of the handlers (`+`, `-`, `*`, `/`,
  `Math.round`) is taken exactly.  Division by zero follows Lean (`x / 0 = 0`)
  where JavaScript yields `NaN` or an infinity.
* Objects have identity.  A circle created by `createVertex` is a reference
  (`VRef`) into the heap `State.circles`; `===` on circles is equality of
  references.  A line created by `createEdge` lives in the list `edges` and
  carries its identity in the field `ref`.
* `Math.sqrt`, `Math.atan2`, `Math.cos`, `Math.sin`, `Math.PI`, `toFixed` and
  the unit conversions `toPx` / `toUnit` of `app.js` are parameters (`Env`).
* The rendering surface is modelled only as far as the fill polygons it
  holds (`canvasFills`, bottom of the z-order first) and the event it may fire
  inside `mergeVertices`: whether `modalCanvas.value.remove(obj)` fires
  `selection:cleared` when `obj` is the active object is the parameter
  `Env.removeFiresCleared`.  The active object is the one held in
  `modalSelectedObject`, which the selection handlers keep equal to it.
-/

namespace LayoutTool

/-- Identity of a `fabric.Circle` created by `createVertex`. -/
abbrev VRef := Nat

/-- Identity of a `fabric.Line` created by `createEdge`. -/
abbrev ERef := Nat

/-- JavaScript `Math.round`: the nearest integer, ties towards +infinity. -/
def jsRound (x : ℚ) : ℤ := ⌊x + 1 / 2⌋

/-- The expression `Math.round(x / grid) * grid`. -/
def roundToGrid (x grid : ℚ) : ℚ := (jsRound (x / grid) : ℚ) * grid

/-- The constant `const SNAP_DIST = 10;`. -/
def SNAP_DIST : ℚ := 10

/-- The test `Math.hypot(dx, dy) < d`, decided without the square root: for exact
numbers the test is `0 < d` and `dx² + dy² < d²`. -/
def hypotLt (dx dy d : ℚ) : Bool := decide (0 < d) && decide (dx * dx + dy * dy < d * d)

/-- What the handlers take from outside the file: the numeric functions, and
`removeFiresCleared`, whether the canvas fires `selection:cleared`, before
`remove` returns, when the object removed is its active object (the `Canvas`
of fabric does). -/
structure Env where
  toPx : ℚ → ℚ
  toUnit : ℚ → ℚ
  sqrt : ℚ → ℚ
  atan2 : ℚ → ℚ → ℚ
  cos : ℚ → ℚ
  sin : ℚ → ℚ
  PI : ℚ
  toFixed2 : ℚ → ℚ
  removeFiresCleared : Bool

/-- A `fabric.Circle` of the modal canvas with the fields the handlers use.
`originalLeft` / `originalTop` are `__originalLeft` / `__originalTop`; they are
read only after the edge-drag handler has written them. -/
structure Vertex where
  id : Nat
  left : ℚ
  top : ℚ
  fill : String
  snapTarget : Option VRef
  originalLeft : ℚ
  originalTop : ℚ

/-- A `fabric.Line` made by `createEdge`. `initialMove` is `__initialMove`,
the two `OriginalSelection` fields are `_v1_original_selection` and
`_v2_original_selection`. -/
structure Edge where
  ref : ERef
  v1 : VRef
  v2 : VRef
  x1 : ℚ
  y1 : ℚ
  x2 : ℚ
  y2 : ℚ
  initialMove : Bool
  v1OriginalSelection : Option (ℚ × ℚ)
  v2OriginalSelection : Option (ℚ × ℚ)

/-- The polygon built by `detectAndFillLoops`: its points and `cycle`. -/
structure FillPolygon where
  points : List (ℚ × ℚ)
  cycle : List VRef
deriving DecidableEq

/-- An object a canvas event can target. -/
inductive Obj where
  | circle (r : VRef)
  | line (r : ERef)
deriving DecidableEq

/-- Values of `modalSelectedType`. -/
inductive SelType where
  | vertex
  | edge
deriving DecidableEq

/-- The `edgeProps` ref. -/
structure EdgeProps where
  length : ℚ
  angle : ℚ

/-- The mutable state closed over by `createModalHandler`. -/
structure State where
  circles : VRef → Vertex
  nextRef : Nat
  vertices : List VRef
  edges : List Edge
  fillObject : Option FillPolygon
  canvasFills : List FillPolygon
  modalSelectedObject : Option Obj
  modalSelectedType : Option SelType
  edgeProps : EdgeProps
  autoFill : Bool
  modalGridSize : ℚ

/-- A circle before `createVertex` fills it in. -/
def blankVertex : Vertex :=
  { id := 0, left := 0, top := 0, fill := "", snapTarget := none,
    originalLeft := 0, originalTop := 0 }

/-- The state after `init`: `vertices = []; edges = []; fillObject = null`,
with the refs at their initial values. -/
def init : State :=
  { circles := fun _ => blankVertex
    nextRef := 0
    vertices := []
    edges := []
    fillObject := none
    canvasFills := []
    modalSelectedObject := none
    modalSelectedType := none
    edgeProps := { length := 0, angle := 0 }
    autoFill := true
    modalGridSize := 50 }

/-- Write one circle of the heap. -/
def setCircle (s : State) (r : VRef) (v : Vertex) : State :=
  { s with circles := Function.update s.circles r v }

/-- The line of `edges` with identity `r`, if any. -/
def findLine (s : State) (r : ERef) : Option Edge :=
  s.edges.find? (fun e => decide (e.ref = r))

/-- Source `calculateEdgeProps(line)` for a line with both endpoints set. -/
def calculateEdgeProps (E : Env) (s : State) (line : Edge) : State :=
  let dx := (s.circles line.v2).left - (s.circles line.v1).left
  let dy := (s.circles line.v2).top - (s.circles line.v1).top
  { s with edgeProps :=
      { length := E.toUnit (E.sqrt (dx * dx + dy * dy))
        angle := E.toFixed2 (E.atan2 dy dx * 180 / E.PI) } }

/-- The body of the `edges.forEach` of `updateConnectedEdges`. -/
def syncEdge (s : State) (vertex : VRef) (edge : Edge) : Edge :=
  if edge.v1 = vertex then
    { edge with x1 := (s.circles vertex).left, y1 := (s.circles vertex).top }
  else if edge.v2 = vertex then
    { edge with x2 := (s.circles vertex).left, y2 := (s.circles vertex).top }
  else edge

/-- Source `updateConnectedEdges(vertex)`. A selected line that is no longer in
`edges` has no fields to read in this model and is skipped. -/
def updateConnectedEdges (E : Env) (s : State) (vertex : VRef) : State :=
  let s1 := { s with edges := s.edges.map (syncEdge s vertex) }
  match s1.modalSelectedObject, s1.modalSelectedType with
  | some (Obj.line r), some SelType.edge =>
    match findLine s1 r with
    | some line =>
      if line.v1 = vertex ∨ line.v2 = vertex then calculateEdgeProps E s1 line else s1
    | none => s1
  | _, _ => s1

/-- The method `Map.prototype.has` on the adjacency map. -/
def adjHas (adj : List (Nat × List Nat)) (k : Nat) : Bool := (adj.lookup k).isSome

/-- The call `adj.set(k, [])`: replace the entry of an existing key, else append. -/
def adjSet (adj : List (Nat × List Nat)) (k : Nat) : List (Nat × List Nat) :=
  if adjHas adj k then adj.map (fun p => if p.1 = k then (p.1, []) else p)
  else adj ++ [(k, [])]

/-- The call `adj.get(k).push(x)` for a key that is present. -/
def adjPush (adj : List (Nat × List Nat)) (k x : Nat) : List (Nat × List Nat) :=
  adj.map (fun p => if p.1 = k then (p.1, p.2 ++ [x]) else p)

/-- The adjacency map built at the start of the search: one key per vertex
id, then both directions of every edge whose endpoint ids are keys. The
vertex list holds no `null` entry and every line of `edges` has both
endpoints, so the truthiness tests of the source always pass. -/
def buildAdj (s : State) : List (Nat × List Nat) :=
  let adj0 := s.vertices.foldl (fun adj v => adjSet adj (s.circles v).id) []
  s.edges.foldl
    (fun adj e =>
      if adjHas adj (s.circles e.v1).id && adjHas adj (s.circles e.v2).id then
        adjPush (adjPush adj (s.circles e.v1).id (s.circles e.v2).id)
          (s.circles e.v2).id (s.circles e.v1).id
      else adj)
    adj0

/-- The locals `visited`, `path`, `cycleFound` of `detectAndFillLoops`;
`visited` keeps insertion order, as a JavaScript `Set` does. -/
structure Dfs where
  visited : List Nat
  path : List Nat
  cycleFound : Option (List Nat)

/-- The `for (let neighborId of neighbors)` loop of `findCycle` with the
trailing `path.pop(); return false;`. `recCall` is the recursive call
`findCycle(neighborId, currId)`. -/
def neighborLoop (recCall : Nat → Dfs → Bool × Dfs) (parentId : Option Nat) :
    List Nat → Dfs → Bool × Dfs
  | [], st => (false, { st with path := st.path.dropLast })
  | neighborId :: rest, st =>
    if some neighborId = parentId then neighborLoop recCall parentId rest st
    else if neighborId ∈ st.visited then
      if neighborId ∈ st.path then
        (true, { st with cycleFound := some (st.path.drop (st.path.indexOf neighborId)) })
      else neighborLoop recCall parentId rest st
    else
      let r := recCall neighborId st
      if r.1 then (true, r.2) else neighborLoop recCall parentId rest r.2

/-- The recursive `findCycle(currId, parentId)`. The first argument bounds the
recursion depth; `detectAndFillLoops` passes the number of vertices, which
the depth never exceeds (every call marks a new id as visited). -/
def findCycle (adj : List (Nat × List Nat)) : Nat → Nat → Option Nat → Dfs → Bool × Dfs
  | 0, _, _, st => (false, st)
  | fuel + 1, currId, parentId, st =>
    let st1 : Dfs :=
      { st with
        visited := if currId ∈ st.visited then st.visited else st.visited ++ [currId]
        path := st.path ++ [currId] }
    match adj.lookup currId with
    | none => (false, st1)
    | some neighbors =>
      neighborLoop (fun n st2 => findCycle adj fuel n (some currId) st2) parentId neighbors st1

/-- The `for (let v of vertices)` loop that starts a search at every vertex
not yet visited and stops at the first cycle. -/
def searchRoots (adj : List (Nat × List Nat)) (fuel : Nat) : List Nat → Dfs → Dfs
  | [], st => st
  | vid :: rest, st =>
    if vid ∈ st.visited then searchRoots adj fuel rest st
    else
      let r := findCycle adj fuel vid none st
      if r.1 then r.2 else searchRoots adj fuel rest r.2

/-- The value of `cycleFound` when the search of `detectAndFillLoops` ends. -/
def cycleSearch (s : State) : Option (List Nat) :=
  (searchRoots (buildAdj s) s.vertices.length (s.vertices.map (fun v => (s.circles v).id))
    { visited := [], path := [], cycleFound := none }).cycleFound

/-- The lookup `vertices.find(vx => vx.id === id)`. -/
def findVertexById (s : State) (vid : Nat) : Option VRef :=
  s.vertices.find? (fun vx => decide ((s.circles vx).id = vid))

/-- The mapping `cycleFound.map(id => vertices.find(vx => vx.id === id))`; the result is
`none` when some lookup finds nothing, in which case the source throws on the
next line, before a polygon is stored. -/
def lookupCycle (s : State) : List Nat → Option (List VRef)
  | [] => some []
  | vid :: rest =>
    match findVertexById s vid, lookupCycle s rest with
    | some v, some vs => some (v :: vs)
    | _, _ => none

/-- The polygon `detectAndFillLoops` builds, if any: a cycle of at least 3
ids, each looked up in `vertices`. -/
def computeFill (s : State) : Option FillPolygon :=
  match cycleSearch s with
  | none => none
  | some cycleFound =>
    if 3 ≤ cycleFound.length then
      match lookupCycle s cycleFound with
      | none => none
      | some cycleVertices =>
        some { points := cycleVertices.map (fun v => ((s.circles v).left, (s.circles v).top))
               cycle := cycleVertices }
    else none

/-- The statements `modalCanvas.value.remove(fillObject); fillObject = null;` when a fill is
stored. -/
def clearFill (s : State) : State :=
  match s.fillObject with
  | some f => { s with canvasFills := s.canvasFills.erase f, fillObject := none }
  | none => s

/-- Source `detectAndFillLoops()`. -/
def detectAndFillLoops (s : State) : State :=
  if s.autoFill = false then clearFill s
  else
    let s1 := clearFill s
    if s1.vertices.length < 3 then s1
    else
      match computeFill s1 with
      | some f =>
        { s1 with fillObject := some f, canvasFills := f :: (s1.canvasFills ++ [f]).erase f }
      | none => s1

/-- Source `onModalSelection(e)` with `e.selected` and `e.target`. -/
def onModalSelection (E : Env) (s : State) (selected : List Obj) (target : Option Obj) : State :=
  if 1 < selected.length then s
  else
    match (target <|> selected.head?) with
    | none => { s with modalSelectedObject := none, modalSelectedType := none }
    | some (Obj.circle r) =>
      { s with modalSelectedObject := some (Obj.circle r), modalSelectedType := some SelType.vertex }
    | some (Obj.line r) =>
      match findLine s r with
      | some line =>
        let s1 := calculateEdgeProps E
          { s with modalSelectedObject := some (Obj.line r), modalSelectedType := some SelType.edge }
          line
        { s1 with edges := s1.edges.map (fun e =>
            if e.ref = r then
              { e with
                v1OriginalSelection := some ((s.circles e.v1).left, (s.circles e.v1).top)
                v2OriginalSelection := some ((s.circles e.v2).left, (s.circles e.v2).top) }
            else e) }
      | none => { s with modalSelectedObject := none, modalSelectedType := none }

/-- The `line` branch of the `object:modified` handler. -/
def onLineModified (s : State) (r : ERef) : State :=
  { s with edges := s.edges.map (fun e =>
      if e.ref = r then { e with v1OriginalSelection := none, v2OriginalSelection := none }
      else e) }

/-- The `selection:cleared` handler. -/
def onSelectionCleared (s : State) : State :=
  let s1 :=
    match s.modalSelectedObject with
    | some (Obj.line r) => onLineModified s r
    | _ => s
  { s1 with modalSelectedObject := none, modalSelectedType := none }

/-- The body of the first `edges.forEach` of `mergeVertices`. -/
def rewireEdge (sourceV targetV : VRef) (e : Edge) : Edge :=
  let e1 := if e.v1 = sourceV then { e with v1 := targetV } else e
  if e1.v2 = sourceV then { e1 with v2 := targetV } else e1

/-- The call `modalCanvas.value.remove(obj)` as far as the selection goes: when
`obj` is the active object and the canvas fires `selection:cleared` on removing
it, the `selection:cleared` handler of this file runs before `remove` returns. -/
def canvasRemove (E : Env) (s : State) (obj : Obj) : State :=
  if E.removeFiresCleared = true ∧ s.modalSelectedObject = some obj then onSelectionCleared s
  else s

/-- The statement `edges = edges.filter(e => ...)` of `mergeVertices`: every
edge with `v1 === v2` is removed from the canvas, in list order, and dropped
from the list. -/
def removeSelfLoops (E : Env) (s : State) : State :=
  let s1 := (s.edges.filter (fun e => decide (e.v1 = e.v2))).foldl
    (fun t e => canvasRemove E t (Obj.line e.ref)) s
  { s1 with edges := s1.edges.filter (fun e => decide (e.v1 ≠ e.v2)) }

/-- Source `mergeVertices(sourceV, targetV)`. -/
def mergeVertices (E : Env) (s : State) (sourceV targetV : VRef) : State :=
  let s1 := { s with edges := s.edges.map (rewireEdge sourceV targetV) }
  let s1r := canvasRemove E s1 (Obj.circle sourceV)
  let s2 := { s1r with vertices := s1r.vertices.filter (fun v => decide (v ≠ sourceV)) }
  let s3 := removeSelfLoops E s2
  let s4 := updateConnectedEdges E s3 targetV
  let s5 :=
    if s4.modalSelectedObject = some (Obj.circle sourceV) then
      onModalSelection E s4 [Obj.circle targetV] none
    else s4
  detectAndFillLoops s5

/-- The snap loop of `handleVertexDrag`: the first vertex of the list other
than the dragged one whose distance to it is below `SNAP_DIST`. -/
def findSnapTarget (s : State) (vertex : VRef) : Option VRef :=
  s.vertices.find? (fun v =>
    decide (v ≠ vertex) &&
      hypotLt ((s.circles v).left - (s.circles vertex).left)
        ((s.circles v).top - (s.circles vertex).top) SNAP_DIST)

/-- Source `handleVertexDrag(vertex)` up to and including the snap loop. -/
def dragSnap (E : Env) (s : State) (vertex : VRef) : State :=
  let grid := s.modalGridSize
  let s1 := setCircle s vertex
    { s.circles vertex with
      left := roundToGrid (s.circles vertex).left grid
      top := roundToGrid (s.circles vertex).top grid }
  let s2 := updateConnectedEdges E s1 vertex
  let s3 := setCircle s2 vertex { s2.circles vertex with fill := "#e74c3c", snapTarget := none }
  match findSnapTarget s3 vertex with
  | some v =>
    setCircle s3 vertex
      { s3.circles vertex with
        left := (s3.circles v).left
        top := (s3.circles v).top
        fill := "#2ecc71"
        snapTarget := some v }
  | none => s3

/-- Source `handleVertexDrag(vertex)`. -/
def handleVertexDrag (E : Env) (s : State) (vertex : VRef) : State :=
  detectAndFillLoops (updateConnectedEdges E (dragSnap E s vertex) vertex)

/-- Source `handleVertexDrop(vertex)`. -/
def handleVertexDrop (E : Env) (s : State) (vertex : VRef) : State :=
  match (s.circles vertex).snapTarget with
  | some t => mergeVertices E s vertex t
  | none => detectAndFillLoops s

/-- Source `createVertex(x, y)`; `newId` is the value of `Date.now() + Math.random()`. -/
def createVertex (s : State) (x y : ℚ) (newId : Nat) : State × VRef :=
  ({ s with
      circles := Function.update s.circles s.nextRef
        { id := newId, left := x, top := y, fill := "#e74c3c", snapTarget := none,
          originalLeft := 0, originalTop := 0 }
      nextRef := s.nextRef + 1
      vertices := s.vertices ++ [s.nextRef] },
    s.nextRef)

/-- Source `createEdge(v1, v2)`. -/
def createEdge (s : State) (v1 v2 : VRef) : State × Edge :=
  let line : Edge :=
    { ref := s.nextRef, v1 := v1, v2 := v2
      x1 := (s.circles v1).left, y1 := (s.circles v1).top
      x2 := (s.circles v2).left, y2 := (s.circles v2).top
      initialMove := false, v1OriginalSelection := none, v2OriginalSelection := none }
  ({ s with nextRef := s.nextRef + 1, edges := s.edges ++ [line] }, line)

/-- Source `onVertexInput(axis, value)`. -/
def onVertexInput (E : Env) (s : State) (axis : String) (value : ℚ) : State :=
  match s.modalSelectedObject with
  | some (Obj.circle v) =>
    let pxValue := E.toPx value
    let s1 :=
      if axis = "x" then setCircle s v { s.circles v with left := pxValue }
      else setCircle s v { s.circles v with top := pxValue }
    detectAndFillLoops (updateConnectedEdges E s1 v)
  | _ => s

/-- Source `updateEdgeFromParam(type)`. -/
def updateEdgeFromParam (E : Env) (s : State) (type : String) : State :=
  match s.modalSelectedObject with
  | some (Obj.line r) =>
    match findLine s r with
    | some line =>
      let s1 :=
        if type = "length" then
          let len := E.toPx s.edgeProps.length
          let curAng := E.atan2 (line.y2 - line.y1) (line.x2 - line.x1)
          let sa := setCircle s line.v2
            { s.circles line.v2 with left := (s.circles line.v1).left + len * E.cos curAng }
          setCircle sa line.v2
            { sa.circles line.v2 with top := (sa.circles line.v1).top + len * E.sin curAng }
        else if type = "angle" then
          let ang := s.edgeProps.angle * E.PI / 180
          let dx := line.x2 - line.x1
          let dy := line.y2 - line.y1
          let curLen := E.sqrt (dx * dx + dy * dy)
          let sa := setCircle s line.v2
            { s.circles line.v2 with left := (s.circles line.v1).left + curLen * E.cos ang }
          setCircle sa line.v2
            { sa.circles line.v2 with top := (sa.circles line.v1).top + curLen * E.sin ang }
        else s
      let s2 := detectAndFillLoops (updateConnectedEdges E s1 line.v2)
      match findLine s2 r with
      | some line2 => calculateEdgeProps E s2 line2
      | none => s2
    | none => s
  | _ => s

/-- The `line` branch of the `object:moving` handler. `transform` is
`e.transform` reduced to the four numbers read from it: the new centre point
and the original `left` / `top`. -/
def onLineMoving (E : Env) (s : State) (r : ERef) (transform : Option ((ℚ × ℚ) × (ℚ × ℚ))) :
    State :=
  match findLine s r with
  | none => s
  | some line =>
    match transform with
    | none => s
    | some (newCenter, original) =>
      let dx := newCenter.1 - original.1
      let dy := newCenter.2 - original.2
      let s1 :=
        if line.initialMove = false then
          let sa : State :=
            { s with edges := s.edges.map (fun e =>
                if e.ref = r then { e with initialMove := true } else e) }
          let sb := setCircle sa line.v1
            { sa.circles line.v1 with
              originalLeft := (sa.circles line.v1).left
              originalTop := (sa.circles line.v1).top }
          setCircle sb line.v2
            { sb.circles line.v2 with
              originalLeft := (sb.circles line.v2).left
              originalTop := (sb.circles line.v2).top }
        else s
      let grid := s1.modalGridSize
      let s2 := setCircle s1 line.v1
        { s1.circles line.v1 with
          left := roundToGrid ((s1.circles line.v1).originalLeft + dx) grid
          top := roundToGrid ((s1.circles line.v1).originalTop + dy) grid }
      let s3 := setCircle s2 line.v2
        { s2.circles line.v2 with
          left := roundToGrid ((s2.circles line.v2).originalLeft + dx) grid
          top := roundToGrid ((s2.circles line.v2).originalTop + dy) grid }
      detectAndFillLoops (updateConnectedEdges E (updateConnectedEdges E s3 line.v1) line.v2)

/-- Source `addModalLine()`; the ids are those drawn by the two `createVertex` calls. -/
def addModalLine (s : State) (id1 id2 : Nat) : State :=
  let (s1, v1) := createVertex s 100 100 id1
  let (s2, v2) := createVertex s1 200 200 id2
  detectAndFillLoops (createEdge s2 v1 v2).1

/-- Source `addModalRectGraph()`. -/
def addModalRectGraph (s : State) (id1 id2 id3 id4 : Nat) : State :=
  let (s1, v1) := createVertex s 150 150 id1
  let (s2, v2) := createVertex s1 350 150 id2
  let (s3, v3) := createVertex s2 350 300 id3
  let (s4, v4) := createVertex s3 150 300 id4
  let s5 := (createEdge s4 v1 v2).1
  let s6 := (createEdge s5 v2 v3).1
  let s7 := (createEdge s6 v3 v4).1
  detectAndFillLoops (createEdge s7 v4 v1).1

/-- Source `addModalPolygonGraph()`; `ids i` is the id drawn for the i-th vertex. -/
def addModalPolygonGraph (E : Env) (s : State) (ids : Nat → Nat) : State :=
  let sides : Nat := 5
  let radius : ℚ := 80
  let cx : ℚ := 300
  let cy : ℚ := 200
  let r1 := (List.range sides).foldl
    (fun (acc : State × List VRef) (i : Nat) =>
      let ang := ((i : ℚ) * 2 * E.PI / (sides : ℚ)) - E.PI / 2
      let r := createVertex acc.1 (cx + radius * E.cos ang) (cy + radius * E.sin ang) (ids i)
      (r.1, acc.2 ++ [r.2]))
    (s, [])
  let s2 := (List.range sides).foldl
    (fun (acc : State) (i : Nat) =>
      (createEdge acc (r1.2.getD i 0) (r1.2.getD ((i + 1) % sides) 0)).1)
    r1.1
  detectAndFillLoops s2

/-- The pointer moves circle `v` to `(x, y)`: what the canvas does to a dragged
object before it fires `object:moving`. -/
def pointerMove (s : State) (v : VRef) (x y : ℚ) : State :=
  setCircle s v { s.circles v with left := x, top := y }

/-- The entry points that mutate the graph model: the exported functions, the
canvas event handlers, the pointer moving a circle, and the form fields bound
to `autoFill`, `modalGridSize` and `edgeProps`. -/
inductive Op where
  | addModalLine (id1 id2 : Nat)
  | addModalRectGraph (id1 id2 id3 id4 : Nat)
  | addModalPolygonGraph (ids : Nat → Nat)
  | handleVertexDrag (vertex : VRef)
  | handleVertexDrop (vertex : VRef)
  | mergeVertices (sourceV targetV : VRef)
  | lineMoving (r : ERef) (transform : Option ((ℚ × ℚ) × (ℚ × ℚ)))
  | lineModified (r : ERef)
  | onVertexInput (axis : String) (value : ℚ)
  | updateEdgeFromParam (type : String)
  | detectAndFillLoops
  | select (selected : List Obj) (target : Option Obj)
  | selectionCleared
  | pointerMove (vertex : VRef) (x y : ℚ)
  | setAutoFill (value : Bool)
  | setGridSize (value : ℚ)
  | setEdgeProps (length angle : ℚ)

/-- One mutation of the model. -/
def step (E : Env) (s : State) : Op → State
  | Op.addModalLine a b => addModalLine s a b
  | Op.addModalRectGraph a b c d => addModalRectGraph s a b c d
  | Op.addModalPolygonGraph ids => addModalPolygonGraph E s ids
  | Op.handleVertexDrag v => handleVertexDrag E s v
  | Op.handleVertexDrop v => handleVertexDrop E s v
  | Op.mergeVertices a b => mergeVertices E s a b
  | Op.lineMoving r t => onLineMoving E s r t
  | Op.lineModified r => onLineModified s r
  | Op.onVertexInput axis value => onVertexInput E s axis value
  | Op.updateEdgeFromParam t => updateEdgeFromParam E s t
  | Op.detectAndFillLoops => detectAndFillLoops s
  | Op.select sel t => onModalSelection E s sel t
  | Op.selectionCleared => onSelectionCleared s
  | Op.pointerMove v x y => pointerMove s v x y
  | Op.setAutoFill b => { s with autoFill := b }
  | Op.setGridSize g => { s with modalGridSize := g }
  | Op.setEdgeProps l a => { s with edgeProps := { length := l, angle := a } }

/-- The precondition of a merge: `source != target` and `target` currently in
the vertex list. A drop merges into the stored snap target. -/
def MergeReady (s : State) : Op → Prop
  | Op.mergeVertices a b => a ≠ b ∧ b ∈ s.vertices
  | Op.handleVertexDrop v =>
    ∀ t, (s.circles v).snapTarget = some t → v ≠ t ∧ t ∈ s.vertices
  | _ => True

/-- No dangling references: both endpoints of every edge are in the vertex
list. -/
def NoDangling (s : State) : Prop :=
  ∀ e ∈ s.edges, e.v1 ∈ s.vertices ∧ e.v2 ∈ s.vertices

/-- The endpoint references of the edge list, in order. -/
def endpoints (s : State) : List (VRef × VRef) := s.edges.map (fun e => (e.v1, e.v2))

/-- A concrete environment for running the handlers on examples: the `mks`
unit system of `app.js` (100 pixels per unit), stand-ins for the
transcendental functions, and a canvas that fires `selection:cleared` when its
active object is removed. -/
def sampleEnv : Env :=
  { toPx := fun u => (jsRound (u * 100) : ℚ)
    toUnit := fun px => (jsRound (px / 100 * 1000) : ℚ) / 1000
    sqrt := fun _ => 0
    atan2 := fun _ _ => 0
    cos := fun _ => 1
    sin := fun _ => 0
    PI := 355 / 113
    toFixed2 := fun x => (jsRound (x * 100) : ℚ) / 100
    removeFiresCleared := true }

/-- Squared Euclidean distance from the position of vertex `u` to the point
`(px, py)`. -/
def distSq (s : State) (u : VRef) (px py : ℚ) : ℚ :=
  ((s.circles u).left - px) * ((s.circles u).left - px) +
    ((s.circles u).top - py) * ((s.circles u).top - py)

/-- The grid-rounded position `handleVertexDrag` gives the dragged vertex
before it looks for a snap target. -/
def roundedPos (s : State) (v : VRef) : ℚ × ℚ :=
  (roundToGrid (s.circles v).left s.modalGridSize, roundToGrid (s.circles v).top s.modalGridSize)

/-- Vertex `u` is another vertex whose Euclidean distance to the grid-rounded
position of the dragged vertex `v` is strictly less than `SNAP_DIST`. -/
def InSnapRange (s : State) (v u : VRef) : Prop :=
  u ≠ v ∧ distSq s u (roundedPos s v).1 (roundedPos s v).2 < SNAP_DIST * SNAP_DIST

instance (s : State) (v u : VRef) : Decidable (InSnapRange s v u) := by
  unfold InSnapRange; infer_instance

/-- Three vertices: 0 at the origin, 1 at (6, 0), 2 at (3, 0). -/
def threeInLine : State :=
  (createVertex (createVertex (createVertex init 0 0 1).1 6 0 2).1 3 0 3).1

/-- Four vertices: 0 at the origin, 1 at (6, 0), 2 at (3, 0), 3 at (-3, 0). -/
def fourInLine : State := (createVertex threeInLine (-3) 0 4).1

/-- Four vertices: 0 at the origin, 1 at (3, 0), 2 at (-3, 0), 3 at (6, 0). -/
def tiedFirst : State :=
  (createVertex (createVertex (createVertex (createVertex init 0 0 1).1 3 0 2).1 (-3) 0 3).1
    6 0 4).1

/-- The line of `addModalLine` with the grid size set to 7 and its second
vertex dragged to (99, 97). -/
def offGrid : State :=
  pointerMove { addModalLine init 1 2 with modalGridSize := 7 } 1 99 97

/-! ### Vocabulary for the cycle search -/

/-- The ids of the vertex list, in order. -/
def vertexIds (s : State) : List Nat := s.vertices.map (fun v => (s.circles v).id)

/-- The ids of the two endpoints of every edge, in order. -/
def edgeIdPairs (s : State) : List (Nat × Nat) :=
  s.edges.map (fun e => ((s.circles e.v1).id, (s.circles e.v2).id))

/-- The adjacency map of `buildAdj` as a function of the id lists. -/
def adjOfLists (ids : List Nat) (pairs : List (Nat × Nat)) : List (Nat × List Nat) :=
  pairs.foldl
    (fun adj p =>
      if adjHas adj p.1 && adjHas adj p.2 then adjPush (adjPush adj p.1 p.2) p.2 p.1 else adj)
    (ids.foldl adjSet [])

/-- Id `b` occurs in the neighbour array of id `a`. -/
def Nbr (adj : List (Nat × List Nat)) (a b : Nat) : Prop :=
  ∃ ns, adj.lookup a = some ns ∧ b ∈ ns

/-- Every neighbour is a key, and the neighbour relation is symmetric. -/
structure AdjOK (adj : List (Nat × List Nat)) : Prop where
  closed : ∀ a b, Nbr adj a b → (adj.lookup b).isSome = true
  symm : ∀ a b, Nbr adj a b → Nbr adj b a

/-- Id `a` was visited strictly before id `m`. -/
def Before (visited : List Nat) (a m : Nat) : Prop := visited.indexOf a < visited.indexOf m

/-- All neighbours of `m` visited before `m` coincide: `m` has at most one
earlier neighbour (its parent in the search forest). -/
def UniqueEarlier (adj : List (Nat × List Nat)) (visited : List Nat) (m : Nat) : Prop :=
  ∀ a b, Nbr adj m a → Nbr adj m b → Before visited a m → Before visited b m → a = b

/-- The keys of the adjacency map not yet visited. -/
def unvisited (adj : List (Nat × List Nat)) (visited : List Nat) : List Nat :=
  (adj.map Prod.fst).filter (fun k => decide (k ∉ visited))

/-- The invariant of the search between calls of `findCycle`, on the
`visited` set and the `path` stack. -/
structure DfsInv (adj : List (Nat × List Nat)) (visited path : List Nat) : Prop where
  vnodup : visited.Nodup
  pnodup : path.Nodup
  psub : ∀ x ∈ path, x ∈ visited
  chain : List.Chain' (Nbr adj) path
  closed : ∀ y ∈ visited, y ∉ path → ∀ z, Nbr adj y z → z ∈ visited
  unique : ∀ m ∈ visited, m ∉ path → UniqueEarlier adj visited m

/-- What a call `findCycle(c, parent)` may assume of the state it starts in. -/
structure CallPre (adj : List (Nat × List Nat)) (fuel c : Nat) (parent : Option Nat)
    (st : Dfs) : Prop where
  inv : DfsInv adj st.visited st.path
  key : (adj.lookup c).isSome = true
  fresh : c ∉ st.visited
  par : parent = st.path.getLast?
  edge : ∀ n, parent = some n → Nbr adj n c
  fuelOk : (unvisited adj st.visited).length ≤ fuel
  noCycle : st.cycleFound = none

/-- A closed walk without repeated ids in the adjacency map: consecutive ids
are neighbours, and so are the last and the first. -/
structure GoodCycle (adj : List (Nat × List Nat)) (cyc : List Nat) : Prop where
  nodup : cyc.Nodup
  chain : List.Chain' (Nbr adj) cyc
  close : ∀ h l, cyc.head? = some h → cyc.getLast? = some l → Nbr adj l h
  nonempty : cyc ≠ []

/-- What a call `findCycle(c, parent)` started in `st` guarantees of its
result `r`: on `false` the path is restored and `c` with everything reached
from it is visited; on `true` a cycle is stored. -/
structure CallSpec (adj : List (Nat × List Nat)) (c : Nat) (st : Dfs) (r : Bool × Dfs) :
    Prop where
  onFalse : r.1 = false →
    DfsInv adj r.2.visited r.2.path ∧ r.2.path = st.path ∧
      (∃ X, r.2.visited = st.visited ++ c :: X) ∧ r.2.cycleFound = none
  onTrue : r.1 = true →
    ∃ cyc, r.2.cycleFound = some cyc ∧ GoodCycle adj cyc ∧
      ((∀ a, ¬ Nbr adj a a) → 3 ≤ cyc.length)

/-- What the neighbour loop of `findCycle(c, parent)` guarantees after running
over `rest` from state `st`; `P` and `W0` are the path and the visited set
before `c` was pushed. -/
structure LoopSpec (adj : List (Nat × List Nat)) (c : Nat) (parent : Option Nat)
    (P W0 rest : List Nat) (st : Dfs) (r : Bool × Dfs) : Prop where
  onFalse : r.1 = false →
    DfsInv adj r.2.visited (P ++ [c]) ∧ r.2.path = P ∧
      (∃ Y, r.2.visited = st.visited ++ Y) ∧ r.2.cycleFound = none ∧
      (∀ y ∈ rest, y ∈ r.2.visited) ∧ (∀ y ∈ rest, y ∈ W0 → some y = parent)
  onTrue : r.1 = true →
    ∃ cyc, r.2.cycleFound = some cyc ∧ GoodCycle adj cyc ∧
      ((∀ a, ¬ Nbr adj a a) → 3 ≤ cyc.length)

/-- Vertices `u` and `w` are joined by an edge of the edge list. -/
def Joined (s : State) (u w : VRef) : Prop :=
  ∃ e ∈ s.edges, (e.v1 = u ∧ e.v2 = w) ∨ (e.v1 = w ∧ e.v2 = u)

/-- A cycle of the graph: at least 3 pairwise distinct vertices, every two
consecutive ones, and the last and the first, joined by an edge. -/
structure IsCycle (s : State) (cyc : List VRef) : Prop where
  long : 3 ≤ cyc.length
  nodup : cyc.Nodup
  chain : List.Chain' (Joined s) cyc
  close : ∀ h l, cyc.head? = some h → cyc.getLast? = some l → Joined s l h

/-- The vertex objects the graph refers to: the vertex list and the endpoints
of the edges. -/
def graphRefs (s : State) : List VRef :=
  s.vertices ++ s.edges.map (fun e => e.v1) ++ s.edges.map (fun e => e.v2)

/-- The vertices of the graph have pairwise distinct ids. -/
def DistinctIds (s : State) : Prop :=
  ∀ a ∈ graphRefs s, ∀ b ∈ graphRefs s, (s.circles a).id = (s.circles b).id → a = b

/-- No edge joins a vertex to itself. -/
def NoSelfLoop (s : State) : Prop := ∀ e ∈ s.edges, e.v1 ≠ e.v2

/-- The fill polygon `detectAndFillLoops` leaves, as a function of the graph. -/
def fillResult (s : State) : Option FillPolygon :=
  if s.autoFill = false then none
  else if s.vertices.length < 3 then none
  else computeFill s

/-- The stored fill polygon together with the fill polygons on the canvas. -/
def fills (s : State) : Option FillPolygon × List FillPolygon := (s.fillObject, s.canvasFills)

/-- The canvas holds exactly the fill polygon stored in `fillObject`. -/
def FillTracked (s : State) : Prop := s.canvasFills = s.fillObject.toList

/-- The four `createVertex` calls of `addModalRectGraph` followed by its
`createEdge` calls, the `skip`-th of them (counted from 0) left out. -/
def rectBuild (s : State) (id1 id2 id3 id4 : Nat) (skip : Nat) : State :=
  let (s1, v1) := createVertex s 150 150 id1
  let (s2, v2) := createVertex s1 350 150 id2
  let (s3, v3) := createVertex s2 350 300 id3
  let (s4, v4) := createVertex s3 150 300 id4
  let s5 := if skip = 0 then s4 else (createEdge s4 v1 v2).1
  let s6 := if skip = 1 then s5 else (createEdge s5 v2 v3).1
  let s7 := if skip = 2 then s6 else (createEdge s6 v3 v4).1
  if skip = 3 then s7 else (createEdge s7 v4 v1).1

/-- The construction of `addModalRectGraph` with the `skip`-th of its four
`createEdge` calls left out. -/
def rectGraphOmitting (s : State) (id1 id2 id3 id4 : Nat) (skip : Nat) : State :=
  detectAndFillLoops (rectBuild s id1 id2 id3 id4 skip)

/-! ### Vocabulary for edge geometry, units and edge drags -/

/-- The rendered endpoint of every edge equals the position of its vertex, at
every endpoint whose vertex does not satisfy `P`. -/
def SyncedOff (s : State) (P : VRef → Prop) : Prop :=
  ∀ e ∈ s.edges,
    (¬ P e.v1 → e.x1 = (s.circles e.v1).left ∧ e.y1 = (s.circles e.v1).top) ∧
      (¬ P e.v2 → e.x2 = (s.circles e.v2).left ∧ e.y2 = (s.circles e.v2).top)

/-- Geometry is derived from the vertices: for every edge, `(x1, y1)` is the
position of `v1` and `(x2, y2)` is the position of `v2`. -/
def GeomSynced (s : State) : Prop :=
  ∀ e ∈ s.edges,
    (e.x1 = (s.circles e.v1).left ∧ e.y1 = (s.circles e.v1).top) ∧
      (e.x2 = (s.circles e.v2).left ∧ e.y2 = (s.circles e.v2).top)

/-- A line without the two selection markers `_v1_original_selection` and
`_v2_original_selection`, the only fields the `selection:cleared` handler
deletes. -/
def lineCore (e : Edge) : ERef × VRef × VRef × ℚ × ℚ × ℚ × ℚ × Bool :=
  (e.ref, e.v1, e.v2, e.x1, e.y1, e.x2, e.y2, e.initialMove)

/-- State `t` is state `s` up to the selection and the selection markers of
the lines. -/
structure SameGraph (t s : State) : Prop where
  circles : t.circles = s.circles
  nextRef : t.nextRef = s.nextRef
  vertices : t.vertices = s.vertices
  core : t.edges.map lineCore = s.edges.map lineCore
  fillObject : t.fillObject = s.fillObject
  canvasFills : t.canvasFills = s.canvasFills
  edgeProps : t.edgeProps = s.edgeProps
  autoFill : t.autoFill = s.autoFill
  modalGridSize : t.modalGridSize = s.modalGridSize

/-- The endpoint references and rendered endpoints of the edge list. -/
def geom (s : State) : List (VRef × VRef × ℚ × ℚ × ℚ × ℚ) :=
  s.edges.map (fun e => (e.v1, e.v2, e.x1, e.y1, e.x2, e.y2))

/-- An entry of the table `UNIT_SYSTEMS` of `app.js` together with its key; of
its fields only `pixelsPerUnit` is read by `toPx` and `toUnit`. -/
structure UnitSystem where
  key : String
  pixelsPerUnit : ℚ

/-- The entry `mks` of `UNIT_SYSTEMS`, the one selected when the application
starts (`currentUnitKey = ref('mks')`). -/
def mks : UnitSystem := { key := "mks", pixelsPerUnit := 100 }

/-- The entry `mmgs` of `UNIT_SYSTEMS`. -/
def mmgs : UnitSystem := { key := "mmgs", pixelsPerUnit := 1 }

/-- The entry `ips` of `UNIT_SYSTEMS`. -/
def ips : UnitSystem := { key := "ips", pixelsPerUnit := 96 }

/-- The table `UNIT_SYSTEMS` of `app.js`. -/
def UNIT_SYSTEMS : List UnitSystem := [mks, mmgs, ips]

/-- Source `toPx(unitVal)` of `app.js` with `currentUnit` the given unit
system: `Math.round(parseFloat(unitVal) * currentUnit.value.pixelsPerUnit)`. -/
def toPx (u : UnitSystem) (unitVal : ℚ) : ℚ := (jsRound (unitVal * u.pixelsPerUnit) : ℚ)

/-- Source `toUnit(px)` of `app.js` with `currentUnit` the given unit system:
`Math.round(val)` in `mmgs`, else `parseFloat(val.toFixed(3))`, the rounding to
three decimals, for `val = px / pixelsPerUnit`. -/
def toUnit (u : UnitSystem) (px : ℚ) : ℚ :=
  if u.key = "mmgs" then (jsRound (px / u.pixelsPerUnit) : ℚ)
  else (jsRound (px / u.pixelsPerUnit * 1000) : ℚ) / 1000

/-- The numeric functions of the environment return the exact real values at
the arguments of the parametric-edit example, with `Math.PI` standing for the
real number pi and `atan2(y, x)` for the argument of `x + y i`. -/
structure ExactTrig (E : Env) : Prop where
  atan2_axis : ((E.atan2 0 10 : ℚ) : ℝ) = Complex.arg ((10 : ℝ) + (0 : ℝ) * Complex.I)
  cos_zero : ((E.cos 0 : ℚ) : ℝ) = Real.cos 0
  sin_zero : ((E.sin 0 : ℚ) : ℝ) = Real.sin 0
  sqrt_hundred : ((E.sqrt 100 : ℚ) : ℝ) = Real.sqrt 100
  cos_right : ((E.cos (90 * E.PI / 180) : ℚ) : ℝ) = Real.cos (90 * Real.pi / 180)
  sin_right : ((E.sin (90 * E.PI / 180) : ℚ) : ℝ) = Real.sin (90 * Real.pi / 180)

/-- An environment for the given unit system whose numeric functions are
exact at the arguments of the parametric-edit example. -/
def exactEnv (u : UnitSystem) : Env :=
  { toPx := toPx u
    toUnit := toUnit u
    sqrt := fun x => if x = 100 then 10 else 0
    atan2 := fun _ _ => 0
    cos := fun x => if x = 0 then 1 else 0
    sin := fun x => if x = 0 then 0 else 1
    PI := 355 / 113
    toFixed2 := fun x => (jsRound (x * 100) : ℚ) / 100
    removeFiresCleared := true }

/-- One edge from vertex 0 at (0, 0) to vertex 1 at (10, 0); the line has
reference 2. -/
def paramLine : State :=
  (createEdge (createVertex (createVertex init 0 0 1).1 10 0 2).1 0 1).1

/-- The edge of `paramLine` selected, with the given values typed into the
length and angle fields. -/
def paramState (E : Env) (length angle : ℚ) : State :=
  { onModalSelection E paramLine [Obj.line 2] none with
    edgeProps := { length := length, angle := angle } }

/-- One `object:moving` event of an edge drag: the pointer has moved the line
by `(dx, dy)` from where the drag started at centre `(cx, cy)`. -/
def dragMove (E : Env) (s : State) (r : ERef) (cx cy dx dy : ℚ) : State :=
  onLineMoving E s r (some ((cx + dx, cy + dy), (cx, cy)))

/-- The line of `addModalLine` dragged once by (50, 0) and released. -/
def draggedOnce : State :=
  onLineModified (dragMove sampleEnv (addModalLine init 1 2) 2 150 150 50 0) 2

/-- Two vertices, the first then merged into the second: vertex 0 has left the
vertex list, and there is no edge. -/
def mergedPair : State :=
  mergeVertices sampleEnv (createVertex (createVertex init 0 0 1).1 10 0 2).1 0 1

/-- The line of `addModalLine` with its first vertex selected, as it is while
that vertex is dragged, and moved by the pointer to (198, 203). -/
def grabbedFirst : State :=
  pointerMove (onModalSelection sampleEnv (addModalLine init 1 2) [Obj.circle 0] none) 0 198 203

/-- The state after `object:moving` on `grabbedFirst`: `handleVertexDrag` has
snapped the first vertex to the second, so that releasing the pointer merges
the first vertex into the second. -/
def dragOntoSecond : State := handleVertexDrag sampleEnv grabbedFirst 0

/-! ## Frame lemmas: what each handler leaves alone -/

theorem noDangling_iff (s : State) :
    NoDangling s ↔ ∀ p ∈ endpoints s, p.1 ∈ s.vertices ∧ p.2 ∈ s.vertices := by
  simp [NoDangling, endpoints]

theorem noDangling_of_same {s t : State} (hv : t.vertices = s.vertices)
    (he : endpoints t = endpoints s) (h : NoDangling s) : NoDangling t := by
  rw [noDangling_iff] at h ⊢
  rw [hv, he]
  exact h

theorem map_endpoints (f : Edge → Edge) (hf : ∀ e, (f e).v1 = e.v1 ∧ (f e).v2 = e.v2)
    (l : List Edge) :
    (l.map f).map (fun e => (e.v1, e.v2)) = l.map (fun e => (e.v1, e.v2)) := by
  induction l with
  | nil => rfl
  | cons a l ih => simp [hf]

@[simp] theorem clearFill_vertices (s : State) : (clearFill s).vertices = s.vertices := by
  unfold clearFill; split <;> rfl

@[simp] theorem clearFill_edges (s : State) : (clearFill s).edges = s.edges := by
  unfold clearFill; split <;> rfl

@[simp] theorem clearFill_circles (s : State) : (clearFill s).circles = s.circles := by
  unfold clearFill; split <;> rfl

@[simp] theorem clearFill_autoFill (s : State) : (clearFill s).autoFill = s.autoFill := by
  unfold clearFill; split <;> rfl

@[simp] theorem clearFill_fillObject (s : State) : (clearFill s).fillObject = none := by
  unfold clearFill; split
  · rfl
  · assumption

@[simp] theorem detect_vertices (s : State) : (detectAndFillLoops s).vertices = s.vertices := by
  unfold detectAndFillLoops
  split
  · simp
  · simp only []
    split
    · simp
    · split <;> simp

@[simp] theorem detect_edges (s : State) : (detectAndFillLoops s).edges = s.edges := by
  unfold detectAndFillLoops
  split
  · simp
  · simp only []
    split
    · simp
    · split <;> simp

@[simp] theorem detect_circles (s : State) : (detectAndFillLoops s).circles = s.circles := by
  unfold detectAndFillLoops
  split
  · simp
  · simp only []
    split
    · simp
    · split <;> simp

@[simp] theorem detect_endpoints (s : State) : endpoints (detectAndFillLoops s) = endpoints s := by
  simp [endpoints]

@[simp] theorem calculateEdgeProps_vertices (E : Env) (s : State) (l : Edge) :
    (calculateEdgeProps E s l).vertices = s.vertices := rfl

@[simp] theorem calculateEdgeProps_edges (E : Env) (s : State) (l : Edge) :
    (calculateEdgeProps E s l).edges = s.edges := rfl

@[simp] theorem calculateEdgeProps_circles (E : Env) (s : State) (l : Edge) :
    (calculateEdgeProps E s l).circles = s.circles := rfl

@[simp] theorem calculateEdgeProps_endpoints (E : Env) (s : State) (l : Edge) :
    endpoints (calculateEdgeProps E s l) = endpoints s := rfl

@[simp] theorem syncEdge_v1 (s : State) (v : VRef) (e : Edge) : (syncEdge s v e).v1 = e.v1 := by
  unfold syncEdge; split
  · rfl
  · split <;> rfl

@[simp] theorem syncEdge_v2 (s : State) (v : VRef) (e : Edge) : (syncEdge s v e).v2 = e.v2 := by
  unfold syncEdge; split
  · rfl
  · split <;> rfl

@[simp] theorem syncEdge_ref (s : State) (v : VRef) (e : Edge) : (syncEdge s v e).ref = e.ref := by
  unfold syncEdge; split
  · rfl
  · split <;> rfl

@[simp] theorem updateConnectedEdges_vertices (E : Env) (s : State) (v : VRef) :
    (updateConnectedEdges E s v).vertices = s.vertices := by
  unfold updateConnectedEdges
  simp only []
  split
  · split
    · split <;> rfl
    · rfl
  · rfl

@[simp] theorem updateConnectedEdges_circles (E : Env) (s : State) (v : VRef) :
    (updateConnectedEdges E s v).circles = s.circles := by
  unfold updateConnectedEdges
  simp only []
  split
  · split
    · split <;> rfl
    · rfl
  · rfl

@[simp] theorem updateConnectedEdges_edges (E : Env) (s : State) (v : VRef) :
    (updateConnectedEdges E s v).edges = s.edges.map (syncEdge s v) := by
  unfold updateConnectedEdges
  simp only []
  split
  · split
    · split <;> rfl
    · rfl
  · rfl

@[simp] theorem updateConnectedEdges_endpoints (E : Env) (s : State) (v : VRef) :
    endpoints (updateConnectedEdges E s v) = endpoints s := by
  simp only [endpoints, updateConnectedEdges_edges]
  exact map_endpoints _ (fun e => ⟨syncEdge_v1 s v e, syncEdge_v2 s v e⟩) _

@[simp] theorem setCircle_vertices (s : State) (r : VRef) (v : Vertex) :
    (setCircle s r v).vertices = s.vertices := rfl

@[simp] theorem setCircle_edges (s : State) (r : VRef) (v : Vertex) :
    (setCircle s r v).edges = s.edges := rfl

@[simp] theorem setCircle_endpoints (s : State) (r : VRef) (v : Vertex) :
    endpoints (setCircle s r v) = endpoints s := rfl

@[simp] theorem onModalSelection_vertices (E : Env) (s : State) (sel : List Obj)
    (t : Option Obj) : (onModalSelection E s sel t).vertices = s.vertices := by
  unfold onModalSelection
  split
  · rfl
  · split
    · rfl
    · rfl
    · split <;> rfl

@[simp] theorem onModalSelection_endpoints (E : Env) (s : State) (sel : List Obj)
    (t : Option Obj) : endpoints (onModalSelection E s sel t) = endpoints s := by
  unfold onModalSelection
  split
  · rfl
  · split
    · rfl
    · rfl
    · split
      · simp only [endpoints, calculateEdgeProps_edges]
        apply map_endpoints
        intro e
        split <;> exact ⟨rfl, rfl⟩
      · rfl

/-! ## Removal from the canvas -/

theorem onLineModified_core (s : State) (r : ERef) :
    (onLineModified s r).edges.map lineCore = s.edges.map lineCore := by
  simp only [onLineModified, List.map_map]
  apply List.map_congr_left
  intro e _
  simp only [Function.comp]
  split <;> rfl

theorem sameGraph_refl (s : State) : SameGraph s s :=
  ⟨rfl, rfl, rfl, rfl, rfl, rfl, rfl, rfl, rfl⟩

theorem sameGraph_trans {u t s : State} (h1 : SameGraph u t) (h2 : SameGraph t s) :
    SameGraph u s :=
  ⟨h1.circles.trans h2.circles, h1.nextRef.trans h2.nextRef, h1.vertices.trans h2.vertices,
    h1.core.trans h2.core, h1.fillObject.trans h2.fillObject,
    h1.canvasFills.trans h2.canvasFills, h1.edgeProps.trans h2.edgeProps,
    h1.autoFill.trans h2.autoFill, h1.modalGridSize.trans h2.modalGridSize⟩

theorem onSelectionCleared_same (s : State) : SameGraph (onSelectionCleared s) s := by
  unfold onSelectionCleared
  simp only []
  split
  · exact ⟨rfl, rfl, rfl, onLineModified_core s _, rfl, rfl, rfl, rfl, rfl⟩
  · exact ⟨rfl, rfl, rfl, rfl, rfl, rfl, rfl, rfl, rfl⟩

theorem onSelectionCleared_selection (s : State) :
    (onSelectionCleared s).modalSelectedObject = none ∧
      (onSelectionCleared s).modalSelectedType = none := ⟨rfl, rfl⟩

theorem canvasRemove_same (E : Env) (s : State) (obj : Obj) :
    SameGraph (canvasRemove E s obj) s := by
  unfold canvasRemove
  split
  · exact onSelectionCleared_same s
  · exact sameGraph_refl s

theorem canvasRemove_off (E : Env) (s : State) (obj : Obj)
    (hf : E.removeFiresCleared = false) : canvasRemove E s obj = s := by
  simp [canvasRemove, hf]

theorem canvasRemove_of_none (E : Env) (s : State) (obj : Obj)
    (hs : s.modalSelectedObject = none) : canvasRemove E s obj = s := by
  simp [canvasRemove, hs]

theorem canvasRemove_circle_edges (E : Env) (s : State) (v : VRef) :
    (canvasRemove E s (Obj.circle v)).edges = s.edges := by
  unfold canvasRemove
  split
  · rename_i h
    simp [onSelectionCleared, h.2]
  · rfl

theorem removeLoop_fold_same (E : Env) (l : List Edge) (s : State) :
    SameGraph (l.foldl (fun t e => canvasRemove E t (Obj.line e.ref)) s) s := by
  induction l generalizing s with
  | nil => exact sameGraph_refl s
  | cons e l ih => exact sameGraph_trans (ih _) (canvasRemove_same E s _)

theorem removeLoop_fold_id (E : Env) (l : List Edge) (s : State)
    (h : E.removeFiresCleared = false ∨ s.modalSelectedObject = none) :
    l.foldl (fun t e => canvasRemove E t (Obj.line e.ref)) s = s := by
  induction l with
  | nil => rfl
  | cons e l ih =>
    have : canvasRemove E s (Obj.line e.ref) = s := by
      rcases h with h | h
      · exact canvasRemove_off E s _ h
      · exact canvasRemove_of_none E s _ h
    rw [List.foldl_cons, this]
    exact ih

theorem filter_core (p : Edge → Bool) (hp : ∀ a b, lineCore a = lineCore b → p a = p b) :
    ∀ l1 l2 : List Edge, l1.map lineCore = l2.map lineCore →
      (l1.filter p).map lineCore = (l2.filter p).map lineCore := by
  intro l1
  induction l1 with
  | nil =>
    intro l2 h
    cases l2 with
    | nil => rfl
    | cons y l2 => simp at h
  | cons x l1 ih =>
    intro l2 h
    cases l2 with
    | nil => simp at h
    | cons y l2 =>
      simp only [List.map_cons, List.cons.injEq] at h
      have hxy := hp x y h.1
      have ht := ih l2 h.2
      by_cases hx : p x = true
      · have hy : p y = true := hxy ▸ hx
        simp [List.filter_cons, hx, hy, h.1, ht]
      · have hy : ¬ p y = true := hxy ▸ hx
        simp [List.filter_cons, hx, hy, ht]

theorem loopFree_core (a b : Edge) (h : lineCore a = lineCore b) :
    decide (a.v1 ≠ a.v2) = decide (b.v1 ≠ b.v2) := by
  simp only [lineCore, Prod.mk.injEq] at h
  rw [h.2.1, h.2.2.1]

@[simp] theorem removeSelfLoops_vertices (E : Env) (s : State) :
    (removeSelfLoops E s).vertices = s.vertices :=
  (removeLoop_fold_same E _ s).vertices

@[simp] theorem removeSelfLoops_circles (E : Env) (s : State) :
    (removeSelfLoops E s).circles = s.circles :=
  (removeLoop_fold_same E _ s).circles

theorem removeSelfLoops_core (E : Env) (s : State) :
    (removeSelfLoops E s).edges.map lineCore =
      (s.edges.filter (fun e => decide (e.v1 ≠ e.v2))).map lineCore :=
  filter_core _ loopFree_core _ _ (removeLoop_fold_same E _ s).core

theorem removeSelfLoops_id (E : Env) (s : State)
    (h : E.removeFiresCleared = false ∨ s.modalSelectedObject = none) :
    removeSelfLoops E s = { s with edges := s.edges.filter (fun e => decide (e.v1 ≠ e.v2)) } := by
  unfold removeSelfLoops
  simp only []
  rw [removeLoop_fold_id E _ s h]

theorem removeSelfLoops_selection (E : Env) (s : State)
    (h : s.modalSelectedObject = none) :
    (removeSelfLoops E s).modalSelectedObject = none := by
  rw [removeSelfLoops_id E s (Or.inr h)]
  exact h

theorem core_project {α : Type} (f : ERef × VRef × VRef × ℚ × ℚ × ℚ × ℚ × Bool → α)
    {l1 l2 : List Edge} (h : l1.map lineCore = l2.map lineCore) :
    l1.map (fun e => f (lineCore e)) = l2.map (fun e => f (lineCore e)) := by
  have := congrArg (List.map f) h
  simpa [List.map_map, Function.comp] using this

theorem removeSelfLoops_endpoints (E : Env) (s : State) :
    endpoints (removeSelfLoops E s) =
      (s.edges.filter (fun e => decide (e.v1 ≠ e.v2))).map (fun e => (e.v1, e.v2)) :=
  core_project (fun c => (c.2.1, c.2.2.1)) (removeSelfLoops_core E s)

theorem removeSelfLoops_geom (E : Env) (s : State) :
    geom (removeSelfLoops E s) =
      (s.edges.filter (fun e => decide (e.v1 ≠ e.v2))).map
        (fun e => (e.v1, e.v2, e.x1, e.y1, e.x2, e.y2)) :=
  core_project (fun c => (c.2.1, c.2.2.1, c.2.2.2.1, c.2.2.2.2.1, c.2.2.2.2.2.1,
    c.2.2.2.2.2.2.1)) (removeSelfLoops_core E s)

theorem removeSelfLoops_triples (E : Env) (s : State) :
    (removeSelfLoops E s).edges.map (fun e => (e.ref, e.v1, e.v2)) =
      (s.edges.filter (fun e => decide (e.v1 ≠ e.v2))).map (fun e => (e.ref, e.v1, e.v2)) :=
  core_project (fun c => (c.1, c.2.1, c.2.2.1)) (removeSelfLoops_core E s)

@[simp] theorem canvasRemove_vertices (E : Env) (s : State) (obj : Obj) :
    (canvasRemove E s obj).vertices = s.vertices := (canvasRemove_same E s obj).vertices

@[simp] theorem canvasRemove_circles (E : Env) (s : State) (obj : Obj) :
    (canvasRemove E s obj).circles = s.circles := (canvasRemove_same E s obj).circles

/-! ## Merge -/

@[simp] theorem rewireEdge_ref (a b : VRef) (e : Edge) : (rewireEdge a b e).ref = e.ref := by
  unfold rewireEdge
  simp only []
  split <;> split <;> rfl

theorem rewireEdge_v1 (a b : VRef) (e : Edge) :
    (rewireEdge a b e).v1 = if e.v1 = a then b else e.v1 := by
  unfold rewireEdge
  simp only []
  split <;> split <;> rfl

theorem rewireEdge_v2 (a b : VRef) (e : Edge) :
    (rewireEdge a b e).v2 = if e.v2 = a then b else e.v2 := by
  unfold rewireEdge
  simp only []
  split <;> split <;> simp_all

theorem mergeVertices_vertices (E : Env) (s : State) (a b : VRef) :
    (mergeVertices E s a b).vertices = s.vertices.filter (fun v => decide (v ≠ a)) := by
  unfold mergeVertices
  simp only [detect_vertices]
  split <;> simp

theorem mergeVertices_endpoints (E : Env) (s : State) (a b : VRef) :
    endpoints (mergeVertices E s a b) =
      (((s.edges.map (rewireEdge a b)).filter (fun e => decide (e.v1 ≠ e.v2))).map
        (fun e => (e.v1, e.v2))) := by
  unfold mergeVertices
  simp only [detect_endpoints]
  split
  · simp only [onModalSelection_endpoints, updateConnectedEdges_endpoints,
      removeSelfLoops_endpoints, canvasRemove_circle_edges]
  · simp only [updateConnectedEdges_endpoints, removeSelfLoops_endpoints,
      canvasRemove_circle_edges]

theorem mergeVertices_noDangling (E : Env) (s : State) (a b : VRef) (hab : a ≠ b)
    (hb : b ∈ s.vertices) (h : NoDangling s) : NoDangling (mergeVertices E s a b) := by
  rw [noDangling_iff, mergeVertices_endpoints, mergeVertices_vertices]
  intro p hp
  simp only [List.mem_map, List.mem_filter] at hp
  obtain ⟨e, ⟨⟨e0, he0, rfl⟩, -⟩, rfl⟩ := hp
  have h0 := h e0 he0
  simp only [rewireEdge_v1, rewireEdge_v2, List.mem_filter, decide_eq_true_eq]
  constructor
  · split
    · exact ⟨hb, fun hba => hab hba.symm⟩
    · exact ⟨h0.1, by assumption⟩
  · split
    · exact ⟨hb, fun hba => hab hba.symm⟩
    · exact ⟨h0.2, by assumption⟩

/-! ## Creation -/

theorem range_five : List.range 5 = [0, 1, 2, 3, 4] := by decide

theorem addModalLine_noDangling (s : State) (a b : Nat) (h : NoDangling s) :
    NoDangling (addModalLine s a b) := by
  unfold addModalLine
  simp only [NoDangling, detect_edges, detect_vertices, createEdge, createVertex]
  intro e he
  simp only [List.mem_append, List.mem_singleton] at he
  rcases he with he | rfl
  · have := h e he
    simp [this.1, this.2]
  · simp

theorem addModalRectGraph_noDangling (s : State) (a b c d : Nat) (h : NoDangling s) :
    NoDangling (addModalRectGraph s a b c d) := by
  unfold addModalRectGraph
  simp only [NoDangling, detect_edges, detect_vertices, createEdge, createVertex]
  intro e he
  simp only [List.mem_append, List.mem_singleton] at he
  rcases he with (((he | rfl) | rfl) | rfl) | rfl
  · have := h e he
    simp [this.1, this.2]
  all_goals simp

theorem addModalPolygonGraph_noDangling (E : Env) (s : State) (ids : Nat → Nat)
    (h : NoDangling s) : NoDangling (addModalPolygonGraph E s ids) := by
  unfold addModalPolygonGraph
  simp only [NoDangling, detect_edges, detect_vertices, range_five, List.foldl_cons,
    List.foldl_nil, createEdge, createVertex, List.nil_append, List.cons_append]
  intro e he
  simp only [List.mem_append, List.mem_singleton] at he
  rcases he with ((((he | rfl) | rfl) | rfl) | rfl) | rfl
  · have := h e he
    simp [this.1, this.2]
  all_goals simp

/-! ## Position-only handlers -/

theorem handleVertexDrag_vertices (E : Env) (s : State) (v : VRef) :
    (handleVertexDrag E s v).vertices = s.vertices := by
  unfold handleVertexDrag dragSnap
  simp only [detect_vertices, updateConnectedEdges_vertices]
  split <;> simp

theorem handleVertexDrag_endpoints (E : Env) (s : State) (v : VRef) :
    endpoints (handleVertexDrag E s v) = endpoints s := by
  unfold handleVertexDrag dragSnap
  simp only [detect_endpoints, updateConnectedEdges_endpoints]
  split <;> simp

theorem onVertexInput_vertices (E : Env) (s : State) (axis : String) (value : ℚ) :
    (onVertexInput E s axis value).vertices = s.vertices := by
  unfold onVertexInput
  split
  · simp only [detect_vertices, updateConnectedEdges_vertices]
    split <;> rfl
  · rfl

theorem onVertexInput_endpoints (E : Env) (s : State) (axis : String) (value : ℚ) :
    endpoints (onVertexInput E s axis value) = endpoints s := by
  unfold onVertexInput
  split
  · simp only [detect_endpoints, updateConnectedEdges_endpoints]
    split <;> rfl
  · rfl

theorem updateEdgeFromParam_vertices (E : Env) (s : State) (type : String) :
    (updateEdgeFromParam E s type).vertices = s.vertices := by
  unfold updateEdgeFromParam
  split
  · split
    · simp only []
      split
      · simp only [calculateEdgeProps_vertices, detect_vertices, updateConnectedEdges_vertices]
        split
        · rfl
        · split <;> rfl
      · simp only [detect_vertices, updateConnectedEdges_vertices]
        split
        · rfl
        · split <;> rfl
    · rfl
  · rfl

theorem updateEdgeFromParam_endpoints (E : Env) (s : State) (type : String) :
    endpoints (updateEdgeFromParam E s type) = endpoints s := by
  unfold updateEdgeFromParam
  split
  · split
    · simp only []
      split
      · simp only [calculateEdgeProps_endpoints, detect_endpoints,
          updateConnectedEdges_endpoints]
        split
        · rfl
        · split <;> rfl
      · simp only [detect_endpoints, updateConnectedEdges_endpoints]
        split
        · rfl
        · split <;> rfl
    · rfl
  · rfl

theorem onLineMoving_vertices (E : Env) (s : State) (r : ERef)
    (t : Option ((ℚ × ℚ) × (ℚ × ℚ))) : (onLineMoving E s r t).vertices = s.vertices := by
  unfold onLineMoving
  split
  · rfl
  · split
    · rfl
    · simp only [detect_vertices, updateConnectedEdges_vertices, setCircle_vertices]
      split <;> rfl

theorem onLineMoving_endpoints (E : Env) (s : State) (r : ERef)
    (t : Option ((ℚ × ℚ) × (ℚ × ℚ))) : endpoints (onLineMoving E s r t) = endpoints s := by
  unfold onLineMoving
  split
  · rfl
  · split
    · rfl
    · simp only [detect_endpoints, updateConnectedEdges_endpoints, setCircle_endpoints]
      split
      · simp only [endpoints]
        apply map_endpoints
        intro e
        split <;> exact ⟨rfl, rfl⟩
      · rfl

theorem onLineModified_endpoints (s : State) (r : ERef) :
    endpoints (onLineModified s r) = endpoints s := by
  simp only [endpoints, onLineModified]
  apply map_endpoints
  intro e
  split <;> exact ⟨rfl, rfl⟩

theorem onSelectionCleared_vertices (s : State) :
    (onSelectionCleared s).vertices = s.vertices := by
  unfold onSelectionCleared
  simp only []
  split <;> rfl

theorem onSelectionCleared_endpoints (s : State) :
    endpoints (onSelectionCleared s) = endpoints s := by
  unfold onSelectionCleared
  simp only []
  split
  · exact onLineModified_endpoints s _
  · rfl

/-! ## C1, C2 -/

/-- C1. No dangling references: the predicate that both endpoints of every
edge are members of the vertex list holds in the empty graph and is preserved
by every mutation of the graph model, where a merge (direct or through
`handleVertexDrop`) has `source != target` and `target` in the vertex list. -/
theorem noDangling_invariant :
    NoDangling init ∧
      ∀ (E : Env) (s : State) (op : Op),
        NoDangling s → MergeReady s op → NoDangling (step E s op) := by
  refine ⟨by simp [NoDangling, init], ?_⟩
  intro E s op h hm
  cases op with
  | addModalLine a b => exact addModalLine_noDangling s a b h
  | addModalRectGraph a b c d => exact addModalRectGraph_noDangling s a b c d h
  | addModalPolygonGraph ids => exact addModalPolygonGraph_noDangling E s ids h
  | handleVertexDrag v =>
    exact noDangling_of_same (handleVertexDrag_vertices E s v) (handleVertexDrag_endpoints E s v) h
  | handleVertexDrop v =>
    show NoDangling (handleVertexDrop E s v)
    unfold handleVertexDrop
    split
    · rename_i t ht
      have := hm t ht
      exact mergeVertices_noDangling E s v t this.1 this.2 h
    · exact noDangling_of_same (detect_vertices s) (detect_endpoints s) h
  | mergeVertices a b => exact mergeVertices_noDangling E s a b hm.1 hm.2 h
  | lineMoving r t =>
    exact noDangling_of_same (onLineMoving_vertices E s r t) (onLineMoving_endpoints E s r t) h
  | lineModified r =>
    exact noDangling_of_same (s := s) (t := onLineModified s r) rfl
      (onLineModified_endpoints s r) h
  | onVertexInput axis value =>
    exact noDangling_of_same (onVertexInput_vertices E s axis value)
      (onVertexInput_endpoints E s axis value) h
  | updateEdgeFromParam t =>
    exact noDangling_of_same (updateEdgeFromParam_vertices E s t)
      (updateEdgeFromParam_endpoints E s t) h
  | detectAndFillLoops => exact noDangling_of_same (detect_vertices s) (detect_endpoints s) h
  | select sel t =>
    exact noDangling_of_same (onModalSelection_vertices E s sel t)
      (onModalSelection_endpoints E s sel t) h
  | selectionCleared =>
    exact noDangling_of_same (onSelectionCleared_vertices s) (onSelectionCleared_endpoints s) h
  | pointerMove v x y => exact noDangling_of_same (s := s) (t := pointerMove s v x y) rfl rfl h
  | setAutoFill b => exact noDangling_of_same (s := s) (t := { s with autoFill := b }) rfl rfl h
  | setGridSize g =>
    exact noDangling_of_same (s := s) (t := { s with modalGridSize := g }) rfl rfl h
  | setEdgeProps l a =>
    exact noDangling_of_same (s := s)
      (t := { s with edgeProps := { length := l, angle := a } }) rfl rfl h

/-- Witness for C1: the rectangle graph built on the empty model, then its
first vertex merged into its second. -/
theorem noDangling_invariant_witness :
    NoDangling (step sampleEnv (step sampleEnv init (Op.addModalRectGraph 1 2 3 4))
      (Op.mergeVertices 0 1)) :=
  noDangling_invariant.2 sampleEnv (step sampleEnv init (Op.addModalRectGraph 1 2 3 4))
    (Op.mergeVertices 0 1)
    (noDangling_invariant.2 sampleEnv init (Op.addModalRectGraph 1 2 3 4)
      noDangling_invariant.1 trivial)
    ⟨by decide, by simp [step, addModalRectGraph, createVertex, createEdge, init]⟩

/-- C2. After `mergeVertices(source, target)` the vertex list does not contain
`source` and no edge of the edge list has `v1 == v2`; this holds for every
state and every pair of references, distinct or not. -/
theorem mergeVertices_removes_source_and_loops (E : Env) (s : State) (sourceV targetV : VRef) :
    sourceV ∉ (mergeVertices E s sourceV targetV).vertices ∧
      ∀ e ∈ (mergeVertices E s sourceV targetV).edges, e.v1 ≠ e.v2 := by
  constructor
  · simp [mergeVertices_vertices]
  · intro e he
    have hp : (e.v1, e.v2) ∈ endpoints (mergeVertices E s sourceV targetV) :=
      List.mem_map_of_mem _ he
    rw [mergeVertices_endpoints] at hp
    simp only [List.mem_map, List.mem_filter, decide_eq_true_eq, Prod.mk.injEq] at hp
    obtain ⟨e1, ⟨-, hne⟩, h1, h2⟩ := hp
    rw [← h1, ← h2]
    exact hne

/-! ## Snapping and grid rounding -/

theorem hypotLt_snap (dx dy : ℚ) :
    hypotLt dx dy SNAP_DIST = true ↔ dx * dx + dy * dy < SNAP_DIST * SNAP_DIST := by
  simp [hypotLt, SNAP_DIST]

/-- The comparison `Math.hypot(dx, dy) < d` over the reals is the comparison
of squares made by `hypotLt`. -/
theorem hypotLt_iff_sqrt (dx dy d : ℚ) :
    hypotLt dx dy d = true ↔ Real.sqrt ((dx : ℝ) ^ 2 + (dy : ℝ) ^ 2) < (d : ℝ) := by
  have hcast : (dx * dx + dy * dy < d * d) ↔ ((dx : ℝ) ^ 2 + (dy : ℝ) ^ 2 < (d : ℝ) ^ 2) := by
    rw [← Rat.cast_lt (K := ℝ)]
    push_cast
    simp only [sq]
  simp only [hypotLt, Bool.and_eq_true, decide_eq_true_eq, hcast]
  constructor
  · rintro ⟨hd, h⟩
    have hd' : (0 : ℝ) < d := by exact_mod_cast hd
    rw [Real.sqrt_lt' hd']
    exact h
  · intro h
    have hd' : (0 : ℝ) < d := lt_of_le_of_lt (Real.sqrt_nonneg _) h
    refine ⟨by exact_mod_cast hd', ?_⟩
    rw [← Real.sqrt_lt' hd']
    exact h

@[simp] theorem setCircle_circles (s : State) (r : VRef) (x : Vertex) :
    (setCircle s r x).circles = Function.update s.circles r x := rfl

theorem findSnapTarget_eq (s t : State) (v : VRef) (hv : t.vertices = s.vertices)
    (hc : ∀ u, u ≠ v → t.circles u = s.circles u)
    (hl : (t.circles v).left = (roundedPos s v).1)
    (ht : (t.circles v).top = (roundedPos s v).2) :
    findSnapTarget t v = s.vertices.find? (fun u => decide (InSnapRange s v u)) := by
  unfold findSnapTarget
  rw [hv]
  congr 1
  funext u
  by_cases huv : u = v
  · simp [huv, InSnapRange]
  · rw [hc u huv, hl, ht]
    rw [Bool.eq_iff_iff]
    simp only [Bool.and_eq_true, decide_eq_true_eq, hypotLt_snap, InSnapRange, distSq]

theorem dragSnap_circles (E : Env) (s : State) (v : VRef) :
    (dragSnap E s v).circles =
      match s.vertices.find? (fun u => decide (InSnapRange s v u)) with
      | some u =>
        Function.update s.circles v
          { s.circles v with
            left := (s.circles u).left, top := (s.circles u).top,
            fill := "#2ecc71", snapTarget := some u }
      | none =>
        Function.update s.circles v
          { s.circles v with
            left := (roundedPos s v).1, top := (roundedPos s v).2,
            fill := "#e74c3c", snapTarget := none } := by
  unfold dragSnap
  simp only []
  rw [findSnapTarget_eq s]
  · cases hfind : s.vertices.find? (fun u => decide (InSnapRange s v u)) with
    | none =>
      simp only [setCircle_circles, updateConnectedEdges_circles, Function.update_same,
        Function.update_idem, roundedPos]
    | some u =>
      have hu : u ≠ v := by
        have := List.find?_some hfind
        simp only [decide_eq_true_eq] at this
        exact this.1
      simp only [setCircle_circles, updateConnectedEdges_circles, Function.update_same,
        Function.update_idem, Function.update_noteq hu]
  · simp
  · intro u hu
    simp [Function.update_noteq hu]
  · simp [roundedPos]
  · simp [roundedPos]

theorem handleVertexDrag_circles (E : Env) (s : State) (v : VRef) :
    (handleVertexDrag E s v).circles = (dragSnap E s v).circles := by
  simp [handleVertexDrag]

theorem handleVertexDrag_snapTarget (E : Env) (s : State) (v : VRef) :
    ((handleVertexDrag E s v).circles v).snapTarget =
      s.vertices.find? (fun u => decide (InSnapRange s v u)) := by
  rw [handleVertexDrag_circles, dragSnap_circles]
  cases hfind : s.vertices.find? (fun u => decide (InSnapRange s v u)) <;> simp

theorem handleVertexDrag_position (E : Env) (s : State) (v : VRef) :
    (((handleVertexDrag E s v).circles v).left, ((handleVertexDrag E s v).circles v).top) =
      match s.vertices.find? (fun u => decide (InSnapRange s v u)) with
      | some u => ((s.circles u).left, (s.circles u).top)
      | none => roundedPos s v := by
  rw [handleVertexDrag_circles, dragSnap_circles]
  cases hfind : s.vertices.find? (fun u => decide (InSnapRange s v u)) <;> simp

theorem roundToGrid_multiple (x g : ℚ) : ∃ k : ℤ, roundToGrid x g = (k : ℚ) * g :=
  ⟨jsRound (x / g), rfl⟩

theorem roundToGrid_near (x g : ℚ) (hg : 0 < g) : |roundToGrid x g - x| ≤ g / 2 := by
  have h1 : ((jsRound (x / g) : ℤ) : ℚ) ≤ x / g + 1 / 2 := Int.floor_le _
  have h2 : x / g + 1 / 2 < ((jsRound (x / g) : ℤ) : ℚ) + 1 := Int.lt_floor_add_one _
  have hx : x = x / g * g := by field_simp
  rw [abs_le]
  unfold roundToGrid
  constructor
  · nlinarith
  · nlinarith

/-! ## C7, C8, C9 -/

theorem threeInLine_vertices : threeInLine.vertices = [0, 1, 2] := by
  simp [threeInLine, createVertex, init]

theorem threeInLine_pos :
    ((threeInLine.circles 0).left = 0 ∧ (threeInLine.circles 0).top = 0) ∧
      ((threeInLine.circles 1).left = 6 ∧ (threeInLine.circles 1).top = 0) ∧
      ((threeInLine.circles 2).left = 3 ∧ (threeInLine.circles 2).top = 0) ∧
      threeInLine.modalGridSize = 50 := by
  simp [threeInLine, createVertex, init]

theorem roundToGrid_zero (g : ℚ) : roundToGrid 0 g = 0 := by
  norm_num [roundToGrid, jsRound]

/-- C7, as stated, fails: with vertex 0 dragged at the origin, vertex 1 at
(6, 0) and vertex 2 at (3, 0), `handleVertexDrag` stores vertex 1 as the snap
target although vertex 2 is strictly nearer and within the threshold. -/
theorem snap_target_not_nearest :
    ((handleVertexDrag sampleEnv threeInLine 0).circles 0).snapTarget = some 1 ∧
      roundedPos threeInLine 0 = (0, 0) ∧
      (2 ∈ threeInLine.vertices ∧ (2 : VRef) ≠ 0) ∧
      distSq threeInLine 2 0 0 < distSq threeInLine 1 0 0 ∧
      distSq threeInLine 2 0 0 < SNAP_DIST * SNAP_DIST ∧
      ∀ w ∈ threeInLine.vertices, w ≠ 0 → distSq threeInLine 2 0 0 ≤ distSq threeInLine w 0 0 := by
  obtain ⟨⟨a1, a2⟩, ⟨b1, b2⟩, ⟨c1, c2⟩, hg⟩ := threeInLine_pos
  have hr : roundedPos threeInLine 0 = (0, 0) := by
    simp only [roundedPos, a1, a2, roundToGrid_zero]
  refine ⟨?_, hr, ?_, ?_, ?_, ?_⟩
  · rw [handleVertexDrag_snapTarget, threeInLine_vertices]
    norm_num [InSnapRange, hr, distSq, SNAP_DIST, a1, a2, b1, b2, c1, c2]
  · simp [threeInLine_vertices]
  · simp only [distSq, b1, b2, c1, c2]
    norm_num
  · simp only [distSq, c1, c2, SNAP_DIST]
    norm_num
  · intro w hw hw0
    simp only [threeInLine_vertices, List.mem_cons, List.mem_singleton, List.not_mem_nil,
      or_false] at hw
    rcases hw with rfl | rfl | rfl
    · exact absurd rfl hw0
    · simp only [distSq, b1, b2, c1, c2]
      norm_num
    · exact le_refl _

/-- C7, amended: after `handleVertexDrag` the snap target of the dragged
vertex is the first vertex of the vertex list, other than the dragged one,
whose Euclidean distance to the grid-rounded position of the dragged vertex is
strictly less than `SNAP_DIST`, and it is null exactly when no other vertex is
strictly within the threshold. -/
theorem snap_target_first_in_range (E : Env) (s : State) (v : VRef) :
    (∀ u, ((handleVertexDrag E s v).circles v).snapTarget = some u ↔
        InSnapRange s v u ∧
          ∃ before after, s.vertices = before ++ u :: after ∧
            ∀ w ∈ before, ¬ InSnapRange s v w) ∧
      (((handleVertexDrag E s v).circles v).snapTarget = none ↔
        ∀ u ∈ s.vertices, ¬ InSnapRange s v u) := by
  rw [handleVertexDrag_snapTarget]
  constructor
  · intro u
    rw [List.find?_eq_some]
    simp
  · simp

theorem fourInLine_vertices : fourInLine.vertices = [0, 1, 2, 3] := by
  simp [fourInLine, threeInLine, createVertex, init]

theorem fourInLine_pos :
    ((fourInLine.circles 0).left = 0 ∧ (fourInLine.circles 0).top = 0) ∧
      ((fourInLine.circles 1).left = 6 ∧ (fourInLine.circles 1).top = 0) ∧
      ((fourInLine.circles 2).left = 3 ∧ (fourInLine.circles 2).top = 0) ∧
      ((fourInLine.circles 3).left = -3 ∧ (fourInLine.circles 3).top = 0) := by
  simp [fourInLine, threeInLine, createVertex, init]

/-- C8, as stated, fails: with vertex 0 dragged at the origin, vertex 1 at
(6, 0) and the two nearest vertices 2 and 3 tied at distance 3, the snap
target is vertex 1, which is neither of the tied vertices. -/
theorem snap_tie_not_first_tied :
    ((handleVertexDrag sampleEnv fourInLine 0).circles 0).snapTarget = some 1 ∧
      fourInLine.vertices = [0, 1, 2, 3] ∧
      roundedPos fourInLine 0 = (0, 0) ∧
      distSq fourInLine 2 0 0 = distSq fourInLine 3 0 0 ∧
      distSq fourInLine 2 0 0 < SNAP_DIST * SNAP_DIST ∧
      ∀ w ∈ fourInLine.vertices, w ≠ 0 → distSq fourInLine 2 0 0 ≤ distSq fourInLine w 0 0 := by
  obtain ⟨⟨a1, a2⟩, ⟨b1, b2⟩, ⟨c1, c2⟩, ⟨d1, d2⟩⟩ := fourInLine_pos
  have hr : roundedPos fourInLine 0 = (0, 0) := by
    simp only [roundedPos, a1, a2, roundToGrid_zero]
  refine ⟨?_, fourInLine_vertices, hr, ?_, ?_, ?_⟩
  · rw [handleVertexDrag_snapTarget, fourInLine_vertices]
    norm_num [InSnapRange, hr, distSq, SNAP_DIST, a1, a2, b1, b2, c1, c2, d1, d2]
  · norm_num [distSq, c1, c2, d1, d2]
  · norm_num [distSq, c1, c2, SNAP_DIST]
  · intro w hw hw0
    simp only [fourInLine_vertices, List.mem_cons, List.mem_singleton, List.not_mem_nil,
      or_false] at hw
    rcases hw with rfl | rfl | rfl | rfl
    · exact absurd rfl hw0
    · norm_num [distSq, b1, b2, c1, c2]
    · exact le_refl _
    · norm_num [distSq, d1, d2, c1, c2]

/-- C8, amended: when the nearest other vertices are tied at a distance
strictly below the threshold and no other vertex that is farther than the tied
ones yet still strictly within the threshold precedes them in the vertex list,
`handleVertexDrag` sets the snap target to the tied vertex that comes first in
the vertex list; the choice depends only on the vertex list, the positions
and the grid size, so identical input gives the same vertex. -/
theorem snap_tie_break (E : Env) (s : State) (v u : VRef) (before after : List VRef)
    (hsplit : s.vertices = before ++ u :: after) (huv : u ≠ v)
    (hbelow : distSq s u (roundedPos s v).1 (roundedPos s v).2 < SNAP_DIST * SNAP_DIST)
    (hnearest : ∀ w ∈ s.vertices, w ≠ v →
      distSq s u (roundedPos s v).1 (roundedPos s v).2 ≤
        distSq s w (roundedPos s v).1 (roundedPos s v).2)
    (hfirstTied : ∀ w ∈ before, w ≠ v →
      distSq s w (roundedPos s v).1 (roundedPos s v).2 ≠
        distSq s u (roundedPos s v).1 (roundedPos s v).2)
    (hnoFarther : ∀ w ∈ before, w ≠ v →
      distSq s u (roundedPos s v).1 (roundedPos s v).2 <
        distSq s w (roundedPos s v).1 (roundedPos s v).2 →
      SNAP_DIST * SNAP_DIST ≤ distSq s w (roundedPos s v).1 (roundedPos s v).2) :
    ((handleVertexDrag E s v).circles v).snapTarget = some u ∧
      ∀ (E2 : Env) (s2 : State), s2.vertices = s.vertices → s2.circles = s.circles →
        s2.modalGridSize = s.modalGridSize →
        ((handleVertexDrag E2 s2 v).circles v).snapTarget = some u := by
  have key : s.vertices.find? (fun w => decide (InSnapRange s v w)) = some u := by
    rw [List.find?_eq_some]
    refine ⟨by simp [InSnapRange, huv, hbelow], before, after, hsplit, ?_⟩
    intro w hw
    simp only [InSnapRange, Bool.not_eq_eq_eq_not, Bool.not_true, decide_eq_false_iff_not,
      not_and, not_lt]
    intro hwv
    have hmem : w ∈ s.vertices := by rw [hsplit]; simp [hw]
    have h1 := hnearest w hmem hwv
    have h2 := hfirstTied w hw hwv
    exact hnoFarther w hw hwv (lt_of_le_of_ne h1 (Ne.symm h2))
  refine ⟨by rw [handleVertexDrag_snapTarget, key], ?_⟩
  intro E2 s2 hv hc hg
  rw [handleVertexDrag_snapTarget, hv, ← key]
  congr 1
  funext w
  simp [InSnapRange, distSq, roundedPos, hc, hg]

theorem tiedFirst_vertices : tiedFirst.vertices = [0, 1, 2, 3] := by
  simp [tiedFirst, createVertex, init]

theorem tiedFirst_pos :
    ((tiedFirst.circles 0).left = 0 ∧ (tiedFirst.circles 0).top = 0) ∧
      ((tiedFirst.circles 1).left = 3 ∧ (tiedFirst.circles 1).top = 0) ∧
      ((tiedFirst.circles 2).left = -3 ∧ (tiedFirst.circles 2).top = 0) ∧
      ((tiedFirst.circles 3).left = 6 ∧ (tiedFirst.circles 3).top = 0) := by
  simp [tiedFirst, createVertex, init]

/-- Witness for C8: vertices 1 and 2 tied at distance 3 from the dragged
vertex 0, vertex 3 farther and later in the list; the snap target is vertex 1. -/
theorem snap_tie_break_witness :
    ((handleVertexDrag sampleEnv tiedFirst 0).circles 0).snapTarget = some 1 := by
  obtain ⟨⟨a1, a2⟩, ⟨b1, b2⟩, ⟨c1, c2⟩, ⟨d1, d2⟩⟩ := tiedFirst_pos
  have hr : roundedPos tiedFirst 0 = (0, 0) := by
    simp only [roundedPos, a1, a2, roundToGrid_zero]
  refine (snap_tie_break sampleEnv tiedFirst 0 1 [0] [2, 3] tiedFirst_vertices (by decide)
    ?_ ?_ ?_ ?_).1
  · norm_num [hr, distSq, b1, b2, SNAP_DIST]
  · intro w hw hw0
    simp only [tiedFirst_vertices, List.mem_cons, List.mem_singleton, List.not_mem_nil,
      or_false] at hw
    rcases hw with rfl | rfl | rfl | rfl
    · exact absurd rfl hw0
    · exact le_refl _
    · norm_num [hr, distSq, b1, b2, c1, c2]
    · norm_num [hr, distSq, b1, b2, d1, d2]
  · intro w hw hw0
    simp only [List.mem_singleton] at hw
    exact absurd hw hw0
  · intro w hw hw0
    simp only [List.mem_singleton] at hw
    exact absurd hw hw0

theorem offGrid_vertices : offGrid.vertices = [0, 1] := by
  simp [offGrid, pointerMove, setCircle, addModalLine, createVertex, createEdge, init]

theorem offGrid_pos :
    ((offGrid.circles 0).left = 100 ∧ (offGrid.circles 0).top = 100) ∧
      ((offGrid.circles 1).left = 99 ∧ (offGrid.circles 1).top = 97) ∧
      offGrid.modalGridSize = 7 := by
  simp [offGrid, pointerMove, setCircle, addModalLine, createVertex, createEdge, init]

theorem roundToGrid_99_7 : roundToGrid 99 7 = 98 ∧ roundToGrid 97 7 = 98 := by
  norm_num [roundToGrid, jsRound]

/-- C9, as stated, fails: with grid size 7, the first vertex of `addModalLine`
at (100, 100) and the second dragged to (99, 97), the rounded position is
(98, 98) but the stored position is (100, 100), the position of the snap
target, and 100 is not an integer multiple of 7. -/
theorem drag_position_not_rounded :
    (((handleVertexDrag sampleEnv offGrid 1).circles 1).left,
        ((handleVertexDrag sampleEnv offGrid 1).circles 1).top) = (100, 100) ∧
      (roundToGrid (offGrid.circles 1).left offGrid.modalGridSize,
        roundToGrid (offGrid.circles 1).top offGrid.modalGridSize) = (98, 98) ∧
      0 < offGrid.modalGridSize ∧
      ¬ ∃ k : ℤ, (100 : ℚ) = (k : ℚ) * offGrid.modalGridSize := by
  obtain ⟨⟨a1, a2⟩, ⟨b1, b2⟩, hg⟩ := offGrid_pos
  have hr : roundedPos offGrid 1 = (98, 98) := by
    simp only [roundedPos, b1, b2, hg, roundToGrid_99_7]
  refine ⟨?_, ?_, ?_, ?_⟩
  · rw [handleVertexDrag_position, offGrid_vertices]
    norm_num [InSnapRange, hr, distSq, SNAP_DIST, a1, a2]
  · simp only [b1, b2, hg, roundToGrid_99_7]
  · rw [hg]; norm_num
  · rw [hg]
    rintro ⟨k, hk⟩
    have h : (100 : ℤ) = k * 7 := by exact_mod_cast hk
    omega

/-- C9, amended: for a positive grid size `g` and incoming position `(x, y)`,
after `handleVertexDrag` the stored position of the dragged vertex is
`(round(x/g)*g, round(y/g)*g)`, each coordinate an integer multiple of `g`
within `g/2` of the incoming coordinate, when no other vertex lies strictly
within `SNAP_DIST` of that rounded position; otherwise it is the position of
the snap target. -/
theorem drag_position_quantized (E : Env) (s : State) (v : VRef) (hg : 0 < s.modalGridSize) :
    ((∀ u ∈ s.vertices, ¬ InSnapRange s v u) →
        ((handleVertexDrag E s v).circles v).left =
            roundToGrid (s.circles v).left s.modalGridSize ∧
          ((handleVertexDrag E s v).circles v).top =
            roundToGrid (s.circles v).top s.modalGridSize) ∧
      ((∃ k : ℤ, roundToGrid (s.circles v).left s.modalGridSize = (k : ℚ) * s.modalGridSize) ∧
        |roundToGrid (s.circles v).left s.modalGridSize - (s.circles v).left| ≤
          s.modalGridSize / 2) ∧
      ((∃ k : ℤ, roundToGrid (s.circles v).top s.modalGridSize = (k : ℚ) * s.modalGridSize) ∧
        |roundToGrid (s.circles v).top s.modalGridSize - (s.circles v).top| ≤
          s.modalGridSize / 2) ∧
      (∀ u, ((handleVertexDrag E s v).circles v).snapTarget = some u →
        InSnapRange s v u ∧
          ((handleVertexDrag E s v).circles v).left = (s.circles u).left ∧
          ((handleVertexDrag E s v).circles v).top = (s.circles u).top) := by
  refine ⟨?_, ⟨roundToGrid_multiple _ _, roundToGrid_near _ _ hg⟩,
    ⟨roundToGrid_multiple _ _, roundToGrid_near _ _ hg⟩, ?_⟩
  · intro hnone
    have hfind : s.vertices.find? (fun u => decide (InSnapRange s v u)) = none := by
      simpa using hnone
    have hp := handleVertexDrag_position E s v
    rw [hfind] at hp
    simp only [roundedPos, Prod.mk.injEq] at hp
    exact hp
  · intro u hu
    rw [handleVertexDrag_snapTarget] at hu
    have hp := handleVertexDrag_position E s v
    rw [hu] at hp
    simp only [Prod.mk.injEq] at hp
    have hin := List.find?_some hu
    simp only [decide_eq_true_eq] at hin
    exact ⟨hin, hp⟩

/-- Witness for C9: the state of the counterexample has a positive grid size;
there the dragged vertex ends on its snap target, vertex 0. -/
theorem drag_position_quantized_witness :
    ∃ k : ℤ, roundToGrid (offGrid.circles 1).left offGrid.modalGridSize =
      (k : ℚ) * offGrid.modalGridSize :=
  (drag_position_quantized sampleEnv offGrid 1 (by rw [offGrid_pos.2.2]; norm_num)).2.1.1

/-! ## What `updateConnectedEdges` does to one edge -/

/-- What `updateConnectedEdges(vertex)` does to one edge, for every state: an
edge with `v1 == vertex` gets `(x1, y1)` from the current position of the
vertex, an edge with `v2 == vertex` and `v1 != vertex` gets `(x2, y2)` from it;
endpoints that do not reference the vertex, the vertex list, the positions
and the `v1` / `v2` references of the edges are unchanged. -/
theorem updateConnectedEdges_sync (E : Env) (s : State) (vertex : VRef) :
    (updateConnectedEdges E s vertex).vertices = s.vertices ∧
      (updateConnectedEdges E s vertex).circles = s.circles ∧
      List.Forall₂
        (fun e e2 =>
          e2.v1 = e.v1 ∧ e2.v2 = e.v2 ∧
            (e.v1 = vertex →
              e2.x1 = (s.circles vertex).left ∧ e2.y1 = (s.circles vertex).top) ∧
            (e.v2 = vertex → e.v1 ≠ vertex →
              e2.x2 = (s.circles vertex).left ∧ e2.y2 = (s.circles vertex).top) ∧
            (e.v1 ≠ vertex → e2.x1 = e.x1 ∧ e2.y1 = e.y1) ∧
            (e.v2 ≠ vertex → e2.x2 = e.x2 ∧ e2.y2 = e.y2))
        s.edges (updateConnectedEdges E s vertex).edges := by
  refine ⟨by simp, by simp, ?_⟩
  rw [updateConnectedEdges_edges, List.forall₂_map_right_iff]
  apply List.forall₂_same.2
  intro e _
  unfold syncEdge
  by_cases h1 : e.v1 = vertex
  · simp [h1]
  · by_cases h2 : e.v2 = vertex
    · simp [h1, h2]
    · simp [h1, h2]

/-! ## The adjacency map -/

theorem buildAdj_eq (s : State) : buildAdj s = adjOfLists (vertexIds s) (edgeIdPairs s) := by
  unfold buildAdj adjOfLists vertexIds edgeIdPairs
  simp only [List.foldl_map]

theorem lookup_map_val (g : Nat × List Nat → Nat × List Nat) (f : Nat → List Nat → List Nat)
    (hg : ∀ p, g p = (p.1, f p.1 p.2)) (adj : List (Nat × List Nat)) (j : Nat) :
    (adj.map g).lookup j = (adj.lookup j).map (f j) := by
  induction adj with
  | nil => rfl
  | cons p adj ih =>
    obtain ⟨k, ns⟩ := p
    by_cases hjk : j = k
    · subst hjk
      simp [hg]
    · have hb : (j == k) = false := beq_false_of_ne hjk
      simp only [List.map_cons, hg, List.lookup_cons, hb]
      rw [← ih]

theorem adjSet_lookup (adj : List (Nat × List Nat)) (k j : Nat) :
    (adjSet adj k).lookup j = if j = k then some [] else adj.lookup j := by
  unfold adjSet
  split
  · rename_i hhas
    rw [lookup_map_val _ (fun a ns => if a = k then [] else ns)]
    · by_cases hjk : j = k
      · subst hjk
        simp only [adjHas, Option.isSome_iff_exists] at hhas
        obtain ⟨ns, hns⟩ := hhas
        simp [hns]
      · simp only [hjk, if_false]
        cases adj.lookup j <;> rfl
    · intro p
      obtain ⟨a, ns⟩ := p
      by_cases h : a = k <;> simp [h]
  · rename_i hhas
    simp only [adjHas, Bool.not_eq_true, Option.not_isSome, Option.isNone_iff_eq_none] at hhas
    rw [List.lookup_append]
    by_cases hjk : j = k
    · subst hjk
      simp [hhas]
    · have hb : (j == k) = false := beq_false_of_ne hjk
      simp [hjk, List.lookup_cons, hb]

theorem adjPush_lookup (adj : List (Nat × List Nat)) (k x j : Nat) :
    (adjPush adj k x).lookup j =
      if j = k then (adj.lookup j).map (fun ns => ns ++ [x]) else adj.lookup j := by
  unfold adjPush
  rw [lookup_map_val _ (fun a ns => if a = k then ns ++ [x] else ns)]
  · by_cases hjk : j = k
    · simp [hjk]
    · simp only [hjk, if_false]
      cases adj.lookup j <;> rfl
  · intro p
    obtain ⟨a, ns⟩ := p
    by_cases h : a = k <;> simp [h]

theorem adjHas_iff (adj : List (Nat × List Nat)) (k : Nat) :
    adjHas adj k = true ↔ ∃ ns, adj.lookup k = some ns := by
  simp [adjHas, Option.isSome_iff_exists]

theorem vertexFold_lookup (ids : List Nat) (acc : List (Nat × List Nat)) (j : Nat) :
    (ids.foldl adjSet acc).lookup j = if j ∈ ids then some [] else acc.lookup j := by
  induction ids generalizing acc with
  | nil => simp
  | cons i ids ih =>
    rw [List.foldl_cons, ih, adjSet_lookup]
    by_cases h1 : j ∈ ids
    · simp [h1]
    · by_cases h2 : j = i
      · simp [h2]
      · simp [h1, h2]

theorem adjPush_has (adj : List (Nat × List Nat)) (k x j : Nat) :
    adjHas (adjPush adj k x) j = adjHas adj j := by
  unfold adjHas
  rw [adjPush_lookup]
  split <;> cases adj.lookup j <;> rfl

theorem adjPush_nbr (adj : List (Nat × List Nat)) (k x a b : Nat) :
    Nbr (adjPush adj k x) a b ↔ Nbr adj a b ∨ (a = k ∧ b = x ∧ adjHas adj k = true) := by
  unfold Nbr
  rw [adjPush_lookup]
  by_cases hak : a = k
  · subst hak
    simp only [if_true, true_and]
    cases hl : adj.lookup a with
    | none => simp [adjHas, hl]
    | some ns0 =>
      simp only [Option.map_some', Option.some.injEq, adjHas, hl, Option.isSome_some, and_true]
      constructor
      · rintro ⟨ns, rfl, hb⟩
        simp only [List.mem_append, List.mem_singleton] at hb
        rcases hb with hb | hb
        · exact Or.inl ⟨ns0, rfl, hb⟩
        · exact Or.inr hb
      · rintro (⟨ns, rfl, hb⟩ | hb)
        · exact ⟨_, rfl, by simp [hb]⟩
        · exact ⟨_, rfl, by simp [hb]⟩
  · simp [hak]

theorem edgeStep_has (adj : List (Nat × List Nat)) (p : Nat × Nat) (j : Nat) :
    adjHas (if adjHas adj p.1 && adjHas adj p.2 then adjPush (adjPush adj p.1 p.2) p.2 p.1
      else adj) j = adjHas adj j := by
  split
  · rw [adjPush_has, adjPush_has]
  · rfl

theorem edgeStep_nbr (adj : List (Nat × List Nat)) (p : Nat × Nat) (a b : Nat) :
    Nbr (if adjHas adj p.1 && adjHas adj p.2 then adjPush (adjPush adj p.1 p.2) p.2 p.1
      else adj) a b ↔
      Nbr adj a b ∨ (adjHas adj p.1 = true ∧ adjHas adj p.2 = true ∧
        ((a, b) = p ∨ (b, a) = p)) := by
  obtain ⟨x, y⟩ := p
  simp only [Prod.mk.injEq]
  split
  · rename_i h
    simp only [Bool.and_eq_true] at h
    rw [adjPush_nbr, adjPush_nbr, adjPush_has]
    simp only [h.1, h.2, true_and, and_true]
    tauto
  · rename_i h
    simp only [Bool.and_eq_true] at h
    constructor
    · exact Or.inl
    · rintro (h1 | ⟨h2, h3, -⟩)
      · exact h1
      · exact absurd ⟨h2, h3⟩ h

theorem edgeFold_has (pairs : List (Nat × Nat)) (acc : List (Nat × List Nat)) (j : Nat) :
    adjHas (pairs.foldl (fun adj p =>
      if adjHas adj p.1 && adjHas adj p.2 then adjPush (adjPush adj p.1 p.2) p.2 p.1 else adj)
      acc) j = adjHas acc j := by
  induction pairs generalizing acc with
  | nil => rfl
  | cons p pairs ih => rw [List.foldl_cons, ih, edgeStep_has]

theorem edgeFold_nbr (pairs : List (Nat × Nat)) (acc : List (Nat × List Nat)) (a b : Nat) :
    Nbr (pairs.foldl (fun adj p =>
      if adjHas adj p.1 && adjHas adj p.2 then adjPush (adjPush adj p.1 p.2) p.2 p.1 else adj)
      acc) a b ↔
      Nbr acc a b ∨ (adjHas acc a = true ∧ adjHas acc b = true ∧
        ((a, b) ∈ pairs ∨ (b, a) ∈ pairs)) := by
  induction pairs generalizing acc with
  | nil => simp
  | cons p pairs ih =>
    rw [List.foldl_cons, ih, edgeStep_nbr, edgeStep_has, edgeStep_has]
    simp only [List.mem_cons]
    constructor
    · rintro ((h | ⟨h1, h2, h3⟩) | ⟨h1, h2, h3⟩)
      · exact Or.inl h
      · rcases h3 with h3 | h3
        · have : adjHas acc a = true ∧ adjHas acc b = true := by
            rw [← h3] at h1 h2; exact ⟨h1, h2⟩
          exact Or.inr ⟨this.1, this.2, Or.inl (Or.inl h3)⟩
        · have : adjHas acc a = true ∧ adjHas acc b = true := by
            rw [← h3] at h1 h2; exact ⟨h2, h1⟩
          exact Or.inr ⟨this.1, this.2, Or.inr (Or.inl h3)⟩
      · rcases h3 with h3 | h3
        · exact Or.inr ⟨h1, h2, Or.inl (Or.inr h3)⟩
        · exact Or.inr ⟨h1, h2, Or.inr (Or.inr h3)⟩
    · rintro (h | ⟨h1, h2, h3⟩)
      · exact Or.inl (Or.inl h)
      · rcases h3 with (h3 | h3) | (h3 | h3)
        · refine Or.inl (Or.inr ⟨?_, ?_, Or.inl h3⟩)
          · rw [← h3]; exact h1
          · rw [← h3]; exact h2
        · exact Or.inr ⟨h1, h2, Or.inl h3⟩
        · refine Or.inl (Or.inr ⟨?_, ?_, Or.inr h3⟩)
          · rw [← h3]; exact h2
          · rw [← h3]; exact h1
        · exact Or.inr ⟨h1, h2, Or.inr h3⟩

theorem adjOfLists_has (ids : List Nat) (pairs : List (Nat × Nat)) (j : Nat) :
    adjHas (adjOfLists ids pairs) j = true ↔ j ∈ ids := by
  unfold adjOfLists
  rw [edgeFold_has]
  unfold adjHas
  rw [vertexFold_lookup]
  by_cases h : j ∈ ids <;> simp [h]

theorem adjOfLists_nbr (ids : List Nat) (pairs : List (Nat × Nat)) (a b : Nat) :
    Nbr (adjOfLists ids pairs) a b ↔
      a ∈ ids ∧ b ∈ ids ∧ ((a, b) ∈ pairs ∨ (b, a) ∈ pairs) := by
  have hhas : ∀ j, adjHas (ids.foldl adjSet []) j = true ↔ j ∈ ids := by
    intro j
    unfold adjHas
    rw [vertexFold_lookup]
    by_cases h : j ∈ ids <;> simp [h]
  have hnone : ¬ Nbr (ids.foldl adjSet []) a b := by
    rintro ⟨ns, hns, hb⟩
    rw [vertexFold_lookup] at hns
    by_cases h : a ∈ ids
    · simp only [h, if_true, Option.some.injEq] at hns
      rw [← hns] at hb
      simp at hb
    · simp [h] at hns
  unfold adjOfLists
  rw [edgeFold_nbr, hhas, hhas]
  simp [hnone]

theorem adjOfLists_ok (ids : List Nat) (pairs : List (Nat × Nat)) :
    AdjOK (adjOfLists ids pairs) := by
  constructor
  · intro a b h
    rw [adjOfLists_nbr] at h
    exact (adjOfLists_has ids pairs b).2 h.2.1
  · intro a b h
    rw [adjOfLists_nbr] at h ⊢
    exact ⟨h.2.1, h.1, h.2.2.symm⟩

theorem adjSet_length (adj : List (Nat × List Nat)) (k : Nat) :
    (adjSet adj k).length ≤ adj.length + 1 := by
  unfold adjSet
  split <;> simp

theorem vertexFold_length (ids : List Nat) (acc : List (Nat × List Nat)) :
    (ids.foldl adjSet acc).length ≤ acc.length + ids.length := by
  induction ids generalizing acc with
  | nil => simp
  | cons i ids ih =>
    rw [List.foldl_cons]
    have h1 := ih (adjSet acc i)
    have h2 := adjSet_length acc i
    simp only [List.length_cons]
    omega

theorem edgeFold_length (pairs : List (Nat × Nat)) (acc : List (Nat × List Nat)) :
    (pairs.foldl (fun adj p =>
      if adjHas adj p.1 && adjHas adj p.2 then adjPush (adjPush adj p.1 p.2) p.2 p.1 else adj)
      acc).length = acc.length := by
  induction pairs generalizing acc with
  | nil => rfl
  | cons p pairs ih =>
    rw [List.foldl_cons, ih]
    split
    · simp [adjPush]
    · rfl

theorem adjOfLists_length (ids : List Nat) (pairs : List (Nat × Nat)) :
    (adjOfLists ids pairs).length ≤ ids.length := by
  unfold adjOfLists
  rw [edgeFold_length]
  simpa using vertexFold_length ids []

/-! ## List facts used by the search proofs -/

theorem drop_indexOf_eq (n : Nat) (l : List Nat) (h : n ∈ l) :
    ∃ l1 l2, l = l1 ++ n :: l2 ∧ l.drop (l.indexOf n) = n :: l2 := by
  induction l with
  | nil => simp at h
  | cons x l ih =>
    by_cases hx : x = n
    · subst hx
      exact ⟨[], l, rfl, by simp⟩
    · have hn : n ∈ l := by
        rcases List.mem_cons.1 h with h | h
        · exact absurd h.symm hx
        · exact h
      obtain ⟨l1, l2, h1, h2⟩ := ih hn
      refine ⟨x :: l1, l2, by rw [h1]; rfl, ?_⟩
      rw [List.indexOf_cons_ne _ hx]
      simpa using h2

theorem before_append_left (W X : List Nat) (a m : Nat) (hm : m ∈ W) :
    Before (W ++ X) a m ↔ Before W a m := by
  unfold Before
  rw [List.indexOf_append_of_mem hm]
  by_cases ha : a ∈ W
  · rw [List.indexOf_append_of_mem ha]
  · rw [List.indexOf_append_of_not_mem ha, List.indexOf_of_not_mem ha]
    have := List.indexOf_lt_length.2 hm
    omega

theorem before_mem_of_fresh (W X : List Nat) (a c : Nat) (hc : c ∉ W)
    (h : Before (W ++ c :: X) a c) : a ∈ W := by
  unfold Before at h
  rw [List.indexOf_append_of_not_mem hc, List.indexOf_cons_self] at h
  by_contra ha
  rw [List.indexOf_append_of_not_mem ha] at h
  omega

theorem uniqueEarlier_append (adj : List (Nat × List Nat)) (W X : List Nat) (m : Nat)
    (hm : m ∈ W) (h : UniqueEarlier adj W m) : UniqueEarlier adj (W ++ X) m := by
  intro a b ha hb h1 h2
  rw [before_append_left W X _ m hm] at h1 h2
  exact h a b ha hb h1 h2

theorem mem_keys_of_lookup (adj : List (Nat × List Nat)) (c : Nat)
    (h : (adj.lookup c).isSome = true) : c ∈ adj.map Prod.fst := by
  induction adj with
  | nil => simp at h
  | cons p adj ih =>
    obtain ⟨k, ns⟩ := p
    by_cases hck : c = k
    · simp [hck]
    · have hb : (c == k) = false := beq_false_of_ne hck
      simp only [List.lookup_cons, hb] at h
      simp [ih h]

theorem unvisited_pos (adj : List (Nat × List Nat)) (W : List Nat) (c : Nat)
    (h : (adj.lookup c).isSome = true) (hc : c ∉ W) : 0 < (unvisited adj W).length := by
  apply List.length_pos_of_mem (a := c)
  unfold unvisited
  simp [List.mem_filter, hc]
  simpa using mem_keys_of_lookup adj c h

theorem filter_length_lt (ks W X : List Nat) (c : Nat) (hk : c ∈ ks) (hc : c ∉ W) :
    (ks.filter (fun k => decide (k ∉ W ++ c :: X))).length <
      (ks.filter (fun k => decide (k ∉ W))).length := by
  induction ks with
  | nil => simp at hk
  | cons k ks ih =>
    have hle : (ks.filter (fun k => decide (k ∉ W ++ c :: X))).length ≤
        (ks.filter (fun k => decide (k ∉ W))).length := by
      apply List.Sublist.length_le
      apply List.monotone_filter_right
      intro x hx
      simp only [List.mem_append, List.mem_cons, not_or, decide_eq_true_eq] at hx ⊢
      exact hx.1
    have himp : decide (k ∉ W ++ c :: X) = true → decide (k ∉ W) = true := by
      simp only [List.mem_append, List.mem_cons, not_or, decide_eq_true_eq]
      exact fun h => h.1
    rw [List.filter_cons, List.filter_cons]
    by_cases hkc : k = c
    · subst hkc
      have h1 : ¬ (decide (k ∉ W ++ k :: X) = true) := by simp
      have h2 : decide (k ∉ W) = true := by simp [hc]
      rw [if_neg h1, if_pos h2]
      simp only [List.length_cons]
      omega
    · have hk2 : c ∈ ks := by
        rcases List.mem_cons.1 hk with h | h
        · exact absurd h.symm hkc
        · exact h
      have ih2 := ih hk2
      by_cases h1 : decide (k ∉ W ++ c :: X) = true
      · rw [if_pos h1, if_pos (himp h1)]
        simp only [List.length_cons]
        omega
      · rw [if_neg h1]
        split
        · simp only [List.length_cons]
          omega
        · exact ih2

theorem unvisited_lt (adj : List (Nat × List Nat)) (W X : List Nat) (c : Nat)
    (h : (adj.lookup c).isSome = true) (hc : c ∉ W) :
    (unvisited adj (W ++ c :: X)).length < (unvisited adj W).length :=
  filter_length_lt _ W X c (mem_keys_of_lookup adj c h) hc

/-! ## The depth-first search -/

theorem goodCycle_of_back_edge (adj : List (Nat × List Nat)) (P : List Nat) (c y : Nat)
    (parent : Option Nat) (hparent : parent = P.getLast?) (hnodup : (P ++ [c]).Nodup)
    (hchain : List.Chain' (Nbr adj) (P ++ [c])) (hy : y ∈ P ++ [c]) (hcy : Nbr adj c y)
    (hyp : some y ≠ parent) :
    GoodCycle adj ((P ++ [c]).drop ((P ++ [c]).indexOf y)) ∧
      ((∀ a, ¬ Nbr adj a a) → 3 ≤ ((P ++ [c]).drop ((P ++ [c]).indexOf y)).length) := by
  obtain ⟨l1, l2, hsplit, hdrop⟩ := drop_indexOf_eq y (P ++ [c]) hy
  rw [hdrop]
  have hlast : (y :: l2).getLast? = some c := by
    have h1 : (P ++ [c]).getLast? = some c := by simp
    rw [hsplit, List.getLast?_append] at h1
    simpa using h1
  refine ⟨⟨?_, ?_, ?_, by simp⟩, ?_⟩
  · rw [hsplit] at hnodup
    exact hnodup.of_append_right
  · rw [hsplit] at hchain
    exact hchain.right_of_append
  · intro h l hh hl
    rw [hlast] at hl
    simp only [List.head?_cons, Option.some.injEq] at hh hl
    rw [← hh, ← hl]
    exact hcy
  · intro hself
    have hyc : y ≠ c := fun h => hself c (h ▸ hcy)
    rcases List.eq_nil_or_concat l2 with h2 | ⟨l2b, z, h2⟩
    · rw [h2] at hlast
      simp only [List.getLast?_singleton, Option.some.injEq] at hlast
      exact absurd hlast hyc
    · rw [List.concat_eq_append] at h2
      have hz : z = c := by
        rw [h2, ← List.cons_append, List.getLast?_concat] at hlast
        exact Option.some.inj hlast
      subst hz
      have hP : P = l1 ++ y :: l2b := by
        have : P ++ [z] = (l1 ++ y :: l2b) ++ [z] := by
          rw [hsplit, h2]; simp
        exact List.append_cancel_right this
      rcases l2b with _ | ⟨w, l2c⟩
      · exfalso
        apply hyp
        rw [hparent, hP]
        simp
      · rw [h2]
        simp only [List.cons_append, List.length_cons, List.length_append, List.length_nil]
        omega

theorem neighborLoop_spec (adj : List (Nat × List Nat)) (hadj : AdjOK adj) (fuel c : Nat)
    (parent : Option Nat) (P W0 : List Nat) (recCall : Nat → Dfs → Bool × Dfs)
    (hrec : ∀ n st, CallPre adj fuel n (some c) st → CallSpec adj n st (recCall n st))
    (hparent : parent = P.getLast?) (hc0 : c ∉ W0)
    (closed0 : ∀ y ∈ W0, y ∉ P → ∀ z, Nbr adj y z → z ∈ W0) :
    ∀ (rest : List Nat) (st : Dfs),
      DfsInv adj st.visited st.path → st.path = P ++ [c] →
      (∃ X, st.visited = W0 ++ c :: X) → st.cycleFound = none →
      (unvisited adj st.visited).length ≤ fuel → (∀ y ∈ rest, Nbr adj c y) →
      LoopSpec adj c parent P W0 rest st (neighborLoop recCall parent rest st) := by
  intro rest
  induction rest with
  | nil =>
    intro st hinv hpath _ hnc _ _
    have heq : neighborLoop recCall parent [] st =
        (false, { st with path := st.path.dropLast }) := rfl
    rw [heq]
    constructor
    · intro _
      refine ⟨?_, ?_, ⟨[], by simp⟩, hnc, by simp, by simp⟩
      · rw [← hpath]; exact hinv
      · simp [hpath]
    · intro h
      simp at h
  | cons y rest ih =>
    intro st hinv hpath hX hnc hfuel hnbr
    have hnbr2 : ∀ z ∈ rest, Nbr adj c z := fun z hz => hnbr z (List.mem_cons_of_mem _ hz)
    have hcy : Nbr adj c y := hnbr y (List.mem_cons_self _ _)
    obtain ⟨X, hXeq⟩ := hX
    have hW0sub : ∀ w ∈ W0, w ∈ st.visited := by
      intro w hw; rw [hXeq]; simp [hw]
    by_cases hp : some y = parent
    · have heq : neighborLoop recCall parent (y :: rest) st =
          neighborLoop recCall parent rest st := by
        simp only [neighborLoop, if_pos hp]
      rw [heq]
      have h := ih st hinv hpath ⟨X, hXeq⟩ hnc hfuel hnbr2
      refine ⟨?_, h.onTrue⟩
      intro hf
      obtain ⟨h1, h2, ⟨Y, h3⟩, h4, h5, h6⟩ := h.onFalse hf
      refine ⟨h1, h2, ⟨Y, h3⟩, h4, ?_, ?_⟩
      · intro z hz
        rcases List.mem_cons.1 hz with rfl | hz
        · have hyP : z ∈ P := List.mem_of_getLast?_eq_some (hparent ▸ hp.symm)
          have : z ∈ st.visited := hinv.psub z (by rw [hpath]; simp [hyP])
          rw [h3]; simp [this]
        · exact h5 z hz
      · intro z hz hzW
        rcases List.mem_cons.1 hz with rfl | hz
        · exact hp
        · exact h6 z hz hzW
    · by_cases hv : y ∈ st.visited
      · by_cases hyp : y ∈ st.path
        · have heq : neighborLoop recCall parent (y :: rest) st =
              (true, { st with
                cycleFound := some (st.path.drop (st.path.indexOf y)) }) := by
            simp only [neighborLoop, if_neg hp, if_pos hv, if_pos hyp]
          rw [heq]
          constructor
          · intro h; simp at h
          · intro _
            have hg := goodCycle_of_back_edge adj P c y parent hparent
              (hpath ▸ hinv.pnodup) (hpath ▸ hinv.chain) (hpath ▸ hyp) hcy hp
            rw [← hpath] at hg
            exact ⟨_, rfl, hg.1, hg.2⟩
        · have heq : neighborLoop recCall parent (y :: rest) st =
              neighborLoop recCall parent rest st := by
            simp only [neighborLoop, if_neg hp, if_pos hv, if_neg hyp]
          rw [heq]
          have h := ih st hinv hpath ⟨X, hXeq⟩ hnc hfuel hnbr2
          refine ⟨?_, h.onTrue⟩
          intro hf
          obtain ⟨h1, h2, ⟨Y, h3⟩, h4, h5, h6⟩ := h.onFalse hf
          refine ⟨h1, h2, ⟨Y, h3⟩, h4, ?_, ?_⟩
          · intro z hz
            rcases List.mem_cons.1 hz with rfl | hz
            · rw [h3]; simp [hv]
            · exact h5 z hz
          · intro z hz hzW
            rcases List.mem_cons.1 hz with rfl | hz
            · exfalso
              have hzP : z ∉ P := by
                intro hzP
                apply hyp
                rw [hpath]; simp [hzP]
              exact hc0 (closed0 z hzW hzP c (hadj.symm c z hcy))
            · exact h6 z hz hzW
      · have hpre : CallPre adj fuel y (some c) st :=
          { inv := hinv
            key := hadj.closed c y hcy
            fresh := hv
            par := by rw [hpath]; simp
            edge := by
              intro n hn
              rw [← Option.some.inj hn]
              exact hcy
            fuelOk := hfuel
            noCycle := hnc }
        have hspec := hrec y st hpre
        by_cases hr : (recCall y st).1 = true
        · have heq : neighborLoop recCall parent (y :: rest) st = (true, (recCall y st).2) := by
            simp only [neighborLoop, if_neg hp, if_neg hv, if_pos hr]
          rw [heq]
          constructor
          · intro h; simp at h
          · intro _
            exact hspec.onTrue hr
        · have heq : neighborLoop recCall parent (y :: rest) st =
              neighborLoop recCall parent rest (recCall y st).2 := by
            simp only [neighborLoop, if_neg hp, if_neg hv, if_neg hr]
          rw [heq]
          have hrf : (recCall y st).1 = false := by simpa using hr
          obtain ⟨g1, g2, ⟨X2, g3⟩, g4⟩ := hspec.onFalse hrf
          have hfuel2 : (unvisited adj (recCall y st).2.visited).length ≤ fuel := by
            rw [g3]
            have := unvisited_lt adj st.visited X2 y (hadj.closed c y hcy) hv
            omega
          have h := ih (recCall y st).2 g1 (g2.trans hpath)
            ⟨X ++ y :: X2, by rw [g3, hXeq]; simp⟩ g4 hfuel2 hnbr2
          refine ⟨?_, h.onTrue⟩
          intro hf
          obtain ⟨h1, h2, ⟨Y, h3⟩, h4, h5, h6⟩ := h.onFalse hf
          refine ⟨h1, h2, ⟨y :: X2 ++ Y, by rw [h3, g3]; simp⟩, h4, ?_, ?_⟩
          · intro z hz
            rcases List.mem_cons.1 hz with rfl | hz
            · rw [h3, g3]; simp
            · exact h5 z hz
          · intro z hz hzW
            rcases List.mem_cons.1 hz with rfl | hz
            · exact absurd (hW0sub z hzW) hv
            · exact h6 z hz hzW

theorem dfsInv_push (adj : List (Nat × List Nat)) (W P : List Nat) (c : Nat)
    (parent : Option Nat) (hinv : DfsInv adj W P) (hc : c ∉ W) (hpar : parent = P.getLast?)
    (hedge : ∀ n, parent = some n → Nbr adj n c) : DfsInv adj (W ++ [c]) (P ++ [c]) where
  vnodup := by
    rw [List.nodup_append]
    exact ⟨hinv.vnodup, List.nodup_singleton c, by
      intro a ha hb
      rw [List.mem_singleton] at hb
      exact hc (hb ▸ ha)⟩
  pnodup := by
    rw [List.nodup_append]
    exact ⟨hinv.pnodup, List.nodup_singleton c, by
      intro a ha hb
      rw [List.mem_singleton] at hb
      exact hc (hinv.psub _ (hb ▸ ha))⟩
  psub := by
    intro x hx
    rcases List.mem_append.1 hx with hx | hx
    · exact List.mem_append_left _ (hinv.psub x hx)
    · exact List.mem_append_right _ hx
  chain := by
    rw [List.chain'_append]
    refine ⟨hinv.chain, List.chain'_singleton c, ?_⟩
    intro x hx y hy
    simp only [List.head?_cons, Option.mem_def, Option.some.injEq] at hy
    rw [← hy]
    exact hedge x (by rw [hpar]; exact hx)
  closed := by
    intro y hy hyP z hz
    have hyc : y ≠ c := fun h => hyP (by simp [h])
    have hyW : y ∈ W := by
      rcases List.mem_append.1 hy with h | h
      · exact h
      · exact absurd (List.mem_singleton.1 h) hyc
    exact List.mem_append_left _ (hinv.closed y hyW (fun h => hyP (by simp [h])) z hz)
  unique := by
    intro m hm hmP
    have hmc : m ≠ c := fun h => hmP (by simp [h])
    have hmW : m ∈ W := by
      rcases List.mem_append.1 hm with h | h
      · exact h
      · exact absurd (List.mem_singleton.1 h) hmc
    exact uniqueEarlier_append adj W [c] m hmW (hinv.unique m hmW (fun h => hmP (by simp [h])))

theorem findCycle_spec (adj : List (Nat × List Nat)) (hadj : AdjOK adj) :
    ∀ (fuel c : Nat) (parent : Option Nat) (st : Dfs),
      CallPre adj fuel c parent st → CallSpec adj c st (findCycle adj fuel c parent st) := by
  intro fuel
  induction fuel with
  | zero =>
    intro c parent st hpre
    exfalso
    have h1 := unvisited_pos adj st.visited c hpre.key hpre.fresh
    have h2 := hpre.fuelOk
    omega
  | succ fuel ih =>
    intro c parent st hpre
    obtain ⟨nbrs, hnbrs⟩ := Option.isSome_iff_exists.1 hpre.key
    have heq : findCycle adj (fuel + 1) c parent st =
        neighborLoop (fun n st2 => findCycle adj fuel n (some c) st2) parent nbrs
          { st with visited := st.visited ++ [c], path := st.path ++ [c] } := by
      simp only [findCycle, if_neg hpre.fresh, hnbrs]
    rw [heq]
    have hinv1 := dfsInv_push adj st.visited st.path c parent hpre.inv hpre.fresh hpre.par
      hpre.edge
    have hfuel1 : (unvisited adj (st.visited ++ [c])).length ≤ fuel := by
      have h1 := unvisited_lt adj st.visited [] c hpre.key hpre.fresh
      have h2 := hpre.fuelOk
      omega
    have hnbrOf : ∀ z, Nbr adj c z → z ∈ nbrs := by
      rintro z ⟨ns, hns, hz⟩
      rw [hnbrs] at hns
      exact (Option.some.inj hns) ▸ hz
    have hloop := neighborLoop_spec adj hadj fuel c parent st.path st.visited
      (fun n st2 => findCycle adj fuel n (some c) st2) (fun n st2 => ih n (some c) st2)
      hpre.par hpre.fresh hpre.inv.closed nbrs
      { st with visited := st.visited ++ [c], path := st.path ++ [c] }
      hinv1 rfl ⟨[], rfl⟩ hpre.noCycle hfuel1 (fun y hy => ⟨nbrs, hnbrs, hy⟩)
    refine ⟨?_, hloop.onTrue⟩
    intro hf
    obtain ⟨h1, h2, ⟨Y, h3⟩, h4, h5, h6⟩ := hloop.onFalse hf
    have h3b : (neighborLoop (fun n st2 => findCycle adj fuel n (some c) st2) parent nbrs
        { st with visited := st.visited ++ [c], path := st.path ++ [c] }).2.visited =
        st.visited ++ c :: Y := by
      rw [h3]; simp
    refine ⟨?_, h2, ⟨Y, h3b⟩, h4⟩
    rw [h2]
    exact
      { vnodup := h1.vnodup
        pnodup := hpre.inv.pnodup
        psub := fun x hx => h1.psub x (by simp [hx])
        chain := hpre.inv.chain
        closed := by
          intro y hy hyP z hz
          by_cases hyc : y = c
          · subst hyc
            exact h5 z (hnbrOf z hz)
          · exact h1.closed y hy (by simp [hyP, hyc]) z hz
        unique := by
          intro m hm hmP
          by_cases hmc : m = c
          · subst hmc
            intro a b ha hb hba hbb
            rw [h3b] at hba hbb
            have haW := before_mem_of_fresh st.visited Y a m hpre.fresh hba
            have hbW := before_mem_of_fresh st.visited Y b m hpre.fresh hbb
            have e1 := h6 a (hnbrOf a ha) haW
            have e2 := h6 b (hnbrOf b hb) hbW
            exact Option.some.inj (e1.trans e2.symm)
          · exact h1.unique m hm (by simp [hmP, hmc]) }

theorem searchRoots_spec (adj : List (Nat × List Nat)) (hadj : AdjOK adj) (fuel : Nat) :
    ∀ (roots : List Nat) (st : Dfs),
      DfsInv adj st.visited [] → st.path = [] → st.cycleFound = none →
      (∀ v ∈ roots, (adj.lookup v).isSome = true) →
      (unvisited adj st.visited).length ≤ fuel →
      ((searchRoots adj fuel roots st).cycleFound = none →
          DfsInv adj (searchRoots adj fuel roots st).visited [] ∧
            (∀ v ∈ roots, v ∈ (searchRoots adj fuel roots st).visited) ∧
            (∀ v ∈ st.visited, v ∈ (searchRoots adj fuel roots st).visited)) ∧
        (∀ cyc, (searchRoots adj fuel roots st).cycleFound = some cyc →
          GoodCycle adj cyc ∧ ((∀ a, ¬ Nbr adj a a) → 3 ≤ cyc.length)) := by
  intro roots
  induction roots with
  | nil =>
    intro st hinv _ hnc _ _
    refine ⟨fun _ => ⟨hinv, by simp, fun v hv => hv⟩, ?_⟩
    intro cyc hcyc
    simp only [searchRoots] at hcyc
    rw [hnc] at hcyc
    exact absurd hcyc (by simp)
  | cons v roots ih =>
    intro st hinv hpath hnc hkeys hfuel
    have hkeys2 : ∀ w ∈ roots, (adj.lookup w).isSome = true :=
      fun w hw => hkeys w (List.mem_cons_of_mem _ hw)
    by_cases hv : v ∈ st.visited
    · have heq : searchRoots adj fuel (v :: roots) st = searchRoots adj fuel roots st := by
        simp only [searchRoots, if_pos hv]
      rw [heq]
      have h := ih st hinv hpath hnc hkeys2 hfuel
      refine ⟨?_, h.2⟩
      intro hn
      obtain ⟨h1, h2, h3⟩ := h.1 hn
      refine ⟨h1, ?_, h3⟩
      intro w hw
      rcases List.mem_cons.1 hw with rfl | hw
      · exact h3 w hv
      · exact h2 w hw
    · have hpre : CallPre adj fuel v none st :=
        { inv := by rw [hpath]; exact hinv
          key := hkeys v (List.mem_cons_self _ _)
          fresh := hv
          par := by rw [hpath]; rfl
          edge := by intro n hn; exact absurd hn (by simp)
          fuelOk := hfuel
          noCycle := hnc }
      have hspec := findCycle_spec adj hadj fuel v none st hpre
      by_cases hr : (findCycle adj fuel v none st).1 = true
      · have heq : searchRoots adj fuel (v :: roots) st = (findCycle adj fuel v none st).2 := by
          simp only [searchRoots, if_neg hv, if_pos hr]
        rw [heq]
        obtain ⟨cyc, hc1, hc2, hc3⟩ := hspec.onTrue hr
        constructor
        · intro hn
          rw [hc1] at hn
          exact absurd hn (by simp)
        · intro cyc2 hcyc2
          rw [hc1] at hcyc2
          rw [← Option.some.inj hcyc2]
          exact ⟨hc2, hc3⟩
      · have heq : searchRoots adj fuel (v :: roots) st =
            searchRoots adj fuel roots (findCycle adj fuel v none st).2 := by
          simp only [searchRoots, if_neg hv, if_neg hr]
        rw [heq]
        have hrf : (findCycle adj fuel v none st).1 = false := by simpa using hr
        obtain ⟨g1, g2, ⟨X, g3⟩, g4⟩ := hspec.onFalse hrf
        have hfuel2 : (unvisited adj (findCycle adj fuel v none st).2.visited).length ≤ fuel := by
          rw [g3]
          have := unvisited_lt adj st.visited X v (hkeys v (List.mem_cons_self _ _)) hv
          omega
        have h := ih (findCycle adj fuel v none st).2 (by rw [g2, hpath] at g1; exact g1)
          (g2.trans hpath) g4 hkeys2 hfuel2
        refine ⟨?_, h.2⟩
        intro hn
        obtain ⟨h1, h2, h3⟩ := h.1 hn
        refine ⟨h1, ?_, ?_⟩
        · intro w hw
          rcases List.mem_cons.1 hw with rfl | hw
          · exact h3 w (by rw [g3]; simp)
          · exact h2 w hw
        · intro w hw
          exact h3 w (by rw [g3]; simp [hw])

theorem nodup_ne_of_append {α : Type} {l1 l2 : List α} {a b : α} (h : (l1 ++ l2).Nodup)
    (ha : a ∈ l1) (hb : b ∈ l2) : a ≠ b :=
  fun e => List.disjoint_of_nodup_append h ha (e ▸ hb)

/-- In a closed walk of at least 3 distinct elements every element has two
different neighbours on the walk. -/
theorem cycle_two_neighbors {α : Type} (R : α → α → Prop) (hsymm : ∀ a b, R a b → R b a)
    (cyc : List α) (hn : cyc.Nodup) (hc : List.Chain' R cyc)
    (hclose : ∀ h l, cyc.head? = some h → cyc.getLast? = some l → R l h)
    (hlen : 3 ≤ cyc.length) (m : α) (hm : m ∈ cyc) :
    ∃ a b, a ∈ cyc ∧ b ∈ cyc ∧ a ≠ b ∧ a ≠ m ∧ b ≠ m ∧ R m a ∧ R m b := by
  obtain ⟨l1, l2, rfl⟩ := List.append_of_mem hm
  rcases List.eq_nil_or_concat l1 with h1 | ⟨l1b, p, h1⟩
  · subst h1
    rcases l2 with _ | ⟨n, l2b⟩
    · simp at hlen
    · rcases List.eq_nil_or_concat l2b with h2 | ⟨l2c, z, h2⟩
      · subst h2
        simp at hlen
      · rw [List.concat_eq_append] at h2
        subst h2
        have hmn : R m n := by
          simp only [List.nil_append] at hc
          exact (List.chain'_cons.1 hc).1
        have hzm : R z m := by
          apply hclose m z
          · simp
          · rw [List.nil_append, ← List.cons_append, ← List.cons_append, List.getLast?_concat]
        rw [List.nil_append] at hn
        have hA := List.nodup_cons.1 hn
        have hB := List.nodup_cons.1 hA.2
        refine ⟨n, z, by simp, by simp, ?_, ?_, ?_, hmn, hsymm _ _ hzm⟩
        · exact fun e => hB.1 (by simp [e])
        · exact fun e => hA.1 (by simp [e])
        · exact fun e => hA.1 (by simp [e])
  · rw [List.concat_eq_append] at h1
    subst h1
    have hpm : R p m := by
      have h := hc
      rw [List.append_assoc] at h
      exact (List.chain'_cons.1 h.right_of_append).1
    have hpm2 : p ≠ m := nodup_ne_of_append hn (by simp) (by simp)
    rcases l2 with _ | ⟨n, l2b⟩
    · rcases l1b with _ | ⟨h, l1c⟩
      · simp at hlen
      · have hmh : R m h := by
          apply hclose h m
          · simp
          · rw [List.getLast?_concat]
        have hhm : h ≠ m := nodup_ne_of_append hn (by simp) (by simp)
        have hhp : h ≠ p := nodup_ne_of_append hn.of_append_left (by simp) (by simp)
        exact ⟨p, h, by simp, by simp, hhp.symm, hpm2, hhm, hsymm _ _ hpm, hmh⟩
    · have hmn : R m n := by
        have h := hc
        exact (List.chain'_cons.1 h.right_of_append).1
      have hpn : p ≠ n := nodup_ne_of_append hn (by simp) (by simp)
      have hnm : n ≠ m := by
        have hA := List.nodup_cons.1 hn.of_append_right
        exact fun e => hA.1 (by simp [e])
      exact ⟨p, n, by simp, by simp, hpn, hpm2, hnm, hsymm _ _ hpm, hmn⟩

theorem no_cycle_of_inv (adj : List (Nat × List Nat)) (hadj : AdjOK adj) (V : List Nat)
    (hinv : DfsInv adj V []) (cyc : List Nat) (hg : GoodCycle adj cyc)
    (hlen : 3 ≤ cyc.length) (hsub : ∀ x ∈ cyc, x ∈ V) : False := by
  have hne : cyc.toFinset.Nonempty := by
    rcases cyc with _ | ⟨x, l⟩
    · simp at hlen
    · exact ⟨x, by simp⟩
  obtain ⟨m, hm, hmax⟩ := Finset.exists_max_image cyc.toFinset (fun x => V.indexOf x) hne
  rw [List.mem_toFinset] at hm
  obtain ⟨a, b, ha, hb, hab, ham, hbm, hRa, hRb⟩ :=
    cycle_two_neighbors (Nbr adj) hadj.symm cyc hg.nodup hg.chain hg.close hlen m hm
  have hlt : ∀ x, x ∈ cyc → x ≠ m → Before V x m := by
    intro x hx hxm
    have h1 := hmax x (List.mem_toFinset.2 hx)
    have h2 : V.indexOf x ≠ V.indexOf m := by
      intro e
      exact hxm ((List.indexOf_inj (hsub x hx) (hsub m hm)).1 e)
    exact lt_of_le_of_ne h1 h2
  exact hab (hinv.unique m (hsub m hm) (by simp) a b hRa hRb (hlt a ha ham) (hlt b hb hbm))


/-! ## From the search to the fill polygon -/

theorem cycleSearch_eq (s : State) :
    cycleSearch s =
      (searchRoots (adjOfLists (vertexIds s) (edgeIdPairs s)) s.vertices.length (vertexIds s)
        { visited := [], path := [], cycleFound := none }).cycleFound := by
  unfold cycleSearch
  rw [buildAdj_eq]
  rfl

theorem searchStart (s : State) :
    DfsInv (adjOfLists (vertexIds s) (edgeIdPairs s)) [] [] ∧
      (∀ v ∈ vertexIds s,
        ((adjOfLists (vertexIds s) (edgeIdPairs s)).lookup v).isSome = true) ∧
      (unvisited (adjOfLists (vertexIds s) (edgeIdPairs s)) []).length ≤ s.vertices.length := by
  refine ⟨?_, ?_, ?_⟩
  · exact
      { vnodup := List.nodup_nil
        pnodup := List.nodup_nil
        psub := by simp
        chain := List.chain'_nil
        closed := by simp
        unique := by simp }
  · intro v hv
    exact (adjOfLists_has _ _ v).2 hv
  · unfold unvisited
    have h1 := List.length_filter_le (fun k => decide (k ∉ ([] : List Nat)))
      ((adjOfLists (vertexIds s) (edgeIdPairs s)).map Prod.fst)
    have h2 := adjOfLists_length (vertexIds s) (edgeIdPairs s)
    simp only [List.length_map] at h1
    have h3 : (vertexIds s).length = s.vertices.length := by simp [vertexIds]
    omega

theorem cycleSearch_sound (s : State) (cyc : List Nat) (h : cycleSearch s = some cyc) :
    GoodCycle (adjOfLists (vertexIds s) (edgeIdPairs s)) cyc ∧
      ((∀ a, ¬ Nbr (adjOfLists (vertexIds s) (edgeIdPairs s)) a a) → 3 ≤ cyc.length) := by
  rw [cycleSearch_eq] at h
  obtain ⟨h1, h2, h3⟩ := searchStart s
  exact (searchRoots_spec _ (adjOfLists_ok _ _) _ (vertexIds s) _ h1 rfl rfl h2 h3).2 cyc h

theorem cycleSearch_complete (s : State) (h : cycleSearch s = none) (cyc : List Nat)
    (hg : GoodCycle (adjOfLists (vertexIds s) (edgeIdPairs s)) cyc) (hlen : 3 ≤ cyc.length) :
    False := by
  rw [cycleSearch_eq] at h
  obtain ⟨h1, h2, h3⟩ := searchStart s
  obtain ⟨g1, g2, -⟩ :=
    (searchRoots_spec _ (adjOfLists_ok _ _) _ (vertexIds s) _ h1 rfl rfl h2 h3).1 h
  apply no_cycle_of_inv _ (adjOfLists_ok _ _) _ g1 cyc hg hlen
  intro x hx
  apply g2
  obtain ⟨a, -, -, -, -, -, -, hxa, -⟩ :=
    cycle_two_neighbors _ (adjOfLists_ok _ _).symm cyc hg.nodup hg.chain hg.close hlen x hx
  rw [adjOfLists_nbr] at hxa
  exact hxa.1

theorem lookupCycle_forall₂ (s : State) :
    ∀ (l : List Nat) (r : List VRef), lookupCycle s l = some r →
      List.Forall₂ (fun i v => findVertexById s i = some v) l r := by
  intro l
  induction l with
  | nil =>
    intro r h
    simp only [lookupCycle, Option.some.injEq] at h
    subst h
    exact List.Forall₂.nil
  | cons a l ih =>
    intro r h
    simp only [lookupCycle] at h
    cases hga : findVertexById s a with
    | none => simp [hga] at h
    | some b =>
      cases hl : lookupCycle s l with
      | none => simp [hga, hl] at h
      | some bs =>
        simp only [hga, hl, Option.some.injEq] at h
        subst h
        exact List.Forall₂.cons hga (ih bs hl)

theorem lookupCycle_isSome (s : State) :
    ∀ (l : List Nat), (∀ i ∈ l, ∃ v, findVertexById s i = some v) →
      ∃ r, lookupCycle s l = some r := by
  intro l
  induction l with
  | nil => intro _; exact ⟨[], rfl⟩
  | cons a l ih =>
    intro h
    obtain ⟨b, hb⟩ := h a (List.mem_cons_self _ _)
    obtain ⟨bs, hbs⟩ := ih (fun i hi => h i (List.mem_cons_of_mem _ hi))
    exact ⟨b :: bs, by simp only [lookupCycle, hb, hbs]⟩

theorem findVertexById_some (s : State) (i : Nat) (v : VRef)
    (h : findVertexById s i = some v) : v ∈ s.vertices ∧ (s.circles v).id = i := by
  unfold findVertexById at h
  refine ⟨List.mem_of_find?_eq_some h, ?_⟩
  have := List.find?_some h
  simpa using this

theorem findVertexById_isSome (s : State) (i : Nat) (h : i ∈ vertexIds s) :
    ∃ v, findVertexById s i = some v := by
  unfold vertexIds at h
  obtain ⟨v, hv, rfl⟩ := List.mem_map.1 h
  unfold findVertexById
  rw [← Option.isSome_iff_exists, List.find?_isSome]
  exact ⟨v, hv, by simp⟩

theorem forall₂_lookup (s : State) (l : List Nat) (r : List VRef)
    (h : List.Forall₂ (fun i v => findVertexById s i = some v) l r) :
    r.map (fun v => (s.circles v).id) = l ∧ ∀ v ∈ r, v ∈ s.vertices := by
  induction h with
  | nil => simp
  | cons h1 _ ih =>
    obtain ⟨hv, hid⟩ := findVertexById_some s _ _ h1
    constructor
    · simp [hid, ih.1]
    · intro v hv2
      rcases List.mem_cons.1 hv2 with rfl | hv2
      · exact hv
      · exact ih.2 v hv2

theorem computeFill_congr (s t : State) (hv : t.vertices = s.vertices)
    (he : t.edges = s.edges) (hc : t.circles = s.circles) : computeFill t = computeFill s := by
  have h1 : cycleSearch t = cycleSearch s := by
    unfold cycleSearch buildAdj
    rw [hv, he, hc]
  have h2 : ∀ l, lookupCycle t l = lookupCycle s l := by
    intro l
    induction l with
    | nil => rfl
    | cons a l ih =>
      simp only [lookupCycle, ih]
      unfold findVertexById
      rw [hv, hc]
  unfold computeFill
  rw [h1]
  simp only [h2, hc]

theorem detect_fillObject (s : State) : (detectAndFillLoops s).fillObject = fillResult s := by
  have hcf : computeFill (clearFill s) = computeFill s :=
    computeFill_congr s (clearFill s) (by simp) (by simp) (by simp)
  unfold detectAndFillLoops fillResult
  split
  · simp
  · simp only [clearFill_vertices, hcf]
    split
    · simp
    · cases hc : computeFill s <;> simp

theorem computeFill_some (s : State) (f : FillPolygon) (h : computeFill s = some f) :
    ∃ cyc, cycleSearch s = some cyc ∧ 3 ≤ cyc.length ∧ lookupCycle s cyc = some f.cycle ∧
      f.points = f.cycle.map (fun v => ((s.circles v).left, (s.circles v).top)) := by
  unfold computeFill at h
  cases hcs : cycleSearch s with
  | none => simp [hcs] at h
  | some cyc =>
    simp only [hcs] at h
    by_cases hlen : 3 ≤ cyc.length
    · rw [if_pos hlen] at h
      cases hl : lookupCycle s cyc with
      | none => simp [hl] at h
      | some cv =>
        simp only [hl, Option.some.injEq] at h
        subst h
        exact ⟨cyc, rfl, hlen, hl, rfl⟩
    · rw [if_neg hlen] at h
      exact absurd h (by simp)

theorem nbr_joined (s : State) (hd : DistinctIds s) (u w : VRef) (hu : u ∈ s.vertices)
    (hw : w ∈ s.vertices)
    (h : Nbr (adjOfLists (vertexIds s) (edgeIdPairs s)) (s.circles u).id (s.circles w).id) :
    Joined s u w := by
  rw [adjOfLists_nbr] at h
  obtain ⟨-, -, h⟩ := h
  have hur : u ∈ graphRefs s := by simp [graphRefs, hu]
  have hwr : w ∈ graphRefs s := by simp [graphRefs, hw]
  have hend : ∀ e ∈ s.edges, e.v1 ∈ graphRefs s ∧ e.v2 ∈ graphRefs s := by
    intro e he
    constructor
    · simp only [graphRefs, List.mem_append, List.mem_map]
      exact Or.inl (Or.inr ⟨e, he, rfl⟩)
    · simp only [graphRefs, List.mem_append, List.mem_map]
      exact Or.inr ⟨e, he, rfl⟩
  rcases h with h | h
  · simp only [edgeIdPairs, List.mem_map, Prod.mk.injEq] at h
    obtain ⟨e, he, h1, h2⟩ := h
    exact ⟨e, he, Or.inl ⟨hd _ (hend e he).1 _ hur h1, hd _ (hend e he).2 _ hwr h2⟩⟩
  · simp only [edgeIdPairs, List.mem_map, Prod.mk.injEq] at h
    obtain ⟨e, he, h1, h2⟩ := h
    exact ⟨e, he, Or.inr ⟨hd _ (hend e he).1 _ hwr h1, hd _ (hend e he).2 _ hur h2⟩⟩

theorem joined_nbr (s : State) (hn : NoDangling s) (u w : VRef) (h : Joined s u w) :
    Nbr (adjOfLists (vertexIds s) (edgeIdPairs s)) (s.circles u).id (s.circles w).id := by
  rw [adjOfLists_nbr]
  obtain ⟨e, he, h⟩ := h
  have hmem := hn e he
  have hid : ∀ v, v ∈ s.vertices → (s.circles v).id ∈ vertexIds s := by
    intro v hv
    exact List.mem_map_of_mem _ hv
  rcases h with ⟨h1, h2⟩ | ⟨h1, h2⟩
  · subst h1; subst h2
    refine ⟨hid _ hmem.1, hid _ hmem.2, Or.inl ?_⟩
    exact List.mem_map_of_mem (fun e => ((s.circles e.v1).id, (s.circles e.v2).id)) he
  · subst h1; subst h2
    refine ⟨hid _ hmem.2, hid _ hmem.1, Or.inr ?_⟩
    exact List.mem_map_of_mem (fun e => ((s.circles e.v1).id, (s.circles e.v2).id)) he

theorem chain'_with_mem {α : Type} (R : α → α → Prop) (l : List α) (h : List.Chain' R l) :
    List.Chain' (fun a b => (a ∈ l ∧ b ∈ l) ∧ R a b) l := by
  have key : ∀ (l2 : List α), List.Chain' R l2 → (∀ x ∈ l2, x ∈ l) →
      List.Chain' (fun a b => (a ∈ l ∧ b ∈ l) ∧ R a b) l2 := by
    intro l2
    induction l2 with
    | nil => intro _ _; exact List.chain'_nil
    | cons a l2 ih =>
      intro hc hsub
      rw [List.chain'_cons'] at hc ⊢
      refine ⟨?_, ih hc.2 (fun x hx => hsub x (List.mem_cons_of_mem _ hx))⟩
      intro y hy
      refine ⟨⟨hsub a (List.mem_cons_self _ _), ?_⟩, hc.1 y hy⟩
      apply hsub
      apply List.mem_cons_of_mem
      rcases l2 with _ | ⟨z, l3⟩
      · simp at hy
      · simp only [List.head?_cons, Option.mem_def, Option.some.injEq] at hy
        simp [hy]
  exact key l h (fun x hx => hx)

/-- Soundness of the fill: what `fillResult` returns is a cycle of the graph. -/
theorem fillResult_sound (s : State) (hd : DistinctIds s) (f : FillPolygon)
    (h : fillResult s = some f) :
    IsCycle s f.cycle ∧ (∀ v ∈ f.cycle, v ∈ s.vertices) ∧
      f.points = f.cycle.map (fun v => ((s.circles v).left, (s.circles v).top)) := by
  have hcf : computeFill s = some f := by
    unfold fillResult at h
    split at h
    · exact absurd h (by simp)
    · split at h
      · exact absurd h (by simp)
      · exact h
  obtain ⟨cyc, hcs, hlen, hlook, hpts⟩ := computeFill_some s f hcf
  obtain ⟨hg, -⟩ := cycleSearch_sound s cyc hcs
  obtain ⟨hmap, hmem⟩ := forall₂_lookup s cyc f.cycle (lookupCycle_forall₂ s cyc f.cycle hlook)
  have hlen2 : f.cycle.length = cyc.length := by
    rw [← hmap, List.length_map]
  have hnodup : f.cycle.Nodup := by
    apply List.Nodup.of_map (fun v => (s.circles v).id)
    rw [hmap]
    exact hg.nodup
  refine ⟨⟨by omega, hnodup, ?_, ?_⟩, hmem, hpts⟩
  · have hc := hg.chain
    rw [← hmap, List.chain'_map] at hc
    have hc2 := chain'_with_mem _ _ hc
    exact hc2.imp (fun u w hh => nbr_joined s hd u w (hmem u hh.1.1) (hmem w hh.1.2) hh.2)
  · intro hd0 l hh hl
    have hhm : hd0 ∈ f.cycle := List.mem_of_mem_head? hh
    have hlm : l ∈ f.cycle := List.mem_of_getLast?_eq_some hl
    apply nbr_joined s hd l hd0 (hmem l hlm) (hmem hd0 hhm)
    apply hg.close
    · rw [← hmap, List.head?_map, hh]; rfl
    · rw [← hmap, List.getLast?_map, hl]; rfl

theorem joined_symm (s : State) (u w : VRef) (h : Joined s u w) : Joined s w u := by
  obtain ⟨e, he, h⟩ := h
  exact ⟨e, he, h.symm⟩

theorem isCycle_mem_vertices (s : State) (hn : NoDangling s) (cyc : List VRef)
    (hc : IsCycle s cyc) : ∀ v ∈ cyc, v ∈ s.vertices := by
  intro v hv
  obtain ⟨a, -, -, -, -, -, -, hva, -⟩ :=
    cycle_two_neighbors (Joined s) (joined_symm s) cyc hc.nodup hc.chain hc.close hc.long v hv
  obtain ⟨e, he, h⟩ := hva
  rcases h with ⟨h1, -⟩ | ⟨-, h2⟩
  · exact h1 ▸ (hn e he).1
  · exact h2 ▸ (hn e he).2

/-- Completeness of the fill: a cycle of the graph makes `fillResult` return a
polygon. -/
theorem fillResult_complete (s : State) (hd : DistinctIds s) (hl : NoSelfLoop s)
    (hn : NoDangling s) (hauto : s.autoFill = true) (cv : List VRef) (hc : IsCycle s cv) :
    ∃ f, fillResult s = some f := by
  have hmem := isCycle_mem_vertices s hn cv hc
  have hlenV : 3 ≤ s.vertices.length := by
    have := (List.Nodup.subperm hc.nodup (fun v hv => hmem v hv)).length_le
    have := hc.long
    omega
  have hrefs : ∀ v ∈ s.vertices, v ∈ graphRefs s := by
    intro v hv; simp [graphRefs, hv]
  -- the cycle at the level of ids
  have hg : GoodCycle (adjOfLists (vertexIds s) (edgeIdPairs s))
      (cv.map (fun v => (s.circles v).id)) := by
    refine ⟨?_, ?_, ?_, ?_⟩
    · exact List.Nodup.map_on
        (fun x hx y hy hxy => hd x (hrefs x (hmem x hx)) y (hrefs y (hmem y hy)) hxy) hc.nodup
    · rw [List.chain'_map]
      exact hc.chain.imp (fun u w h => joined_nbr s hn u w h)
    · intro h l hh hl2
      rw [List.head?_map] at hh
      rw [List.getLast?_map] at hl2
      cases hh0 : cv.head? with
      | none => simp [hh0] at hh
      | some h0 =>
        cases hl0 : cv.getLast? with
        | none => simp [hl0] at hl2
        | some l0 =>
          simp only [hh0, hl0, Option.map_some', Option.some.injEq] at hh hl2
          rw [← hh, ← hl2]
          exact joined_nbr s hn l0 h0 (hc.close h0 l0 hh0 hl0)
    · intro h
      have := hc.long
      simp only [List.map_eq_nil_iff] at h
      rw [h] at this
      simp at this
  have hnoself : ∀ a, ¬ Nbr (adjOfLists (vertexIds s) (edgeIdPairs s)) a a := by
    intro a h
    rw [adjOfLists_nbr] at h
    obtain ⟨-, -, h⟩ := h
    have h2 : (a, a) ∈ edgeIdPairs s := by tauto
    simp only [edgeIdPairs, List.mem_map, Prod.mk.injEq] at h2
    obtain ⟨e, he, h1, h3⟩ := h2
    have hv := hn e he
    exact hl e he (hd _ (hrefs _ hv.1) _ (hrefs _ hv.2) (h1.trans h3.symm))
  cases hcs : cycleSearch s with
  | none =>
    exfalso
    exact cycleSearch_complete s hcs _ hg (by rw [List.length_map]; exact hc.long)
  | some cyc2 =>
    obtain ⟨hg2, hlen2⟩ := cycleSearch_sound s cyc2 hcs
    have hlen3 := hlen2 hnoself
    have hkeys : ∀ i ∈ cyc2, ∃ v, findVertexById s i = some v := by
      intro i hi
      obtain ⟨a, -, -, -, -, -, -, hia, -⟩ :=
        cycle_two_neighbors _ (adjOfLists_ok _ _).symm cyc2 hg2.nodup hg2.chain hg2.close
          hlen3 i hi
      rw [adjOfLists_nbr] at hia
      exact findVertexById_isSome s i hia.1
    obtain ⟨r, hr⟩ := lookupCycle_isSome s cyc2 hkeys
    refine ⟨{ points := r.map (fun v => ((s.circles v).left, (s.circles v).top)),
              cycle := r }, ?_⟩
    unfold fillResult
    rw [if_neg (by simp [hauto]), if_neg (by omega)]
    unfold computeFill
    simp only [hcs, if_pos hlen3, hr]

theorem isCycle_detect (s : State) (cyc : List VRef) :
    IsCycle (detectAndFillLoops s) cyc ↔ IsCycle s cyc := by
  have hj : Joined (detectAndFillLoops s) = Joined s := by
    funext u w
    simp only [Joined, detect_edges]
  constructor
  · intro h
    exact ⟨h.long, h.nodup, hj ▸ h.chain, hj ▸ h.close⟩
  · intro h
    exact ⟨h.long, h.nodup, hj.symm ▸ h.chain, hj.symm ▸ h.close⟩

/-! ## C3, C4 -/

/-- C3. Cycle soundness: for every graph whose vertices have pairwise distinct
ids, a fill polygon left by `detectAndFillLoops` stores a cycle of at least 3
pairwise distinct vertices of the current vertex list in which every two
consecutive vertices, and the last and the first, are joined by an edge of
the current edge list, and its points are the current `(left, top)` positions
of these vertices in the same order. -/
theorem detect_fill_is_cycle (s : State) (hd : DistinctIds s) (f : FillPolygon)
    (hf : (detectAndFillLoops s).fillObject = some f) :
    IsCycle (detectAndFillLoops s) f.cycle ∧
      (∀ v ∈ f.cycle, v ∈ (detectAndFillLoops s).vertices) ∧
      f.points = f.cycle.map (fun v =>
        (((detectAndFillLoops s).circles v).left, ((detectAndFillLoops s).circles v).top)) := by
  rw [detect_fillObject] at hf
  obtain ⟨h1, h2, h3⟩ := fillResult_sound s hd f hf
  rw [isCycle_detect, detect_vertices, detect_circles]
  exact ⟨h1, h2, h3⟩

/-- C4. Cycle completeness: for every graph with pairwise distinct vertex
ids, no self-loop edge and no dangling edge endpoint, after
`detectAndFillLoops` a fill polygon exists if and only if auto-fill is
enabled and the graph contains a cycle through at least 3 distinct vertices;
in particular there is no fill when auto-fill is disabled, when there are
fewer than 3 vertices, or when the graph is acyclic, whatever fill was stored
before the call. -/
theorem detect_fill_iff_cycle (s : State) (hd : DistinctIds s) (hl : NoSelfLoop s)
    (hn : NoDangling s) :
    ((∃ f, (detectAndFillLoops s).fillObject = some f) ↔
        s.autoFill = true ∧ ∃ cyc, IsCycle s cyc) ∧
      (s.autoFill = false → (detectAndFillLoops s).fillObject = none) ∧
      (s.vertices.length < 3 → (detectAndFillLoops s).fillObject = none) ∧
      ((¬ ∃ cyc, IsCycle s cyc) → (detectAndFillLoops s).fillObject = none) := by
  have hiff : (∃ f, (detectAndFillLoops s).fillObject = some f) ↔
      s.autoFill = true ∧ ∃ cyc, IsCycle s cyc := by
    rw [detect_fillObject]
    constructor
    · rintro ⟨f, hf⟩
      refine ⟨?_, f.cycle, (fillResult_sound s hd f hf).1⟩
      by_contra hauto
      unfold fillResult at hf
      rw [if_pos (by simpa using hauto)] at hf
      exact absurd hf (by simp)
    · rintro ⟨hauto, cyc, hc⟩
      exact fillResult_complete s hd hl hn hauto cyc hc
  refine ⟨hiff, ?_, ?_, ?_⟩
  · intro hauto
    rw [detect_fillObject]
    unfold fillResult
    rw [if_pos hauto]
  · intro hlen
    rw [detect_fillObject]
    unfold fillResult
    split
    · rfl
    · simp [hlen]
  · intro hno
    cases hfo : (detectAndFillLoops s).fillObject with
    | none => rfl
    | some f => exact absurd (hiff.1 ⟨f, hfo⟩).2 hno

/-! ## C5: the rectangle graph -/

theorem addModalRectGraph_eq (s : State) (a b c d : Nat) :
    addModalRectGraph s a b c d = rectGraphOmitting s a b c d 4 := rfl

theorem rectBuild_facts (a b c d k : Nat) :
    (rectBuild init a b c d k).vertices = [0, 1, 2, 3] ∧
      (rectBuild init a b c d k).autoFill = true ∧
      (rectBuild init a b c d k).fillObject = none ∧
      (rectBuild init a b c d k).canvasFills = [] ∧
      (rectBuild init a b c d k).circles 0 =
        { id := a, left := 150, top := 150, fill := "#e74c3c", snapTarget := none,
          originalLeft := 0, originalTop := 0 } ∧
      (rectBuild init a b c d k).circles 1 =
        { id := b, left := 350, top := 150, fill := "#e74c3c", snapTarget := none,
          originalLeft := 0, originalTop := 0 } ∧
      (rectBuild init a b c d k).circles 2 =
        { id := c, left := 350, top := 300, fill := "#e74c3c", snapTarget := none,
          originalLeft := 0, originalTop := 0 } ∧
      (rectBuild init a b c d k).circles 3 =
        { id := d, left := 150, top := 300, fill := "#e74c3c", snapTarget := none,
          originalLeft := 0, originalTop := 0 } := by
  unfold rectBuild
  simp only [createVertex, createEdge, init]
  split <;> split <;> split <;> split <;> simp

theorem rectBuild_endpoints (a b c d k : Nat) :
    endpoints (rectBuild init a b c d k) =
      (if k = 0 then [] else [(0, 1)]) ++ (if k = 1 then [] else [(1, 2)]) ++
        (if k = 2 then [] else [(2, 3)]) ++ (if k = 3 then [] else [(3, 0)]) := by
  unfold rectBuild endpoints
  simp only [createVertex, createEdge, init]
  split <;> split <;> split <;> split <;> simp

theorem edgeIdPairs_eq (s : State) :
    edgeIdPairs s = (endpoints s).map (fun p => ((s.circles p.1).id, (s.circles p.2).id)) := by
  simp [edgeIdPairs, endpoints]

theorem search_square (a b c d : Nat) (hab : a ≠ b) (hac : a ≠ c) (had : a ≠ d)
    (hbc : b ≠ c) (hbd : b ≠ d) (hcd : c ≠ d) (k : Nat) :
    (searchRoots
        (adjOfLists [a, b, c, d]
          ((if k = 0 then [] else [(a, b)]) ++ (if k = 1 then [] else [(b, c)]) ++
            (if k = 2 then [] else [(c, d)]) ++ (if k = 3 then [] else [(d, a)])))
        4 [a, b, c, d] { visited := [], path := [], cycleFound := none }).cycleFound =
      if k < 4 then none else some [a, b, c, d] := by
  have hba := hab.symm
  have hca := hac.symm
  have hda := had.symm
  have hcb := hbc.symm
  have hdb := hbd.symm
  have hdc := hcd.symm
  have e1 : (a == b) = false := beq_false_of_ne hab
  have e2 : (a == c) = false := beq_false_of_ne hac
  have e3 : (a == d) = false := beq_false_of_ne had
  have e4 : (b == c) = false := beq_false_of_ne hbc
  have e5 : (b == d) = false := beq_false_of_ne hbd
  have e6 : (c == d) = false := beq_false_of_ne hcd
  have e7 : (b == a) = false := beq_false_of_ne hba
  have e8 : (c == a) = false := beq_false_of_ne hca
  have e9 : (d == a) = false := beq_false_of_ne hda
  have e10 : (c == b) = false := beq_false_of_ne hcb
  have e11 : (d == b) = false := beq_false_of_ne hdb
  have e12 : (d == c) = false := beq_false_of_ne hdc
  by_cases h0 : k = 0
  · subst h0
    simp [adjOfLists, adjSet, adjHas, adjPush, searchRoots, findCycle, neighborLoop,
      List.lookup, hab, hac, had, hbc, hbd, hcd, hba, hca, hda, hcb, hdb, hdc,
      e1, e2, e3, e4, e5, e6, e7, e8, e9, e10, e11, e12]
  by_cases h1 : k = 1
  · subst h1
    simp [adjOfLists, adjSet, adjHas, adjPush, searchRoots, findCycle, neighborLoop,
      List.lookup, hab, hac, had, hbc, hbd, hcd, hba, hca, hda, hcb, hdb, hdc,
      e1, e2, e3, e4, e5, e6, e7, e8, e9, e10, e11, e12]
  by_cases h2 : k = 2
  · subst h2
    simp [adjOfLists, adjSet, adjHas, adjPush, searchRoots, findCycle, neighborLoop,
      List.lookup, hab, hac, had, hbc, hbd, hcd, hba, hca, hda, hcb, hdb, hdc,
      e1, e2, e3, e4, e5, e6, e7, e8, e9, e10, e11, e12]
  by_cases h3 : k = 3
  · subst h3
    simp [adjOfLists, adjSet, adjHas, adjPush, searchRoots, findCycle, neighborLoop,
      List.lookup, hab, hac, had, hbc, hbd, hcd, hba, hca, hda, hcb, hdb, hdc,
      e1, e2, e3, e4, e5, e6, e7, e8, e9, e10, e11, e12]
  have h4 : ¬ k < 4 := by omega
  simp [h0, h1, h2, h3, h4, adjOfLists, adjSet, adjHas, adjPush, searchRoots, findCycle,
    neighborLoop, List.lookup, hab, hac, had, hbc, hbd, hcd, hba, hca, hda, hcb, hdb, hdc,
    e1, e2, e3, e4, e5, e6, e7, e8, e9, e10, e11, e12, List.indexOf_cons]

/-! ## C6: running the detector twice -/

theorem clearFill_canvas_tracked (s : State) (h : FillTracked s) :
    (clearFill s).canvasFills = [] := by
  unfold FillTracked at h
  unfold clearFill
  cases hf : s.fillObject with
  | none => simp [h, hf]
  | some g => simp [h, hf]

theorem detect_canvas_tracked (s : State) (h : FillTracked s) :
    (detectAndFillLoops s).canvasFills = (fillResult s).toList := by
  have hcf : computeFill (clearFill s) = computeFill s :=
    computeFill_congr s (clearFill s) (by simp) (by simp) (by simp)
  have hc := clearFill_canvas_tracked s h
  unfold detectAndFillLoops fillResult
  split
  · simp [hc]
  · simp only [clearFill_vertices, hcf]
    split
    · simp [hc]
    · cases hcomp : computeFill s with
      | none => simp [hc]
      | some f => simp [hc]

@[simp] theorem detect_autoFill (s : State) : (detectAndFillLoops s).autoFill = s.autoFill := by
  unfold detectAndFillLoops
  split
  · simp
  · simp only []
    split
    · simp
    · split <;> simp

theorem fillResult_detect (s : State) : fillResult (detectAndFillLoops s) = fillResult s := by
  unfold fillResult
  rw [detect_autoFill, detect_vertices,
    computeFill_congr s (detectAndFillLoops s) (by simp) (by simp) (by simp)]

theorem detect_tracked (s : State) (h : FillTracked s) : FillTracked (detectAndFillLoops s) := by
  unfold FillTracked
  rw [detect_canvas_tracked s h, detect_fillObject]

theorem clearFill_rest (s : State) :
    (clearFill s).nextRef = s.nextRef ∧
      (clearFill s).modalSelectedObject = s.modalSelectedObject ∧
      (clearFill s).modalSelectedType = s.modalSelectedType ∧
      (clearFill s).edgeProps = s.edgeProps ∧
      (clearFill s).modalGridSize = s.modalGridSize := by
  unfold clearFill
  split <;> exact ⟨rfl, rfl, rfl, rfl, rfl⟩

theorem detect_rest (s : State) :
    (detectAndFillLoops s).nextRef = s.nextRef ∧
      (detectAndFillLoops s).modalSelectedObject = s.modalSelectedObject ∧
      (detectAndFillLoops s).modalSelectedType = s.modalSelectedType ∧
      (detectAndFillLoops s).edgeProps = s.edgeProps ∧
      (detectAndFillLoops s).modalGridSize = s.modalGridSize := by
  unfold detectAndFillLoops
  split
  · exact clearFill_rest s
  · simp only []
    split
    · exact clearFill_rest s
    · split <;> exact clearFill_rest s

theorem state_ext (s t : State) (h1 : s.circles = t.circles) (h2 : s.nextRef = t.nextRef)
    (h3 : s.vertices = t.vertices) (h4 : s.edges = t.edges)
    (h5 : s.fillObject = t.fillObject) (h6 : s.canvasFills = t.canvasFills)
    (h7 : s.modalSelectedObject = t.modalSelectedObject)
    (h8 : s.modalSelectedType = t.modalSelectedType) (h9 : s.edgeProps = t.edgeProps)
    (h10 : s.autoFill = t.autoFill) (h11 : s.modalGridSize = t.modalGridSize) : s = t := by
  cases s
  cases t
  simp only [State.mk.injEq]
  exact ⟨h1, h2, h3, h4, h5, h6, h7, h8, h9, h10, h11⟩

/-- C6. Idempotence of the cycle detector: running `detectAndFillLoops` twice
in a row leaves the same state as running it once. For every state the two
results agree in every field other than the list of polygons on the canvas,
in particular in the stored fill (presence, cycle vertices in order, point
list); when the canvas holds exactly the stored fill polygon before the call,
the whole state is the same and at most one fill polygon exists afterwards. -/
theorem detect_idempotent (s : State) :
    { detectAndFillLoops (detectAndFillLoops s) with canvasFills := [] } =
        { detectAndFillLoops s with canvasFills := [] } ∧
      (detectAndFillLoops (detectAndFillLoops s)).fillObject =
        (detectAndFillLoops s).fillObject ∧
      (FillTracked s →
        detectAndFillLoops (detectAndFillLoops s) = detectAndFillLoops s ∧
          (detectAndFillLoops (detectAndFillLoops s)).canvasFills =
            (detectAndFillLoops s).fillObject.toList ∧
          (detectAndFillLoops (detectAndFillLoops s)).canvasFills.length ≤ 1) := by
  have hfo : (detectAndFillLoops (detectAndFillLoops s)).fillObject =
      (detectAndFillLoops s).fillObject := by
    rw [detect_fillObject, detect_fillObject, fillResult_detect]
  have hr := detect_rest (detectAndFillLoops s)
  refine ⟨?_, hfo, ?_⟩
  · apply state_ext
    · simp
    · exact hr.1
    · simp
    · simp
    · exact hfo
    · rfl
    · exact hr.2.1
    · exact hr.2.2.1
    · exact hr.2.2.2.1
    · simp
    · exact hr.2.2.2.2
  intro ht
  have ht2 := detect_tracked s ht
  have hcan : (detectAndFillLoops (detectAndFillLoops s)).canvasFills =
      (detectAndFillLoops s).fillObject.toList := by
    rw [detect_canvas_tracked _ ht2, fillResult_detect, detect_fillObject]
  refine ⟨?_, hcan, ?_⟩
  · apply state_ext
    · simp
    · exact hr.1
    · simp
    · simp
    · exact hfo
    · rw [hcan]; exact ht2.symm
    · exact hr.2.1
    · exact hr.2.2.1
    · exact hr.2.2.2.1
    · simp
    · exact hr.2.2.2.2
  · rw [hcan]
    cases (detectAndFillLoops s).fillObject <;> simp

/-! ## C5: evaluation -/

theorem rectBuild_vertexIds (a b c d k : Nat) :
    vertexIds (rectBuild init a b c d k) = [a, b, c, d] := by
  obtain ⟨hv, -, -, -, h0, h1, h2, h3⟩ := rectBuild_facts a b c d k
  simp [vertexIds, hv, h0, h1, h2, h3]

theorem rectBuild_edgeIdPairs (a b c d k : Nat) :
    edgeIdPairs (rectBuild init a b c d k) =
      (if k = 0 then [] else [(a, b)]) ++ (if k = 1 then [] else [(b, c)]) ++
        (if k = 2 then [] else [(c, d)]) ++ (if k = 3 then [] else [(d, a)]) := by
  obtain ⟨-, -, -, -, h0, h1, h2, h3⟩ := rectBuild_facts a b c d k
  rw [edgeIdPairs_eq, rectBuild_endpoints]
  simp only [List.map_append]
  split <;> split <;> split <;> split <;> simp [h0, h1, h2, h3]

theorem rectBuild_cycleSearch (a b c d : Nat) (hab : a ≠ b) (hac : a ≠ c) (had : a ≠ d)
    (hbc : b ≠ c) (hbd : b ≠ d) (hcd : c ≠ d) (k : Nat) :
    cycleSearch (rectBuild init a b c d k) = if k < 4 then none else some [a, b, c, d] := by
  rw [cycleSearch_eq, rectBuild_vertexIds, rectBuild_edgeIdPairs, (rectBuild_facts a b c d k).1]
  exact search_square a b c d hab hac had hbc hbd hcd k

theorem rectBuild_fillResult (a b c d : Nat) (hab : a ≠ b) (hac : a ≠ c) (had : a ≠ d)
    (hbc : b ≠ c) (hbd : b ≠ d) (hcd : c ≠ d) (k : Nat) :
    fillResult (rectBuild init a b c d k) =
      if k < 4 then none
      else some { points := [(150, 150), (350, 150), (350, 300), (150, 300)],
                  cycle := [0, 1, 2, 3] } := by
  obtain ⟨hv, hauto, -, -, h0, h1, h2, h3⟩ := rectBuild_facts a b c d k
  unfold fillResult computeFill
  rw [rectBuild_cycleSearch a b c d hab hac had hbc hbd hcd k]
  by_cases hk : k < 4
  · simp [hk, hauto, hv]
  · have f0 : findVertexById (rectBuild init a b c d k) a = some 0 := by
      simp [findVertexById, hv, h0]
    have f1 : findVertexById (rectBuild init a b c d k) b = some 1 := by
      simp [findVertexById, hv, h0, h1, hab]
    have f2 : findVertexById (rectBuild init a b c d k) c = some 2 := by
      simp [findVertexById, hv, h0, h1, h2, hac, hbc]
    have f3 : findVertexById (rectBuild init a b c d k) d = some 3 := by
      simp [findVertexById, hv, h0, h1, h2, h3, had, hbd, hcd]
    simp [hk, hauto, hv, lookupCycle, f0, f1, f2, f3, h0, h1, h2, h3]

/-- C5, as stated, fails when two of the four ids drawn by `createVertex`
coincide: with ids 5, 5, 6, 7 the search stops at the one-element cycle `[5]`
and `addModalRectGraph` leaves no fill polygon, although the four vertices and
the four edges of the square are there and auto-fill is enabled. -/
theorem rect_graph_equal_ids_no_fill :
    (addModalRectGraph init 5 5 6 7).fillObject = none ∧
      cycleSearch (rectBuild init 5 5 6 7 4) = some [5] ∧
      (addModalRectGraph init 5 5 6 7).vertices = [0, 1, 2, 3] ∧
      endpoints (addModalRectGraph init 5 5 6 7) = [(0, 1), (1, 2), (2, 3), (3, 0)] ∧
      (addModalRectGraph init 5 5 6 7).autoFill = true := by
  refine ⟨by decide, by decide, ?_, ?_, ?_⟩
  · rw [addModalRectGraph_eq]
    unfold rectGraphOmitting
    rw [detect_vertices]
    exact (rectBuild_facts 5 5 6 7 4).1
  · rw [addModalRectGraph_eq]
    unfold rectGraphOmitting
    rw [detect_endpoints, rectBuild_endpoints]
    decide
  · rw [addModalRectGraph_eq]
    unfold rectGraphOmitting
    rw [detect_autoFill]
    exact (rectBuild_facts 5 5 6 7 4).2.1

/-- C5, amended: the four vertices and four edges of `addModalRectGraph`,
built on the empty model with auto-fill enabled and pairwise distinct vertex
ids, give exactly one fill polygon, whose 4 points are the positions of the
four vertices; the same construction with any one of the four edges left out
gives no fill polygon. -/
theorem rect_graph_fill (a b c d : Nat) (hab : a ≠ b) (hac : a ≠ c) (had : a ≠ d)
    (hbc : b ≠ c) (hbd : b ≠ d) (hcd : c ≠ d) :
    (∃ f, (addModalRectGraph init a b c d).fillObject = some f ∧
        (addModalRectGraph init a b c d).canvasFills = [f] ∧
        f.points = [(150, 150), (350, 150), (350, 300), (150, 300)] ∧
        (∀ p, p ∈ f.points ↔
          ∃ v ∈ (addModalRectGraph init a b c d).vertices,
            p = (((addModalRectGraph init a b c d).circles v).left,
              ((addModalRectGraph init a b c d).circles v).top))) ∧
      ∀ k, k < 4 →
        (rectGraphOmitting init a b c d k).fillObject = none ∧
          (rectGraphOmitting init a b c d k).canvasFills = [] := by
  have htr : ∀ k, FillTracked (rectBuild init a b c d k) := by
    intro k
    obtain ⟨-, -, hf, hc, -⟩ := rectBuild_facts a b c d k
    simp [FillTracked, hf, hc]
  constructor
  · rw [addModalRectGraph_eq]
    unfold rectGraphOmitting
    obtain ⟨hv, -, -, -, h0, h1, h2, h3⟩ := rectBuild_facts a b c d 4
    refine ⟨{ points := [(150, 150), (350, 150), (350, 300), (150, 300)],
              cycle := [0, 1, 2, 3] }, ?_, ?_, rfl, ?_⟩
    · rw [detect_fillObject, rectBuild_fillResult a b c d hab hac had hbc hbd hcd 4]
      simp
    · rw [detect_canvas_tracked _ (htr 4),
        rectBuild_fillResult a b c d hab hac had hbc hbd hcd 4]
      simp
    · intro p
      simp only [detect_vertices, detect_circles, hv, List.mem_cons, List.mem_singleton,
        List.not_mem_nil, or_false, exists_eq_or_imp, exists_eq_left, h0, h1, h2, h3]
  · intro k hk
    unfold rectGraphOmitting
    rw [detect_fillObject, detect_canvas_tracked _ (htr k),
      rectBuild_fillResult a b c d hab hac had hbc hbd hcd k]
    simp [hk]

/-- Witness for C5: the ids 1, 2, 3, 4. -/
theorem rect_graph_fill_witness :
    ∃ f, (addModalRectGraph init 1 2 3 4).fillObject = some f ∧
      (addModalRectGraph init 1 2 3 4).canvasFills = [f] ∧
      f.points = [(150, 150), (350, 150), (350, 300), (150, 300)] :=
  let ⟨f, h1, h2, h3, _⟩ :=
    (rect_graph_fill 1 2 3 4 (by decide) (by decide) (by decide) (by decide) (by decide)
      (by decide)).1
  ⟨f, h1, h2, h3⟩

/-! ## Witnesses on the rectangle graph -/

theorem graphRefs_eq (s : State) :
    graphRefs s = s.vertices ++ (endpoints s).map Prod.fst ++ (endpoints s).map Prod.snd := by
  simp [graphRefs, endpoints, Function.comp_def]

theorem rect_pairs (k p1 p2 : Nat)
    (h : (p1, p2) ∈ ((if k = 0 then [] else [(0, 1)]) ++ (if k = 1 then [] else [(1, 2)]) ++
        (if k = 2 then [] else [(2, 3)]) ++ (if k = 3 then [] else [(3, 0)]) :
          List (Nat × Nat))) :
    p1 ≠ p2 ∧ p1 < 4 ∧ p2 < 4 := by
  simp only [List.mem_append] at h
  rcases h with ((h | h) | h) | h <;> split at h <;> simp at h <;> omega

theorem rectBuild_refs (a b c d k : Nat) :
    ∀ x ∈ graphRefs (rectBuild init a b c d k), x = 0 ∨ x = 1 ∨ x = 2 ∨ x = 3 := by
  have key : ∀ y : Nat, y < 4 → y = 0 ∨ y = 1 ∨ y = 2 ∨ y = 3 := by omega
  intro x hx
  rw [graphRefs_eq, rectBuild_endpoints, (rectBuild_facts a b c d k).1] at hx
  simp only [List.mem_append, List.mem_map] at hx
  rcases hx with (hx | ⟨⟨p1, p2⟩, hp, rfl⟩) | ⟨⟨p1, p2⟩, hp, rfl⟩
  · simpa using hx
  · exact key _ (rect_pairs k p1 p2 (by simpa only [List.mem_append] using hp)).2.1
  · exact key _ (rect_pairs k p1 p2 (by simpa only [List.mem_append] using hp)).2.2

theorem rectBuild_noSelfLoop (a b c d k : Nat) : NoSelfLoop (rectBuild init a b c d k) := by
  intro e he
  have hp : (e.v1, e.v2) ∈ endpoints (rectBuild init a b c d k) :=
    List.mem_map_of_mem (fun e => (e.v1, e.v2)) he
  rw [rectBuild_endpoints] at hp
  exact (rect_pairs k e.v1 e.v2 hp).1

theorem rectBuild_noDangling (a b c d k : Nat) : NoDangling (rectBuild init a b c d k) := by
  have key : ∀ y : Nat, y < 4 → y ∈ [0, 1, 2, 3] := by
    intro y hy
    simp only [List.mem_cons, List.mem_singleton, List.not_mem_nil, or_false]
    omega
  rw [noDangling_iff, rectBuild_endpoints, (rectBuild_facts a b c d k).1]
  intro p hp
  obtain ⟨p1, p2⟩ := p
  have := rect_pairs k p1 p2 hp
  exact ⟨key _ this.2.1, key _ this.2.2⟩

theorem rectBuild_distinctIds (a b c d : Nat) (hab : a ≠ b) (hac : a ≠ c) (had : a ≠ d)
    (hbc : b ≠ c) (hbd : b ≠ d) (hcd : c ≠ d) (k : Nat) :
    DistinctIds (rectBuild init a b c d k) := by
  obtain ⟨-, -, -, -, h0, h1, h2, h3⟩ := rectBuild_facts a b c d k
  intro x hx y hy hxy
  rcases rectBuild_refs a b c d k x hx with rfl | rfl | rfl | rfl <;>
    rcases rectBuild_refs a b c d k y hy with rfl | rfl | rfl | rfl <;>
    simp only [h0, h1, h2, h3] at hxy <;>
    first
      | rfl
      | exact absurd hxy hab
      | exact absurd hxy hac
      | exact absurd hxy had
      | exact absurd hxy hbc
      | exact absurd hxy hbd
      | exact absurd hxy hcd
      | exact absurd hxy.symm hab
      | exact absurd hxy.symm hac
      | exact absurd hxy.symm had
      | exact absurd hxy.symm hbc
      | exact absurd hxy.symm hbd
      | exact absurd hxy.symm hcd

theorem rectBuild_tracked (a b c d k : Nat) : FillTracked (rectBuild init a b c d k) := by
  obtain ⟨-, -, hf, hc, -⟩ := rectBuild_facts a b c d k
  simp [FillTracked, hf, hc]

/-- Witness for C3: the fill of the rectangle graph with ids 1, 2, 3, 4 stores
the cycle 0, 1, 2, 3. -/
theorem detect_fill_is_cycle_witness :
    IsCycle (detectAndFillLoops (rectBuild init 1 2 3 4 4)) [0, 1, 2, 3] :=
  (detect_fill_is_cycle (rectBuild init 1 2 3 4 4)
    (rectBuild_distinctIds 1 2 3 4 (by decide) (by decide) (by decide) (by decide) (by decide)
      (by decide) 4)
    { points := [(150, 150), (350, 150), (350, 300), (150, 300)], cycle := [0, 1, 2, 3] }
    (by
      rw [detect_fillObject, rectBuild_fillResult 1 2 3 4 (by decide) (by decide) (by decide)
        (by decide) (by decide) (by decide) 4]
      simp)).1

/-- Witness for C4: on the rectangle graph with ids 1, 2, 3, 4 the fill exists
exactly when auto-fill is on and the graph has a cycle. -/
theorem detect_fill_iff_cycle_witness :
    (∃ f, (detectAndFillLoops (rectBuild init 1 2 3 4 4)).fillObject = some f) ↔
      (rectBuild init 1 2 3 4 4).autoFill = true ∧
        ∃ cyc, IsCycle (rectBuild init 1 2 3 4 4) cyc :=
  (detect_fill_iff_cycle (rectBuild init 1 2 3 4 4)
    (rectBuild_distinctIds 1 2 3 4 (by decide) (by decide) (by decide) (by decide) (by decide)
      (by decide) 4)
    (rectBuild_noSelfLoop 1 2 3 4 4) (rectBuild_noDangling 1 2 3 4 4)).1

/-- Witness for C6: the rectangle graph with ids 1, 2, 3, 4. -/
theorem detect_idempotent_witness :
    detectAndFillLoops (detectAndFillLoops (rectBuild init 1 2 3 4 4)) =
      detectAndFillLoops (rectBuild init 1 2 3 4 4) :=
  ((detect_idempotent (rectBuild init 1 2 3 4 4)).2.2 (rectBuild_tracked 1 2 3 4 4)).1

/-! ## The canvas holds at most the stored fill polygon -/

theorem fillTracked_iff (s : State) : FillTracked s ↔ (fills s).2 = (fills s).1.toList :=
  Iff.rfl

theorem fillTracked_of_fills {s t : State} (h : fills t = fills s) (hs : FillTracked s) :
    FillTracked t := by
  rw [fillTracked_iff] at hs ⊢
  rw [h]
  exact hs

@[simp] theorem updateConnectedEdges_fills (E : Env) (s : State) (v : VRef) :
    fills (updateConnectedEdges E s v) = fills s := by
  unfold updateConnectedEdges
  simp only []
  split
  · split
    · split <;> rfl
    · rfl
  · rfl

@[simp] theorem setCircle_fills (s : State) (r : VRef) (v : Vertex) :
    fills (setCircle s r v) = fills s := rfl

@[simp] theorem calculateEdgeProps_fills (E : Env) (s : State) (l : Edge) :
    fills (calculateEdgeProps E s l) = fills s := rfl

@[simp] theorem onModalSelection_fills (E : Env) (s : State) (sel : List Obj)
    (t : Option Obj) : fills (onModalSelection E s sel t) = fills s := by
  unfold onModalSelection
  split
  · rfl
  · split
    · rfl
    · rfl
    · split <;> rfl

theorem detect_tracked_of_fills {s t : State} (h : fills t = fills s) (hs : FillTracked s) :
    FillTracked (detectAndFillLoops t) :=
  detect_tracked t (fillTracked_of_fills h hs)

theorem dragSnap_fills (E : Env) (s : State) (v : VRef) : fills (dragSnap E s v) = fills s := by
  unfold dragSnap
  simp only []
  split <;> simp

theorem sameGraph_fills {t s : State} (h : SameGraph t s) : fills t = fills s := by
  simp only [fills, h.fillObject, h.canvasFills]

@[simp] theorem canvasRemove_fills (E : Env) (s : State) (obj : Obj) :
    fills (canvasRemove E s obj) = fills s := sameGraph_fills (canvasRemove_same E s obj)

@[simp] theorem removeSelfLoops_fills (E : Env) (s : State) :
    fills (removeSelfLoops E s) = fills s := by
  have h := sameGraph_fills
    (removeLoop_fold_same E (s.edges.filter (fun e => decide (e.v1 = e.v2))) s)
  simp only [fills, Prod.mk.injEq] at h ⊢
  exact h

theorem mergeVertices_tracked (E : Env) (s : State) (a b : VRef) (h : FillTracked s) :
    FillTracked (mergeVertices E s a b) := by
  have hf : ∀ t : State, fills (removeSelfLoops E
      { canvasRemove E t (Obj.circle a) with
        vertices := (canvasRemove E t (Obj.circle a)).vertices.filter
          (fun v => decide (v ≠ a)) }) = fills t := by
    intro t
    rw [removeSelfLoops_fills]
    exact canvasRemove_fills E t (Obj.circle a)
  unfold mergeVertices
  simp only []
  apply detect_tracked_of_fills _ h
  split
  · rw [onModalSelection_fills, updateConnectedEdges_fills, hf]; rfl
  · rw [updateConnectedEdges_fills, hf]; rfl

theorem updateEdgeFromParam_tracked (E : Env) (s : State) (type : String)
    (h : FillTracked s) : FillTracked (updateEdgeFromParam E s type) := by
  have key : ∀ t : State, fills t = fills s → ∀ v,
      FillTracked (detectAndFillLoops (updateConnectedEdges E t v)) := by
    intro t ht v
    exact detect_tracked_of_fills (by rw [updateConnectedEdges_fills, ht]) h
  unfold updateEdgeFromParam
  split
  · split
    · simp only []
      split
      · apply fillTracked_of_fills (calculateEdgeProps_fills _ _ _)
        apply key
        split
        · rfl
        · split <;> rfl
      · apply key
        split
        · rfl
        · split <;> rfl
    · exact h
  · exact h

theorem onLineMoving_tracked (E : Env) (s : State) (r : ERef)
    (t : Option ((ℚ × ℚ) × (ℚ × ℚ))) (h : FillTracked s) :
    FillTracked (onLineMoving E s r t) := by
  unfold onLineMoving
  split
  · exact h
  · split
    · exact h
    · simp only []
      apply detect_tracked_of_fills _ h
      rw [updateConnectedEdges_fills, updateConnectedEdges_fills, setCircle_fills,
        setCircle_fills]
      split <;> rfl

/-- The invariant behind C6: the canvas holds exactly the stored fill polygon
in the state after `init`, and every entry point keeps it so. -/
theorem fillTracked_invariant :
    FillTracked init ∧
      ∀ (E : Env) (s : State) (op : Op), FillTracked s → FillTracked (step E s op) := by
  refine ⟨rfl, ?_⟩
  intro E s op h
  cases op with
  | addModalLine a b => exact detect_tracked_of_fills rfl h
  | addModalRectGraph a b c d => exact detect_tracked_of_fills rfl h
  | addModalPolygonGraph ids =>
    show FillTracked (addModalPolygonGraph E s ids)
    unfold addModalPolygonGraph
    simp only [range_five, List.foldl_cons, List.foldl_nil]
    exact detect_tracked_of_fills rfl h
  | handleVertexDrag v =>
    exact detect_tracked_of_fills
      (by rw [updateConnectedEdges_fills, dragSnap_fills]) h
  | handleVertexDrop v =>
    show FillTracked (handleVertexDrop E s v)
    unfold handleVertexDrop
    split
    · exact mergeVertices_tracked E s v _ h
    · exact detect_tracked s h
  | mergeVertices a b => exact mergeVertices_tracked E s a b h
  | lineMoving r t => exact onLineMoving_tracked E s r t h
  | lineModified r => exact fillTracked_of_fills (s := s) (t := onLineModified s r) rfl h
  | onVertexInput axis value =>
    show FillTracked (onVertexInput E s axis value)
    unfold onVertexInput
    split
    · apply detect_tracked_of_fills _ h
      rw [updateConnectedEdges_fills]
      split <;> rfl
    · exact h
  | updateEdgeFromParam t => exact updateEdgeFromParam_tracked E s t h
  | detectAndFillLoops => exact detect_tracked s h
  | select sel t => exact fillTracked_of_fills (onModalSelection_fills E s sel t) h
  | selectionCleared =>
    show FillTracked (onSelectionCleared s)
    unfold onSelectionCleared
    simp only []
    split <;> exact h
  | pointerMove v x y => exact h
  | setAutoFill b => exact h
  | setGridSize g => exact h
  | setEdgeProps l a => exact h

/-! ## C13: merge rewiring, and the selection after a merge -/

theorem mergeVertices_triples (E : Env) (s : State) (a b : VRef) :
    (mergeVertices E s a b).edges.map (fun e => (e.ref, e.v1, e.v2)) =
      (((s.edges.map (rewireEdge a b)).filter (fun e => decide (e.v1 ≠ e.v2))).map
        (fun e => (e.ref, e.v1, e.v2))) := by
  have hmap : ∀ (f : Edge → Edge), (∀ e, (f e).ref = e.ref ∧ (f e).v1 = e.v1 ∧ (f e).v2 = e.v2) →
      ∀ l : List Edge, (l.map f).map (fun e => (e.ref, e.v1, e.v2)) =
        l.map (fun e => (e.ref, e.v1, e.v2)) := by
    intro f hf l
    induction l with
    | nil => rfl
    | cons x l ih => simp [hf]
  have hsync : ∀ (t : State) (v : VRef) (l : List Edge),
      (l.map (syncEdge t v)).map (fun e => (e.ref, e.v1, e.v2)) =
        l.map (fun e => (e.ref, e.v1, e.v2)) :=
    fun t v l => hmap _ (fun e => ⟨syncEdge_ref t v e, syncEdge_v1 t v e, syncEdge_v2 t v e⟩) l
  unfold mergeVertices
  simp only [detect_edges]
  split
  · unfold onModalSelection
    simp only [List.length_singleton, lt_self_iff_false, if_false, Option.none_orElse,
      List.head?_cons, Option.orElse_none, updateConnectedEdges_edges]
    rw [hsync, removeSelfLoops_triples]
    simp only [canvasRemove_circle_edges]
  · simp only [updateConnectedEdges_edges]
    rw [hsync, removeSelfLoops_triples]
    simp only [canvasRemove_circle_edges]

theorem onModalSelection_circles (E : Env) (s : State) (sel : List Obj) (t : Option Obj) :
    (onModalSelection E s sel t).circles = s.circles := by
  unfold onModalSelection
  split
  · rfl
  · split
    · rfl
    · rfl
    · split <;> rfl

theorem mergeVertices_circles (E : Env) (s : State) (a b : VRef) :
    (mergeVertices E s a b).circles = s.circles := by
  unfold mergeVertices
  simp only [detect_circles]
  split
  · rw [onModalSelection_circles, updateConnectedEdges_circles, removeSelfLoops_circles]
    exact canvasRemove_circles E _ (Obj.circle a)
  · rw [updateConnectedEdges_circles, removeSelfLoops_circles]
    exact canvasRemove_circles E _ (Obj.circle a)

theorem updateConnectedEdges_selection (E : Env) (s : State) (v : VRef) :
    (updateConnectedEdges E s v).modalSelectedObject = s.modalSelectedObject ∧
      (updateConnectedEdges E s v).modalSelectedType = s.modalSelectedType := by
  unfold updateConnectedEdges
  simp only []
  split
  · split
    · split <;> exact ⟨rfl, rfl⟩
    · exact ⟨rfl, rfl⟩
  · exact ⟨rfl, rfl⟩

theorem detect_selObject (s : State) :
    (detectAndFillLoops s).modalSelectedObject = s.modalSelectedObject := (detect_rest s).2.1

theorem detect_selType (s : State) :
    (detectAndFillLoops s).modalSelectedType = s.modalSelectedType := (detect_rest s).2.2.1

theorem updateConnectedEdges_selObject (E : Env) (s : State) (v : VRef) :
    (updateConnectedEdges E s v).modalSelectedObject = s.modalSelectedObject :=
  (updateConnectedEdges_selection E s v).1

theorem updateConnectedEdges_selType (E : Env) (s : State) (v : VRef) :
    (updateConnectedEdges E s v).modalSelectedType = s.modalSelectedType :=
  (updateConnectedEdges_selection E s v).2

theorem canvasRemove_fire (E : Env) (t : State) (obj : Obj)
    (hf : E.removeFiresCleared = true) (ht : t.modalSelectedObject = some obj) :
    canvasRemove E t obj = onSelectionCleared t := by
  simp [canvasRemove, hf, ht]

/-- When the canvas fires no event on `remove`, the merge moves the selection
from `source` to `target` and leaves any other selection alone. -/
theorem mergeVertices_selection (E : Env) (s : State) (a b : VRef)
    (hf : E.removeFiresCleared = false) :
    ((mergeVertices E s a b).modalSelectedObject, (mergeVertices E s a b).modalSelectedType) =
      if s.modalSelectedObject = some (Obj.circle a) then
        (some (Obj.circle b), some SelType.vertex)
      else (s.modalSelectedObject, s.modalSelectedType) := by
  unfold mergeVertices
  simp only [detect_selObject, detect_selType, updateConnectedEdges_selObject,
    updateConnectedEdges_selType, canvasRemove_off E _ _ hf, removeSelfLoops_id E _ (Or.inl hf)]
  by_cases h : s.modalSelectedObject = some (Obj.circle a)
  · simp only [h, if_true]
    simp [onModalSelection]
  · simp only [h, if_false, updateConnectedEdges_selObject, updateConnectedEdges_selType]

/-- When the canvas fires `selection:cleared` on removing its active object and
`source` is selected, the handler has emptied the selection before
`mergeVertices` tests it: nothing is selected after the merge. -/
theorem mergeVertices_selection_cleared (E : Env) (s : State) (a b : VRef)
    (hf : E.removeFiresCleared = true) (hs : s.modalSelectedObject = some (Obj.circle a)) :
    (mergeVertices E s a b).modalSelectedObject = none ∧
      (mergeVertices E s a b).modalSelectedType = none := by
  have hid : ∀ t : State, t.modalSelectedObject = none →
      (removeSelfLoops E t).modalSelectedObject = none ∧
        (removeSelfLoops E t).modalSelectedType = t.modalSelectedType := by
    intro t ht
    rw [removeSelfLoops_id E t (Or.inr ht)]
    exact ⟨ht, rfl⟩
  have hfire := canvasRemove_fire E { s with edges := s.edges.map (rewireEdge a b) }
    (Obj.circle a) hf hs
  unfold mergeVertices
  simp only [detect_selObject, detect_selType, updateConnectedEdges_selObject,
    updateConnectedEdges_selType, hfire]
  have h2 := hid { onSelectionCleared { s with edges := s.edges.map (rewireEdge a b) } with
    vertices := (onSelectionCleared { s with edges := s.edges.map (rewireEdge a b) }).vertices.filter
      (fun v => decide (v ≠ a)) } rfl
  rw [h2.1]
  simp only [reduceCtorEq, if_false, updateConnectedEdges_selObject, updateConnectedEdges_selType]
  exact ⟨h2.1, h2.2⟩

/-- C13. Merge rewiring: the edge list after `mergeVertices(source, target)` is
the edge list before it, in the same order and with the same line objects,
with every `v1` and every `v2` equal to `source` replaced by `target` (each
field on its own) and then every edge with `v1 == v2` removed; the vertex list
loses exactly `source`, and every position is unchanged. -/
theorem mergeVertices_rewires (E : Env) (s : State) (sourceV targetV : VRef) :
    (mergeVertices E s sourceV targetV).edges.map (fun e => (e.ref, e.v1, e.v2)) =
        (s.edges.map (fun e =>
          (e.ref, (if e.v1 = sourceV then targetV else e.v1),
            (if e.v2 = sourceV then targetV else e.v2)))).filter
          (fun t => decide (t.2.1 ≠ t.2.2)) ∧
      (mergeVertices E s sourceV targetV).vertices =
        s.vertices.filter (fun v => decide (v ≠ sourceV)) ∧
      (∀ v, v ≠ sourceV → (v ∈ (mergeVertices E s sourceV targetV).vertices ↔ v ∈ s.vertices)) ∧
      (mergeVertices E s sourceV targetV).circles = s.circles := by
  refine ⟨?_, mergeVertices_vertices E s sourceV targetV, ?_, mergeVertices_circles E s _ _⟩
  · rw [mergeVertices_triples]
    have h1 : s.edges.map (fun e =>
        (e.ref, (if e.v1 = sourceV then targetV else e.v1),
          (if e.v2 = sourceV then targetV else e.v2))) =
        (s.edges.map (rewireEdge sourceV targetV)).map (fun e => (e.ref, e.v1, e.v2)) := by
      rw [List.map_map]
      apply List.map_congr_left
      intro e _
      simp only [Function.comp, rewireEdge_ref, rewireEdge_v1, rewireEdge_v2]
    rw [h1]
    conv_rhs => rw [List.filter_map]
    rfl
  · intro v hv
    rw [mergeVertices_vertices]
    simp [List.mem_filter, hv]

/-- The merge with a canvas that fires no event on `remove`: if the selected
object before `mergeVertices(source, target)` is `source`, afterwards the
selected object is `target` with selected type `vertex`; otherwise the
selection is unchanged; for distinct `source` and `target` the selected object
is never the removed `source`. -/
theorem mergeVertices_selection_without_event (E : Env) (s : State) (sourceV targetV : VRef)
    (hf : E.removeFiresCleared = false) (hne : sourceV ≠ targetV) :
    (s.modalSelectedObject = some (Obj.circle sourceV) →
        (mergeVertices E s sourceV targetV).modalSelectedObject = some (Obj.circle targetV) ∧
          (mergeVertices E s sourceV targetV).modalSelectedType = some SelType.vertex) ∧
      (s.modalSelectedObject ≠ some (Obj.circle sourceV) →
        (mergeVertices E s sourceV targetV).modalSelectedObject = s.modalSelectedObject ∧
          (mergeVertices E s sourceV targetV).modalSelectedType = s.modalSelectedType) ∧
      (mergeVertices E s sourceV targetV).modalSelectedObject ≠ some (Obj.circle sourceV) := by
  have h := mergeVertices_selection E s sourceV targetV hf
  by_cases hs : s.modalSelectedObject = some (Obj.circle sourceV)
  · rw [if_pos hs] at h
    simp only [Prod.mk.injEq] at h
    refine ⟨fun _ => h, fun hn => absurd hs hn, ?_⟩
    rw [h.1]
    intro e
    simp only [Option.some.injEq, Obj.circle.injEq] at e
    exact hne e.symm
  · rw [if_neg hs] at h
    simp only [Prod.mk.injEq] at h
    refine ⟨fun hp => absurd hp hs, fun _ => h, ?_⟩
    rw [h.1]
    exact hs

/-! ## C15: edge creation -/

/-- C15, as stated, fails: after vertex 0 is merged into vertex 1 it is no
longer in the vertex list, and `createEdge` on it still appends an edge
instead of failing with the edge list unchanged. -/
theorem createEdge_accepts_absent_vertex :
    (0 : VRef) ∉ mergedPair.vertices ∧ mergedPair.edges = [] ∧
      (createEdge mergedPair 0 1).1.edges.map (fun e => (e.v1, e.v2)) = [(0, 1)] ∧
      (createEdge mergedPair 0 1).1.edges ≠ mergedPair.edges := by
  have hv : mergedPair.vertices = [1] := by
    rw [mergedPair, mergeVertices_vertices]
    simp [createVertex, init]
  have he : mergedPair.edges = [] := by
    have := mergeVertices_triples sampleEnv (createVertex (createVertex init 0 0 1).1 10 0 2).1 0 1
    simpa [mergedPair, createVertex, init] using this
  have hc : (createEdge mergedPair 0 1).1.edges = mergedPair.edges ++ [(createEdge mergedPair 0 1).2] :=
    rfl
  refine ⟨by rw [hv]; decide, he, ?_, ?_⟩
  · rw [hc, he]
    rfl
  · rw [hc, he]
    simp

/-- C15, amended. `createEdge(v1, v2)` never fails and makes no check of its
arguments: for every state and every two vertex objects, in the vertex list or
not, it appends exactly one edge `(v1, v2)` at the end of the edge list, also
when an edge between the same pair already exists; the vertex list is
unchanged. -/
theorem createEdge_appends (s : State) (v1 v2 : VRef) :
    (createEdge s v1 v2).1.edges = s.edges ++ [(createEdge s v1 v2).2] ∧
      ((createEdge s v1 v2).2.v1 = v1 ∧ (createEdge s v1 v2).2.v2 = v2) ∧
      (createEdge s v1 v2).1.edges.length = s.edges.length + 1 ∧
      (createEdge s v1 v2).1.vertices = s.vertices ∧
      (createEdge (createEdge s v1 v2).1 v1 v2).1.edges.map (fun e => (e.v1, e.v2)) =
        s.edges.map (fun e => (e.v1, e.v2)) ++ [(v1, v2), (v1, v2)] := by
  refine ⟨rfl, ⟨rfl, rfl⟩, ?_, rfl, ?_⟩
  · simp [createEdge]
  · simp [createEdge]

/-! ## C11: edge geometry stays derived from the vertices -/

theorem geomSynced_iff (s : State) : GeomSynced s ↔ SyncedOff s (fun _ => False) := by
  simp [GeomSynced, SyncedOff]

theorem syncedOff_mono {s : State} {P Q : VRef → Prop} (hpq : ∀ v, P v → Q v)
    (h : SyncedOff s P) : SyncedOff s Q :=
  fun e he =>
    ⟨fun hq => (h e he).1 (fun hp => hq (hpq _ hp)),
      fun hq => (h e he).2 (fun hp => hq (hpq _ hp))⟩

theorem syncedOff_of_geom {s t : State} {P : VRef → Prop} (hg : geom t = geom s)
    (hc : ∀ v, ¬ P v → t.circles v = s.circles v) (h : SyncedOff s P) : SyncedOff t P := by
  intro e he
  have hm : (e.v1, e.v2, e.x1, e.y1, e.x2, e.y2) ∈ geom t := List.mem_map.2 ⟨e, he, rfl⟩
  rw [hg] at hm
  obtain ⟨e0, he0, heq⟩ := List.mem_map.1 hm
  simp only [Prod.mk.injEq] at heq
  obtain ⟨h1, h2, h3, h4, h5, h6⟩ := heq
  have h0 := h e0 he0
  rw [h1, h2, h3, h4, h5, h6] at h0
  exact ⟨fun hp => by rw [hc _ hp]; exact h0.1 hp, fun hp => by rw [hc _ hp]; exact h0.2 hp⟩

theorem noSelfLoop_of_geom {s t : State} (hg : geom t = geom s) (hl : NoSelfLoop s) :
    NoSelfLoop t := by
  intro e he
  have hm : (e.v1, e.v2, e.x1, e.y1, e.x2, e.y2) ∈ geom t := List.mem_map.2 ⟨e, he, rfl⟩
  rw [hg] at hm
  obtain ⟨e0, he0, heq⟩ := List.mem_map.1 hm
  simp only [Prod.mk.injEq] at heq
  rw [← heq.1, ← heq.2.1]
  exact hl e0 he0

theorem setCircle_syncedOff {s : State} {P : VRef → Prop} (w : VRef) (c : Vertex)
    (hw : P w) (h : SyncedOff s P) : SyncedOff (setCircle s w c) P := by
  refine syncedOff_of_geom (s := s) rfl (fun v hv => ?_) h
  have hne : v ≠ w := fun heq => hv (heq ▸ hw)
  simp only [setCircle, Function.update_noteq hne]

theorem setCircle_noSelfLoop {s : State} (w : VRef) (c : Vertex) (hl : NoSelfLoop s) :
    NoSelfLoop (setCircle s w c) := hl

theorem setCircle_syncedOff_self {s : State} (w : VRef) (c : Vertex)
    (h : SyncedOff s (fun u => u = w)) : SyncedOff (setCircle s w c) (fun u => u = w) :=
  setCircle_syncedOff w c rfl h

theorem updateConnectedEdges_noSelfLoop (E : Env) {s : State} (w : VRef) (hl : NoSelfLoop s) :
    NoSelfLoop (updateConnectedEdges E s w) := by
  intro e he
  rw [updateConnectedEdges_edges] at he
  obtain ⟨e0, he0, rfl⟩ := List.mem_map.1 he
  rw [syncEdge_v1, syncEdge_v2]
  exact hl e0 he0

theorem updateConnectedEdges_syncedOff (E : Env) {s : State} {P : VRef → Prop} (w : VRef)
    (hl : NoSelfLoop s) (h : SyncedOff s P) :
    SyncedOff (updateConnectedEdges E s w) (fun v => P v ∧ v ≠ w) := by
  intro e he
  rw [updateConnectedEdges_edges] at he
  obtain ⟨e0, he0, rfl⟩ := List.mem_map.1 he
  simp only [updateConnectedEdges_circles, syncEdge_v1, syncEdge_v2]
  have hne := hl e0 he0
  have hs := h e0 he0
  unfold syncEdge
  split_ifs with h1 h2
  · refine ⟨fun _ => ?_, fun hq => ?_⟩
    · simp only [h1, and_self]
    · exact hs.2 (fun hp => hq ⟨hp, fun h2 => hne (h1.trans h2.symm)⟩)
  · refine ⟨fun hq => ?_, fun _ => ?_⟩
    · exact hs.1 (fun hp => hq ⟨hp, h1⟩)
    · simp only [h2, and_self]
  · exact ⟨fun hq => hs.1 (fun hp => hq ⟨hp, h1⟩), fun hq => hs.2 (fun hp => hq ⟨hp, h2⟩)⟩

theorem updateConnectedEdges_keeps (E : Env) {s : State} {P : VRef → Prop} (w : VRef)
    (hl : NoSelfLoop s) (h : SyncedOff s P) : SyncedOff (updateConnectedEdges E s w) P :=
  syncedOff_mono (fun _ hp => hp.1) (updateConnectedEdges_syncedOff E w hl h)

theorem updateConnectedEdges_resync (E : Env) {s : State} (w : VRef)
    (hl : NoSelfLoop s) (h : SyncedOff s (fun v => v = w)) :
    GeomSynced (updateConnectedEdges E s w) :=
  (geomSynced_iff _).2
    (syncedOff_mono (fun _ hp => hp.2 hp.1) (updateConnectedEdges_syncedOff E w hl h))

theorem detect_geomSynced (s : State) : GeomSynced (detectAndFillLoops s) ↔ GeomSynced s := by
  simp only [GeomSynced, detect_edges, detect_circles]

theorem calculateEdgeProps_geomSynced (E : Env) (s : State) (l : Edge) :
    GeomSynced (calculateEdgeProps E s l) ↔ GeomSynced s := Iff.rfl

theorem createEdge_geomSynced (s : State) (a b : VRef) (h : GeomSynced s) :
    GeomSynced (createEdge s a b).1 := by
  intro e he
  have he' : e ∈ s.edges ++ [(createEdge s a b).2] := he
  rcases List.mem_append.1 he' with h1 | h1
  · exact h e h1
  · rw [List.mem_singleton] at h1
    subst h1
    exact ⟨⟨rfl, rfl⟩, rfl, rfl⟩

theorem dragSnap_syncedOff (E : Env) (s : State) (v : VRef) (hl : NoSelfLoop s)
    (h : SyncedOff s (fun u => u = v)) :
    NoSelfLoop (dragSnap E s v) ∧ SyncedOff (dragSnap E s v) (fun u => u = v) := by
  have h1 : ∀ c, SyncedOff (setCircle s v c) (fun u => u = v) :=
    fun c => setCircle_syncedOff_self v c h
  have l1 : ∀ c, NoSelfLoop (setCircle s v c) := fun _ => hl
  have h2 : ∀ c, SyncedOff (updateConnectedEdges E (setCircle s v c) v) (fun u => u = v) :=
    fun c => updateConnectedEdges_keeps E v (l1 c) (h1 c)
  have l2 : ∀ c, NoSelfLoop (updateConnectedEdges E (setCircle s v c) v) :=
    fun c => updateConnectedEdges_noSelfLoop E v (l1 c)
  unfold dragSnap
  simp only []
  split
  · exact ⟨fun e he => l2 _ e he,
      setCircle_syncedOff_self v _ (setCircle_syncedOff_self v _ (h2 _))⟩
  · exact ⟨fun e he => l2 _ e he, setCircle_syncedOff_self v _ (h2 _)⟩

theorem handleVertexDrag_syncs (E : Env) (s : State) (v : VRef) (hl : NoSelfLoop s)
    (h : SyncedOff s (fun u => u = v)) : GeomSynced (handleVertexDrag E s v) := by
  unfold handleVertexDrag
  rw [detect_geomSynced]
  exact updateConnectedEdges_resync E v (dragSnap_syncedOff E s v hl h).1
    (dragSnap_syncedOff E s v hl h).2

theorem rewireEdge_geom (a b : VRef) (e : Edge) :
    (rewireEdge a b e).x1 = e.x1 ∧ (rewireEdge a b e).y1 = e.y1 ∧
      (rewireEdge a b e).x2 = e.x2 ∧ (rewireEdge a b e).y2 = e.y2 := by
  unfold rewireEdge
  simp only []
  split <;> split <;> exact ⟨rfl, rfl, rfl, rfl⟩

theorem onModalSelection_circle_geomSynced (E : Env) (t : State) (r : VRef) :
    GeomSynced (onModalSelection E t [Obj.circle r] none) ↔ GeomSynced t := by
  simp [onModalSelection, GeomSynced]

theorem mergeVertices_syncs (E : Env) (s : State) (a b : VRef) (h : GeomSynced s) :
    GeomSynced (mergeVertices E s a b) := by
  have base : ∀ F : State, F.circles = s.circles →
      F.edges = (s.edges.map (rewireEdge a b)).filter (fun e => decide (e.v1 ≠ e.v2)) →
      NoSelfLoop F ∧ SyncedOff F (fun v => v = b) := by
    intro F hc he
    constructor
    · intro e hm
      rw [he, List.mem_filter] at hm
      simpa using hm.2
    · intro e hm
      rw [he, List.mem_filter] at hm
      obtain ⟨e0, he0, rfl⟩ := List.mem_map.1 hm.1
      have hg := rewireEdge_geom a b e0
      rw [hc, rewireEdge_v1, rewireEdge_v2, hg.1, hg.2.1, hg.2.2.1, hg.2.2.2]
      have h0 := h e0 he0
      constructor
      · intro hn
        split_ifs at hn ⊢ with h1
        · exact absurd rfl hn
        · exact h0.1
      · intro hn
        split_ifs at hn ⊢ with h1
        · exact absurd rfl hn
        · exact h0.2
  have hF := base { s with
    edges := (s.edges.map (rewireEdge a b)).filter (fun e => decide (e.v1 ≠ e.v2)) } rfl rfl
  have key : ∀ t : State, t.circles = s.circles →
      geom t = ((s.edges.map (rewireEdge a b)).filter (fun e => decide (e.v1 ≠ e.v2))).map
        (fun e => (e.v1, e.v2, e.x1, e.y1, e.x2, e.y2)) →
      GeomSynced (updateConnectedEdges E t b) := by
    intro t hc hg
    exact updateConnectedEdges_resync E b
      (noSelfLoop_of_geom (s := { s with edges :=
        (s.edges.map (rewireEdge a b)).filter (fun e => decide (e.v1 ≠ e.v2)) }) hg hF.1)
      (syncedOff_of_geom (s := { s with edges :=
        (s.edges.map (rewireEdge a b)).filter (fun e => decide (e.v1 ≠ e.v2)) }) hg
        (fun v _ => by rw [hc]) hF.2)
  have hcirc : ∀ t : State, t.circles = s.circles →
      (removeSelfLoops E { canvasRemove E t (Obj.circle a) with
        vertices := (canvasRemove E t (Obj.circle a)).vertices.filter
          (fun v => decide (v ≠ a)) }).circles = s.circles := by
    intro t ht
    rw [removeSelfLoops_circles]
    exact (canvasRemove_circles E t (Obj.circle a)).trans ht
  have hgeom : ∀ t : State,
      geom (removeSelfLoops E { canvasRemove E t (Obj.circle a) with
        vertices := (canvasRemove E t (Obj.circle a)).vertices.filter
          (fun v => decide (v ≠ a)) }) =
        (t.edges.filter (fun e => decide (e.v1 ≠ e.v2))).map
          (fun e => (e.v1, e.v2, e.x1, e.y1, e.x2, e.y2)) := by
    intro t
    rw [removeSelfLoops_geom]
    simp only [canvasRemove_circle_edges]
  unfold mergeVertices
  simp only []
  rw [detect_geomSynced]
  split
  · rw [onModalSelection_circle_geomSynced]
    exact key _ (hcirc _ rfl) (hgeom _)
  · exact key _ (hcirc _ rfl) (hgeom _)

theorem handleVertexDrop_syncs (E : Env) (s : State) (v : VRef) (h : GeomSynced s) :
    GeomSynced (handleVertexDrop E s v) := by
  unfold handleVertexDrop
  split
  · exact mergeVertices_syncs E s v _ h
  · exact (detect_geomSynced s).2 h

theorem onVertexInput_syncs (E : Env) (s : State) (axis : String) (value : ℚ)
    (hl : NoSelfLoop s) (h : GeomSynced s) : GeomSynced (onVertexInput E s axis value) := by
  have h0 : ∀ v, SyncedOff s (fun u => u = v) :=
    fun v => syncedOff_mono (fun _ hf => hf.elim) ((geomSynced_iff s).1 h)
  unfold onVertexInput
  split
  · simp only []
    rw [detect_geomSynced]
    split_ifs
    · exact updateConnectedEdges_resync E _ hl (setCircle_syncedOff_self _ _ (h0 _))
    · exact updateConnectedEdges_resync E _ hl (setCircle_syncedOff_self _ _ (h0 _))
  · exact h

theorem updateEdgeFromParam_syncs (E : Env) (s : State) (type : String)
    (hl : NoSelfLoop s) (h : GeomSynced s) : GeomSynced (updateEdgeFromParam E s type) := by
  have h0 : ∀ v, SyncedOff s (fun u => u = v) :=
    fun v => syncedOff_mono (fun _ hf => hf.elim) ((geomSynced_iff s).1 h)
  unfold updateEdgeFromParam
  split
  · split
    · rename_i line _
      simp only []
      have hs2 : ∀ t : State, NoSelfLoop t → SyncedOff t (fun u => u = line.v2) →
          GeomSynced (detectAndFillLoops (updateConnectedEdges E t line.v2)) :=
        fun t htl hts => (detect_geomSynced _).2 (updateConnectedEdges_resync E _ htl hts)
      have hs3 : ∀ c1 c2 : Vertex, GeomSynced (detectAndFillLoops
          (updateConnectedEdges E (setCircle (setCircle s line.v2 c1) line.v2 c2) line.v2)) :=
        fun c1 c2 => hs2 _ (setCircle_noSelfLoop _ _ (setCircle_noSelfLoop _ _ hl))
          (setCircle_syncedOff_self line.v2 _ (setCircle_syncedOff_self line.v2 _ (h0 _)))
      split_ifs
      · split
        · exact (calculateEdgeProps_geomSynced _ _ _).2 (hs3 _ _)
        · exact hs3 _ _
      · split
        · exact (calculateEdgeProps_geomSynced _ _ _).2 (hs3 _ _)
        · exact hs3 _ _
      · split
        · exact (calculateEdgeProps_geomSynced _ _ _).2 (hs2 s hl (h0 _))
        · exact hs2 s hl (h0 _)
    · exact h
  · exact h

theorem flag_geom (l : List Edge) (r : ERef) :
    (l.map (fun e => if e.ref = r then { e with initialMove := true } else e)).map
        (fun e => (e.v1, e.v2, e.x1, e.y1, e.x2, e.y2)) =
      l.map (fun e => (e.v1, e.v2, e.x1, e.y1, e.x2, e.y2)) := by
  rw [List.map_map]
  apply List.map_congr_left
  intro e _
  simp only [Function.comp]
  split_ifs <;> rfl

theorem onLineMoving_syncs (E : Env) (s : State) (r : ERef)
    (transform : Option ((ℚ × ℚ) × (ℚ × ℚ))) (hl : NoSelfLoop s) (h : GeomSynced s) :
    GeomSynced (onLineMoving E s r transform) := by
  unfold onLineMoving
  split
  · exact h
  · rename_i line _
    split
    · exact h
    · simp only []
      rw [detect_geomSynced]
      have fin : ∀ t : State, NoSelfLoop t →
          SyncedOff t (fun u => u = line.v1 ∨ u = line.v2) →
          GeomSynced (updateConnectedEdges E (updateConnectedEdges E t line.v1) line.v2) := by
        intro t htl hts
        refine (geomSynced_iff _).2 (syncedOff_mono ?_
          (updateConnectedEdges_syncedOff E line.v2 (updateConnectedEdges_noSelfLoop E _ htl)
            (updateConnectedEdges_syncedOff E line.v1 htl hts)))
        intro v hv
        rcases hv.1.1 with h1 | h1
        · exact hv.1.2 h1
        · exact hv.2 h1
      have hP : SyncedOff s (fun u => u = line.v1 ∨ u = line.v2) :=
        syncedOff_mono (fun _ hf => hf.elim) ((geomSynced_iff s).1 h)
      split_ifs
      · refine fin _ ?_ ?_
        · exact setCircle_noSelfLoop _ _ (setCircle_noSelfLoop _ _ (setCircle_noSelfLoop _ _
            (setCircle_noSelfLoop _ _ (noSelfLoop_of_geom (s := s) (flag_geom s.edges r) hl))))
        · refine setCircle_syncedOff _ _ (Or.inr rfl) (setCircle_syncedOff _ _ (Or.inl rfl)
            (setCircle_syncedOff _ _ (Or.inr rfl) (setCircle_syncedOff _ _ (Or.inl rfl) ?_)))
          exact syncedOff_of_geom (s := s) (flag_geom s.edges r) (fun _ _ => rfl) hP
      · refine fin _ (setCircle_noSelfLoop _ _ (setCircle_noSelfLoop _ _ hl)) ?_
        exact setCircle_syncedOff _ _ (Or.inr rfl) (setCircle_syncedOff _ _ (Or.inl rfl) hP)


theorem paramLine_facts : NoSelfLoop paramLine ∧ GeomSynced paramLine := by
  constructor
  · intro e he
    simp [paramLine, createEdge, createVertex, init] at he
    subst he
    decide
  · exact createEdge_geomSynced _ _ _ (fun e he => by simp [createVertex, init] at he)

/-- C11. Geometry stays derived from the vertices. Call a state synced when
for every edge `(x1, y1)` equals the position of `v1` and `(x2, y2)` the
position of `v2`. `createEdge` keeps a synced state synced (the new edge is
built from the two positions). On a synced state with no self-loop edge, the
state is synced again after `handleVertexDrag` (also when the pointer has just
moved the dragged vertex, with or without a snap), `mergeVertices`,
`handleVertexDrop`, the edge-drag handler, `onVertexInput` and
`updateEdgeFromParam`. `detectAndFillLoops` changes neither edges nor
positions, so the state it reads at the end of each handler is synced exactly
when the handler's result is. -/
theorem geometry_stays_derived (E : Env) (s : State) (hl : NoSelfLoop s) (h : GeomSynced s) :
    (∀ a b, GeomSynced (createEdge s a b).1) ∧
      (∀ v x y, GeomSynced (handleVertexDrag E (pointerMove s v x y) v)) ∧
      (∀ v, GeomSynced (handleVertexDrag E s v)) ∧
      (∀ a b, GeomSynced (mergeVertices E s a b)) ∧
      (∀ v, GeomSynced (handleVertexDrop E s v)) ∧
      (∀ r transform, GeomSynced (onLineMoving E s r transform)) ∧
      (∀ axis value, GeomSynced (onVertexInput E s axis value)) ∧
      (∀ type, GeomSynced (updateEdgeFromParam E s type)) ∧
      (∀ t, GeomSynced (detectAndFillLoops t) ↔ GeomSynced t) := by
  have h0 : ∀ v, SyncedOff s (fun u => u = v) :=
    fun v => syncedOff_mono (fun _ hf => hf.elim) ((geomSynced_iff s).1 h)
  refine ⟨fun a b => createEdge_geomSynced s a b h, ?_, ?_, fun a b => mergeVertices_syncs E s a b h,
    fun v => handleVertexDrop_syncs E s v h, fun r t => onLineMoving_syncs E s r t hl h,
    fun axis value => onVertexInput_syncs E s axis value hl h,
    fun type => updateEdgeFromParam_syncs E s type hl h, detect_geomSynced⟩
  · intro v x y
    exact handleVertexDrag_syncs E _ v (setCircle_noSelfLoop _ _ hl)
      (setCircle_syncedOff_self v _ (h0 v))
  · intro v
    exact handleVertexDrag_syncs E s v hl (h0 v)

/-- Witness for C11: the edge from (0, 0) to (10, 0) is synced and has no
self-loop; it is synced after its second vertex is dragged to (33, 41). -/
theorem geometry_stays_derived_witness :
    GeomSynced (handleVertexDrag sampleEnv (pointerMove paramLine 1 33 41) 1) :=
  (geometry_stays_derived sampleEnv paramLine paramLine_facts.1 paramLine_facts.2).2.1 1 33 41

/-! ## C12: the parametric-edit example -/

theorem exactTrig_facts (E : Env) (hE : ExactTrig E) :
    E.atan2 0 10 = 0 ∧ E.cos 0 = 1 ∧ E.sin 0 = 0 ∧ E.sqrt 100 = 10 ∧
      E.cos (90 * E.PI / 180) = 0 ∧ E.sin (90 * E.PI / 180) = 1 := by
  have h1 : ((E.atan2 0 10 : ℚ) : ℝ) = 0 := by
    rw [hE.atan2_axis]
    have : ((10 : ℝ) : ℂ) + ((0 : ℝ) : ℂ) * Complex.I = (((10 : ℝ)) : ℂ) := by simp
    rw [this, Complex.arg_ofReal_of_nonneg (by norm_num)]
  have h2 : ((E.cos 0 : ℚ) : ℝ) = 1 := by rw [hE.cos_zero, Real.cos_zero]
  have h3 : ((E.sin 0 : ℚ) : ℝ) = 0 := by rw [hE.sin_zero, Real.sin_zero]
  have h4 : ((E.sqrt 100 : ℚ) : ℝ) = 10 := by
    rw [hE.sqrt_hundred, show (100 : ℝ) = 10 * 10 by norm_num, Real.sqrt_mul_self (by norm_num)]
  have h5 : ((E.cos (90 * E.PI / 180) : ℚ) : ℝ) = 0 := by
    rw [hE.cos_right, show 90 * Real.pi / 180 = Real.pi / 2 by ring, Real.cos_pi_div_two]
  have h6 : ((E.sin (90 * E.PI / 180) : ℚ) : ℝ) = 1 := by
    rw [hE.sin_right, show 90 * Real.pi / 180 = Real.pi / 2 by ring, Real.sin_pi_div_two]
  exact ⟨by exact_mod_cast h1, by exact_mod_cast h2, by exact_mod_cast h3, by exact_mod_cast h4,
    by exact_mod_cast h5, by exact_mod_cast h6⟩

theorem exactEnv_exact (u : UnitSystem) : ExactTrig (exactEnv u) := by
  refine ⟨?_, ?_, ?_, ?_, ?_, ?_⟩
  · have : ((10 : ℝ) : ℂ) + ((0 : ℝ) : ℂ) * Complex.I = (((10 : ℝ)) : ℂ) := by simp
    rw [this, Complex.arg_ofReal_of_nonneg (by norm_num)]
    simp [exactEnv]
  · simp [exactEnv]
  · simp [exactEnv]
  · rw [show (100 : ℝ) = 10 * 10 by norm_num, Real.sqrt_mul_self (by norm_num)]
    simp [exactEnv]
  · rw [show 90 * Real.pi / 180 = Real.pi / 2 by ring, Real.cos_pi_div_two]
    norm_num [exactEnv]
  · rw [show 90 * Real.pi / 180 = Real.pi / 2 by ring, Real.sin_pi_div_two]
    norm_num [exactEnv]

theorem updateEdgeFromParam_length_pos (E : Env) (s : State) (r : ERef) (line : Edge)
    (hsel : s.modalSelectedObject = some (Obj.line r)) (hline : findLine s r = some line)
    (hne : line.v1 ≠ line.v2) :
    (updateEdgeFromParam E s "length").circles line.v1 = s.circles line.v1 ∧
      ((updateEdgeFromParam E s "length").circles line.v2).left =
        (s.circles line.v1).left +
          E.toPx s.edgeProps.length * E.cos (E.atan2 (line.y2 - line.y1) (line.x2 - line.x1)) ∧
      ((updateEdgeFromParam E s "length").circles line.v2).top =
        (s.circles line.v1).top +
          E.toPx s.edgeProps.length * E.sin (E.atan2 (line.y2 - line.y1) (line.x2 - line.x1)) := by
  unfold updateEdgeFromParam
  simp only [hsel, hline, if_true]
  split <;>
    simp [setCircle, Function.update_same, Function.update_noteq hne]

theorem updateEdgeFromParam_angle_pos (E : Env) (s : State) (r : ERef) (line : Edge)
    (hsel : s.modalSelectedObject = some (Obj.line r)) (hline : findLine s r = some line)
    (hne : line.v1 ≠ line.v2) :
    (updateEdgeFromParam E s "angle").circles line.v1 = s.circles line.v1 ∧
      ((updateEdgeFromParam E s "angle").circles line.v2).left =
        (s.circles line.v1).left +
          E.sqrt ((line.x2 - line.x1) * (line.x2 - line.x1) +
            (line.y2 - line.y1) * (line.y2 - line.y1)) * E.cos (s.edgeProps.angle * E.PI / 180) ∧
      ((updateEdgeFromParam E s "angle").circles line.v2).top =
        (s.circles line.v1).top +
          E.sqrt ((line.x2 - line.x1) * (line.x2 - line.x1) +
            (line.y2 - line.y1) * (line.y2 - line.y1)) * E.sin (s.edgeProps.angle * E.PI / 180) := by
  have hs : ("angle" = "length") = False := by decide
  unfold updateEdgeFromParam
  simp only [hsel, hline, hs, if_true, if_false]
  split <;>
    simp [setCircle, Function.update_same, Function.update_noteq hne]

theorem paramState_facts (E : Env) (length angle : ℚ) :
    (paramState E length angle).modalSelectedObject = some (Obj.line 2) ∧
      findLine (paramState E length angle) 2 =
        some { ref := 2, v1 := 0, v2 := 1, x1 := 0, y1 := 0, x2 := 10, y2 := 0,
               initialMove := false, v1OriginalSelection := some (0, 0),
               v2OriginalSelection := some (10, 0) } ∧
      (((paramState E length angle).circles 0).left = 0 ∧
        ((paramState E length angle).circles 0).top = 0) ∧
      (((paramState E length angle).circles 1).left = 10 ∧
        ((paramState E length angle).circles 1).top = 0) ∧
      (paramState E length angle).edgeProps = { length := length, angle := angle } ∧
      GeomSynced (paramState E length angle) := by
  refine ⟨?_, ?_, ?_, ?_, ?_, ?_⟩
  · simp [paramState, onModalSelection, paramLine, createEdge, createVertex, init, findLine,
      calculateEdgeProps]
  · simp [paramState, onModalSelection, paramLine, createEdge, createVertex, init, findLine,
      calculateEdgeProps]
  · simp [paramState, onModalSelection, paramLine, createEdge, createVertex, init, findLine,
      calculateEdgeProps]
  · simp [paramState, onModalSelection, paramLine, createEdge, createVertex, init, findLine,
      calculateEdgeProps]
  · rfl
  · simp [GeomSynced, paramState, onModalSelection, paramLine, createEdge, createVertex, init,
      findLine, calculateEdgeProps]

/-- C12, as stated, fails: in the unit system `mks`, the one selected when the
application starts, `toPx(20)` is 2000, and `updateEdgeFromParam('length')` with
the supplied length 20 on the edge from (0, 0) to (10, 0) leaves `v2` at
(2000, 0), not at (20, 0). -/
theorem param_length_scaled_by_unit :
    ExactTrig (exactEnv mks) ∧
      (((paramState (exactEnv mks) 20 0).circles 0).left = 0 ∧
        ((paramState (exactEnv mks) 20 0).circles 0).top = 0) ∧
      (((paramState (exactEnv mks) 20 0).circles 1).left = 10 ∧
        ((paramState (exactEnv mks) 20 0).circles 1).top = 0) ∧
      (paramState (exactEnv mks) 20 0).edgeProps.length = 20 ∧
      ((updateEdgeFromParam (exactEnv mks)
          (paramState (exactEnv mks) 20 0) "length").circles 1).left = 2000 ∧
      ((updateEdgeFromParam (exactEnv mks)
          (paramState (exactEnv mks) 20 0) "length").circles 1).left ≠ 20 := by
  obtain ⟨hsel, hline, h0, h1, hp, -⟩ := paramState_facts (exactEnv mks) 20 0
  have hpos := (updateEdgeFromParam_length_pos (exactEnv mks) _ 2 _ hsel hline
    (by decide)).2.1
  have hval : ((updateEdgeFromParam (exactEnv mks)
      (paramState (exactEnv mks) 20 0) "length").circles 1).left = 2000 := by
    simp only [] at hpos
    rw [hpos, h0.1, hp]
    norm_num [exactEnv, toPx, mks, jsRound]
  refine ⟨exactEnv_exact _, h0, h1, by rw [hp], hval, ?_⟩
  rw [hval]
  norm_num

/-- C12, amended. For the selected edge with `v1` at (0, 0) and `v2` at
(10, 0), the rendered endpoints in sync with the vertices, and numeric
functions that are exact on the arguments of the example:
`updateEdgeFromParam('length')` with the supplied length 20 leaves `v2` at
`(toPx(20), 0)`, which is `(20 * pixelsPerUnit, 0)` in each unit system of
`UNIT_SYSTEMS` and so (20, 0) in `mmgs`; `updateEdgeFromParam('angle')` with the supplied angle
90 leaves `v2` at (0, 10); `v1` stays at (0, 0) in both cases. -/
theorem updateEdgeFromParam_example (E : Env) (hE : ExactTrig E) (s : State) (r : ERef)
    (line : Edge) (hsel : s.modalSelectedObject = some (Obj.line r))
    (hline : findLine s r = some line) (hne : line.v1 ≠ line.v2) (hg : GeomSynced s)
    (hv1 : (s.circles line.v1).left = 0 ∧ (s.circles line.v1).top = 0)
    (hv2 : (s.circles line.v2).left = 10 ∧ (s.circles line.v2).top = 0) :
    (s.edgeProps.length = 20 →
        (((updateEdgeFromParam E s "length").circles line.v2).left = E.toPx 20 ∧
            ((updateEdgeFromParam E s "length").circles line.v2).top = 0) ∧
          (((updateEdgeFromParam E s "length").circles line.v1).left = 0 ∧
            ((updateEdgeFromParam E s "length").circles line.v1).top = 0) ∧
          (∀ u ∈ UNIT_SYSTEMS, E.toPx = toPx u →
            ((updateEdgeFromParam E s "length").circles line.v2).left = 20 * u.pixelsPerUnit) ∧
          (E.toPx = toPx mmgs →
            ((updateEdgeFromParam E s "length").circles line.v2).left = 20)) ∧
      (s.edgeProps.angle = 90 →
        (((updateEdgeFromParam E s "angle").circles line.v2).left = 0 ∧
            ((updateEdgeFromParam E s "angle").circles line.v2).top = 10) ∧
          (((updateEdgeFromParam E s "angle").circles line.v1).left = 0 ∧
            ((updateEdgeFromParam E s "angle").circles line.v1).top = 0)) := by
  obtain ⟨t1, t2, t3, t4, t5, t6⟩ := exactTrig_facts E hE
  have hmem : line ∈ s.edges := List.mem_of_find?_eq_some hline
  obtain ⟨⟨x1, y1⟩, x2, y2⟩ := hg line hmem
  rw [hv1.1] at x1
  rw [hv1.2] at y1
  rw [hv2.1] at x2
  rw [hv2.2] at y2
  constructor
  · intro hlen
    obtain ⟨p1, p2, p3⟩ := updateEdgeFromParam_length_pos E s r line hsel hline hne
    rw [x1, y1, x2, y2, hv1.1, hlen] at p2
    rw [x1, y1, x2, y2, hv1.2, hlen] at p3
    norm_num [t1, t2, t3] at p2 p3
    refine ⟨⟨p2, p3⟩, ⟨by rw [p1]; exact hv1.1, by rw [p1]; exact hv1.2⟩, ?_, ?_⟩
    · intro u hu hppu
      rw [p2, hppu]
      simp only [UNIT_SYSTEMS, List.mem_cons, List.mem_singleton, List.not_mem_nil, or_false] at hu
      rcases hu with rfl | rfl | rfl <;> norm_num [toPx, mks, mmgs, ips, jsRound]
    · intro hppu
      rw [p2, hppu]
      norm_num [toPx, mmgs, jsRound]
  · intro hang
    obtain ⟨p1, p2, p3⟩ := updateEdgeFromParam_angle_pos E s r line hsel hline hne
    rw [x1, y1, x2, y2, hv1.1, hang] at p2
    rw [x1, y1, x2, y2, hv1.2, hang] at p3
    norm_num [t4, t5, t6] at p2 p3
    exact ⟨⟨p2, p3⟩, by rw [p1]; exact hv1.1, by rw [p1]; exact hv1.2⟩

/-- Witness for C12: the example edge, selected, in the unit system `mmgs`. -/
theorem updateEdgeFromParam_example_witness :
    ((updateEdgeFromParam (exactEnv mmgs)
        (paramState (exactEnv mmgs) 20 90) "length").circles 1).left = 20 ∧
      ((updateEdgeFromParam (exactEnv mmgs)
        (paramState (exactEnv mmgs) 20 90) "angle").circles 1).top = 10 :=
  have hf := paramState_facts (exactEnv mmgs) 20 90
  have h := updateEdgeFromParam_example (exactEnv mmgs)
    (exactEnv_exact mmgs) (paramState (exactEnv mmgs) 20 90) 2 _
    hf.1 hf.2.1 (by decide) hf.2.2.2.2.2 hf.2.2.1 hf.2.2.2.1
  ⟨(h.1 (by rw [hf.2.2.2.2.1])).2.2.2 rfl, (h.2 (by rw [hf.2.2.2.2.1])).1.2⟩


/-! ## C16: anchors of an edge drag -/

theorem addModalLine_facts :
    (addModalLine init 1 2).edges =
        [{ ref := 2, v1 := 0, v2 := 1, x1 := 100, y1 := 100, x2 := 200, y2 := 200,
           initialMove := false, v1OriginalSelection := none, v2OriginalSelection := none }] ∧
      (addModalLine init 1 2).circles 0 =
        { id := 1, left := 100, top := 100, fill := "#e74c3c", snapTarget := none,
          originalLeft := 0, originalTop := 0 } ∧
      (addModalLine init 1 2).circles 1 =
        { id := 2, left := 200, top := 200, fill := "#e74c3c", snapTarget := none,
          originalLeft := 0, originalTop := 0 } ∧
      (addModalLine init 1 2).modalGridSize = 50 ∧
      (addModalLine init 1 2).modalSelectedObject = none := by
  refine ⟨?_, ?_, ?_, ?_, ?_⟩
  · simp [addModalLine, createVertex, createEdge, init]
  · simp [addModalLine, createVertex, createEdge, init]
  · simp [addModalLine, createVertex, createEdge, init]
  · rw [addModalLine, (detect_rest _).2.2.2.2]; rfl
  · rw [addModalLine, (detect_rest _).2.1]; rfl

theorem roundToGrid_50 :
    roundToGrid (100 + 50) 50 = 150 ∧ roundToGrid 100 50 = 100 ∧
      roundToGrid (200 + 50) 50 = 250 ∧ roundToGrid 200 50 = 200 ∧
      roundToGrid (150 + 50) 50 = 200 ∧ roundToGrid (250 + 50) 50 = 300 := by
  norm_num [roundToGrid, jsRound]

theorem updateConnectedEdges_gridSize (E : Env) (s : State) (v : VRef) :
    (updateConnectedEdges E s v).modalGridSize = s.modalGridSize := by
  unfold updateConnectedEdges
  simp only []
  split
  · split
    · split <;> rfl
    · rfl
  · rfl

theorem onLineMoving_gridSize (E : Env) (s : State) (r : ERef)
    (transform : Option ((ℚ × ℚ) × (ℚ × ℚ))) :
    (onLineMoving E s r transform).modalGridSize = s.modalGridSize := by
  unfold onLineMoving
  split
  · rfl
  · split
    · rfl
    · simp only []
      rw [(detect_rest _).2.2.2.2, updateConnectedEdges_gridSize, updateConnectedEdges_gridSize]
      split_ifs <;> rfl

theorem draggedOnce_facts :
    draggedOnce.edges =
        [{ ref := 2, v1 := 0, v2 := 1, x1 := 150, y1 := 100, x2 := 250, y2 := 200,
           initialMove := true, v1OriginalSelection := none, v2OriginalSelection := none }] ∧
      draggedOnce.circles 0 =
        { id := 1, left := 150, top := 100, fill := "#e74c3c", snapTarget := none,
          originalLeft := 100, originalTop := 100 } ∧
      draggedOnce.circles 1 =
        { id := 2, left := 250, top := 200, fill := "#e74c3c", snapTarget := none,
          originalLeft := 200, originalTop := 200 } ∧
      draggedOnce.modalGridSize = 50 := by
  obtain ⟨he, h0, h1, hg, hsel⟩ := addModalLine_facts
  obtain ⟨r1, r2, r3, r4, -, -⟩ := roundToGrid_50
  have hm : (dragMove sampleEnv (addModalLine init 1 2) 2 150 150 50 0).modalGridSize = 50 := by
    rw [dragMove, onLineMoving_gridSize, hg]
  refine ⟨?_, ?_, ?_, ?_⟩
  · simp [draggedOnce, onLineModified, dragMove, onLineMoving, findLine, he, h0, h1, hg, setCircle,
      syncEdge, r1, r2, r3, r4]
  · simp [draggedOnce, onLineModified, dragMove, onLineMoving, findLine, he, h0, h1, hg, setCircle,
      r1, r2, r3, r4]
  · simp [draggedOnce, onLineModified, dragMove, onLineMoving, findLine, he, h0, h1, hg, setCircle,
      r1, r2, r3, r4]
  · exact hm


/-- C16 on the code: the line of `addModalLine` (endpoints at (100, 100) and
(200, 200), grid size 50) is dragged by (50, 0) and released, which leaves its
endpoints at (150, 100) and (250, 200). A move event of a second drag of the
same line, again by (50, 0), should place them at (200, 100) and (300, 200);
the handler finds `__initialMove` still set, adds the delta to the anchors stored
by the first drag, and leaves the endpoints at (150, 100) and (250, 200). -/
theorem second_edge_drag_uses_stale_anchors :
    (((draggedOnce.circles 0).left, (draggedOnce.circles 0).top) = (150, 100) ∧
        ((draggedOnce.circles 1).left, (draggedOnce.circles 1).top) = (250, 200) ∧
        draggedOnce.modalGridSize = 50) ∧
      (roundToGrid ((draggedOnce.circles 0).left + 50) draggedOnce.modalGridSize,
          roundToGrid ((draggedOnce.circles 0).top + 0) draggedOnce.modalGridSize) = (200, 100) ∧
      (roundToGrid ((draggedOnce.circles 1).left + 50) draggedOnce.modalGridSize,
          roundToGrid ((draggedOnce.circles 1).top + 0) draggedOnce.modalGridSize) = (300, 200) ∧
      (((dragMove sampleEnv draggedOnce 2 200 150 50 0).circles 0).left,
          ((dragMove sampleEnv draggedOnce 2 200 150 50 0).circles 0).top) = (150, 100) ∧
      (((dragMove sampleEnv draggedOnce 2 200 150 50 0).circles 1).left,
          ((dragMove sampleEnv draggedOnce 2 200 150 50 0).circles 1).top) = (250, 200) := by
  obtain ⟨he, h0, h1, hg⟩ := draggedOnce_facts
  obtain ⟨r1, r2, r3, r4, r5, r6⟩ := roundToGrid_50
  refine ⟨?_, ?_, ?_, ?_, ?_⟩
  · simp [h0, h1, hg]
  · simp [h0, hg, r5, r2]
  · simp [h1, hg, r6, r4]
  · simp [dragMove, onLineMoving, findLine, he, h0, h1, hg, setCircle, r1, r2, r3, r4]
  · simp [dragMove, onLineMoving, findLine, he, h0, h1, hg, setCircle, r1, r2, r3, r4]

/-! ## C14: the selection after a drop that merges -/

theorem handleVertexDrag_selObject (E : Env) (s : State) (v : VRef) :
    (handleVertexDrag E s v).modalSelectedObject = s.modalSelectedObject := by
  unfold handleVertexDrag dragSnap
  simp only [detect_selObject, updateConnectedEdges_selObject]
  split <;> simp [setCircle, updateConnectedEdges_selObject]

theorem grabbedFirst_facts :
    grabbedFirst.vertices = [0, 1] ∧
      ((grabbedFirst.circles 0).left = 198 ∧ (grabbedFirst.circles 0).top = 203) ∧
      ((grabbedFirst.circles 1).left = 200 ∧ (grabbedFirst.circles 1).top = 200) ∧
      grabbedFirst.modalGridSize = 50 ∧
      grabbedFirst.modalSelectedObject = some (Obj.circle 0) := by
  refine ⟨?_, ?_, ?_, ?_, ?_⟩
  · simp [grabbedFirst, pointerMove, setCircle, onModalSelection, addModalLine, createVertex,
      createEdge, init]
  · simp [grabbedFirst, pointerMove, setCircle, onModalSelection, addModalLine, createVertex,
      createEdge, init]
  · simp [grabbedFirst, pointerMove, setCircle, onModalSelection, addModalLine, createVertex,
      createEdge, init]
  · simp only [grabbedFirst, pointerMove, setCircle, onModalSelection, addModalLine,
      List.length_singleton, lt_self_iff_false, if_false, Option.none_orElse, List.head?_cons]
    rw [(detect_rest _).2.2.2.2]
    rfl
  · simp [grabbedFirst, pointerMove, setCircle, onModalSelection]

theorem roundToGrid_198_203 : roundToGrid 198 50 = 200 ∧ roundToGrid 203 50 = 200 := by
  norm_num [roundToGrid, jsRound]

/-- C14 on the code: the first vertex of the line of `addModalLine` is selected
and dragged onto the second, and the pointer is released, so that
`handleVertexDrop` merges it into the second vertex. With a canvas that fires
`selection:cleared` when its active object is removed, the handler of this
file has emptied the selection before `mergeVertices` tests
`modalSelectedObject.value === sourceV`: after the merge nothing is selected,
where the selection should have moved to the target, vertex 1. -/
theorem drop_merge_empties_selection :
    sampleEnv.removeFiresCleared = true ∧
      dragOntoSecond.modalSelectedObject = some (Obj.circle 0) ∧
      (dragOntoSecond.circles 0).snapTarget = some 1 ∧
      handleVertexDrop sampleEnv dragOntoSecond 0 = mergeVertices sampleEnv dragOntoSecond 0 1 ∧
      (handleVertexDrop sampleEnv dragOntoSecond 0).vertices = [1] ∧
      (handleVertexDrop sampleEnv dragOntoSecond 0).modalSelectedObject = none ∧
      (handleVertexDrop sampleEnv dragOntoSecond 0).modalSelectedType = none := by
  obtain ⟨hv, ⟨a1, a2⟩, ⟨b1, b2⟩, hg, hsel0⟩ := grabbedFirst_facts
  have hr : roundedPos grabbedFirst 0 = (200, 200) := by
    simp only [roundedPos, a1, a2, hg, roundToGrid_198_203]
  have hsel : dragOntoSecond.modalSelectedObject = some (Obj.circle 0) := by
    rw [dragOntoSecond, handleVertexDrag_selObject, hsel0]
  have hsnap : (dragOntoSecond.circles 0).snapTarget = some 1 := by
    rw [dragOntoSecond, handleVertexDrag_snapTarget, hv]
    norm_num [InSnapRange, hr, distSq, SNAP_DIST, b1, b2]
  have hdrop : handleVertexDrop sampleEnv dragOntoSecond 0 =
      mergeVertices sampleEnv dragOntoSecond 0 1 := by
    unfold handleVertexDrop
    rw [hsnap]
  have hcl := mergeVertices_selection_cleared sampleEnv dragOntoSecond 0 1 rfl hsel
  refine ⟨rfl, hsel, hsnap, hdrop, ?_, ?_, ?_⟩
  · rw [hdrop, mergeVertices_vertices, dragOntoSecond, handleVertexDrag_vertices, hv]
    decide
  · rw [hdrop]
    exact hcl.1
  · rw [hdrop]
    exact hcl.2

/-! ## C10: the postcondition of `updateConnectedEdges` -/

theorem noSelfLoop_iff (s : State) : NoSelfLoop s ↔ ∀ p ∈ endpoints s, p.1 ≠ p.2 := by
  simp [NoSelfLoop, endpoints]

theorem noSelfLoop_of_endpoints {s t : State} (he : endpoints t = endpoints s)
    (h : NoSelfLoop s) : NoSelfLoop t := by
  rw [noSelfLoop_iff] at h ⊢
  rw [he]
  exact h

theorem mergeVertices_noSelfLoop (E : Env) (s : State) (a b : VRef) :
    NoSelfLoop (mergeVertices E s a b) := by
  rw [noSelfLoop_iff, mergeVertices_endpoints]
  intro p hp
  simp only [List.mem_map, List.mem_filter, decide_eq_true_eq] at hp
  obtain ⟨e, ⟨-, hne⟩, rfl⟩ := hp
  exact hne

theorem addModalLine_noSelfLoop (s : State) (a b : Nat) (h : NoSelfLoop s) :
    NoSelfLoop (addModalLine s a b) := by
  unfold addModalLine
  simp only [NoSelfLoop, detect_edges, createEdge, createVertex]
  intro e he
  simp only [List.mem_append, List.mem_singleton] at he
  rcases he with he | rfl
  · exact h e he
  · simp

theorem add_three_ne (n : Nat) : ¬ n + 1 + 1 + 1 = n := by omega

theorem add_four_ne (n : Nat) : ¬ n + 1 + 1 + 1 + 1 = n := by omega

theorem addModalRectGraph_noSelfLoop (s : State) (a b c d : Nat) (h : NoSelfLoop s) :
    NoSelfLoop (addModalRectGraph s a b c d) := by
  unfold addModalRectGraph
  simp only [NoSelfLoop, detect_edges, createEdge, createVertex]
  intro e he
  simp only [List.mem_append, List.mem_singleton] at he
  rcases he with (((he | rfl) | rfl) | rfl) | rfl
  · exact h e he
  all_goals first | (simp; done) | (simp; exact add_three_ne _)

theorem addModalPolygonGraph_noSelfLoop (E : Env) (s : State) (ids : Nat → Nat)
    (h : NoSelfLoop s) : NoSelfLoop (addModalPolygonGraph E s ids) := by
  unfold addModalPolygonGraph
  simp only [NoSelfLoop, detect_edges, range_five, List.foldl_cons,
    List.foldl_nil, createEdge, createVertex, List.nil_append, List.cons_append]
  intro e he
  simp only [List.mem_append, List.mem_singleton] at he
  rcases he with ((((he | rfl) | rfl) | rfl) | rfl) | rfl
  · exact h e he
  all_goals first | (simp; done) | (simp; exact add_four_ne _)

/-- No handler makes a self-loop edge: the empty graph has none, and every
mutation of the model keeps the edge list free of edges with `v1 == v2`
(`createEdge` is only called on two vertices just created, and `mergeVertices`
drops the edges its rewiring turned into self-loops). -/
theorem noSelfLoop_invariant :
    NoSelfLoop init ∧
      ∀ (E : Env) (s : State) (op : Op), NoSelfLoop s → NoSelfLoop (step E s op) := by
  refine ⟨by simp [NoSelfLoop, init], ?_⟩
  intro E s op h
  cases op with
  | addModalLine a b => exact addModalLine_noSelfLoop s a b h
  | addModalRectGraph a b c d => exact addModalRectGraph_noSelfLoop s a b c d h
  | addModalPolygonGraph ids => exact addModalPolygonGraph_noSelfLoop E s ids h
  | handleVertexDrag v => exact noSelfLoop_of_endpoints (handleVertexDrag_endpoints E s v) h
  | handleVertexDrop v =>
    show NoSelfLoop (handleVertexDrop E s v)
    unfold handleVertexDrop
    split
    · exact mergeVertices_noSelfLoop E s v _
    · exact noSelfLoop_of_endpoints (detect_endpoints s) h
  | mergeVertices a b => exact mergeVertices_noSelfLoop E s a b
  | lineMoving r t => exact noSelfLoop_of_endpoints (onLineMoving_endpoints E s r t) h
  | lineModified r => exact noSelfLoop_of_endpoints (onLineModified_endpoints s r) h
  | onVertexInput axis value =>
    exact noSelfLoop_of_endpoints (onVertexInput_endpoints E s axis value) h
  | updateEdgeFromParam t => exact noSelfLoop_of_endpoints (updateEdgeFromParam_endpoints E s t) h
  | detectAndFillLoops => exact noSelfLoop_of_endpoints (detect_endpoints s) h
  | select sel t => exact noSelfLoop_of_endpoints (onModalSelection_endpoints E s sel t) h
  | selectionCleared => exact noSelfLoop_of_endpoints (onSelectionCleared_endpoints s) h
  | pointerMove v x y => exact h
  | setAutoFill b => exact h
  | setGridSize g => exact h
  | setEdgeProps l a => exact h

/-- C10. Edge sync postcondition. The edge lists the handlers work on have no
edge from a vertex to itself (`noSelfLoop_invariant`). For every such edge
list and every vertex, after `updateConnectedEdges(vertex)` every edge with
`v1 == vertex` has `(x1, y1)` equal to the current `(left, top)` of the vertex
and every edge with `v2 == vertex` has `(x2, y2)` equal to it; endpoints that
do not reference the vertex, the vertex list, the positions and the `v1` /
`v2` references of the edges are unchanged. -/
theorem updateConnectedEdges_postcondition (E : Env) (s : State) (vertex : VRef)
    (hl : NoSelfLoop s) :
    (updateConnectedEdges E s vertex).vertices = s.vertices ∧
      (updateConnectedEdges E s vertex).circles = s.circles ∧
      List.Forall₂
        (fun e e2 =>
          e2.v1 = e.v1 ∧ e2.v2 = e.v2 ∧
            (e.v1 = vertex →
              e2.x1 = (s.circles vertex).left ∧ e2.y1 = (s.circles vertex).top) ∧
            (e.v2 = vertex →
              e2.x2 = (s.circles vertex).left ∧ e2.y2 = (s.circles vertex).top) ∧
            (e.v1 ≠ vertex → e2.x1 = e.x1 ∧ e2.y1 = e.y1) ∧
            (e.v2 ≠ vertex → e2.x2 = e.x2 ∧ e2.y2 = e.y2))
        s.edges (updateConnectedEdges E s vertex).edges ∧
      ∀ e2 ∈ (updateConnectedEdges E s vertex).edges,
        (e2.v1 = vertex →
          e2.x1 = ((updateConnectedEdges E s vertex).circles vertex).left ∧
            e2.y1 = ((updateConnectedEdges E s vertex).circles vertex).top) ∧
          (e2.v2 = vertex →
            e2.x2 = ((updateConnectedEdges E s vertex).circles vertex).left ∧
              e2.y2 = ((updateConnectedEdges E s vertex).circles vertex).top) := by
  have hone : ∀ e ∈ s.edges,
      (syncEdge s vertex e).v1 = e.v1 ∧ (syncEdge s vertex e).v2 = e.v2 ∧
        (e.v1 = vertex → (syncEdge s vertex e).x1 = (s.circles vertex).left ∧
          (syncEdge s vertex e).y1 = (s.circles vertex).top) ∧
        (e.v2 = vertex → (syncEdge s vertex e).x2 = (s.circles vertex).left ∧
          (syncEdge s vertex e).y2 = (s.circles vertex).top) ∧
        (e.v1 ≠ vertex → (syncEdge s vertex e).x1 = e.x1 ∧ (syncEdge s vertex e).y1 = e.y1) ∧
        (e.v2 ≠ vertex → (syncEdge s vertex e).x2 = e.x2 ∧ (syncEdge s vertex e).y2 = e.y2) := by
    intro e he
    have hne := hl e he
    unfold syncEdge
    by_cases h1 : e.v1 = vertex
    · have h2 : e.v2 ≠ vertex := fun h2 => hne (h1.trans h2.symm)
      simp [h1, h2]
    · by_cases h2 : e.v2 = vertex
      · simp [h1, h2]
      · simp [h1, h2]
  refine ⟨by simp, by simp, ?_, ?_⟩
  · rw [updateConnectedEdges_edges, List.forall₂_map_right_iff]
    exact List.forall₂_same.2 hone
  · intro e2 he2
    rw [updateConnectedEdges_edges] at he2
    obtain ⟨e, he, rfl⟩ := List.mem_map.1 he2
    have h := hone e he
    rw [updateConnectedEdges_circles, h.1, h.2.1]
    exact ⟨h.2.2.1, h.2.2.2.1⟩

/-- Witness for C10: the line of `addModalLine`, made by a handler on the empty
graph, after the pointer has moved its first vertex to (130, 140). -/
theorem updateConnectedEdges_postcondition_witness :
    List.Forall₂
      (fun e e2 =>
        e2.v1 = e.v1 ∧ e2.v2 = e.v2 ∧
          (e.v1 = 0 →
            e2.x1 = ((step sampleEnv (step sampleEnv init (Op.addModalLine 1 2))
                (Op.pointerMove 0 130 140)).circles 0).left ∧
              e2.y1 = ((step sampleEnv (step sampleEnv init (Op.addModalLine 1 2))
                (Op.pointerMove 0 130 140)).circles 0).top) ∧
          (e.v2 = 0 →
            e2.x2 = ((step sampleEnv (step sampleEnv init (Op.addModalLine 1 2))
                (Op.pointerMove 0 130 140)).circles 0).left ∧
              e2.y2 = ((step sampleEnv (step sampleEnv init (Op.addModalLine 1 2))
                (Op.pointerMove 0 130 140)).circles 0).top) ∧
          (e.v1 ≠ 0 → e2.x1 = e.x1 ∧ e2.y1 = e.y1) ∧
          (e.v2 ≠ 0 → e2.x2 = e.x2 ∧ e2.y2 = e.y2))
      (step sampleEnv (step sampleEnv init (Op.addModalLine 1 2))
        (Op.pointerMove 0 130 140)).edges
      (updateConnectedEdges sampleEnv
        (step sampleEnv (step sampleEnv init (Op.addModalLine 1 2)) (Op.pointerMove 0 130 140))
        0).edges :=
  (updateConnectedEdges_postcondition sampleEnv
    (step sampleEnv (step sampleEnv init (Op.addModalLine 1 2)) (Op.pointerMove 0 130 140)) 0
    (noSelfLoop_invariant.2 sampleEnv _ (Op.pointerMove 0 130 140)
      (noSelfLoop_invariant.2 sampleEnv init (Op.addModalLine 1 2) noSelfLoop_invariant.1))).2.2.1

end LayoutTool
